import Mathlib

/-! Proxy core of memcached (`proto_proxy.c`): request parser, client adapter and backends.

A shallow embedding of the request parser (`process_request`, `mcp_new_request`),
the client connection adapter (`try_read_command_proxy`, `process_proxy_command`,
`complete_nread_proxy`, `proxy_complete_cb`), the deferred-IO constructor
(`mcp_queue_io`), the hash selector (`mcplib_hash_selector`,
`mcplib_hash_selector_call`) and the backend side (`mcplib_server`, `proxy_submit_cb`,
`_flush_pending_write`, `proxy_server_handler`, `proxy_server_drive_machine`) of
`proto_proxy.c`.

Conventions of the embedding:

* a byte is a `Nat` (only compared with ASCII constants by the code);
* a `char *` into the client read buffer is an offset into the list of bytes that
  starts at `command`; a read past the end of the list yields `0`;
* C integers are `Nat`/`Int` with explicit wrap-around (`size_t` is 64 bit, `long` is
  64 bit, `int` is 32 bit: the LP64 data model the server is built for);
* what the embedded Lua interpreter and the allocator answer is supplied by an
  explicit environment (`Env`);
* a pointer to a pending IO is its position in the list of pending IOs of the shared
  memory (`proxy_heap`), `none` being `NULL`;
* what the backend client library answers is supplied as a list of answers that the
  calls take in order (`mcmc_answer`).
-/

namespace Proxy

/-! ## Bytes and C library functions -/

/-- The bytes of a string literal. -/
def bytes (s : String) : List Nat := s.toList.map Char.toNat

/-- Reading one byte through a pointer at offset `i` of the buffer. -/
def peek (buf : List Nat) (i : Nat) : Nat := buf.getD i 0

/-- The `isspace` of the C locale: space, `\t`, `\n`, `\v`, `\f`, `\r`. -/
def isspace (c : Nat) : Bool := c == 32 || (9 ≤ c && c ≤ 13)

/-- The `isdigit` of C. -/
def isdigit (c : Nat) : Bool := 48 ≤ c && c ≤ 57

/-- Length of the longest prefix all of whose bytes satisfy `p`. -/
def spanLen (p : Nat → Bool) : List Nat → Nat
  | [] => 0
  | c :: cs => if p c then spanLen p cs + 1 else 0

/-- Value of a run of decimal digits, accumulated left to right. -/
def digitsVal (acc : Nat) : List Nat → Nat
  | [] => acc
  | c :: cs => digitsVal (acc * 10 + (c - 48)) cs

def ULONG_MAX : Nat := 2 ^ 64 - 1
def LONG_MAX : Int := 2 ^ 63 - 1
def LONG_MIN : Int := -(2 ^ 63)
def INT_MAX : Int := 2 ^ 31 - 1
def INT_MIN : Int := -(2 ^ 31)
def UINT32_MAX : Nat := 2 ^ 32 - 1
def SIZE_MOD : Nat := 2 ^ 64

/-- Result of a `strtol`-family call: the value, `*endptr`, and whether `errno` was set
to `ERANGE`. -/
structure strto_result (α : Type) where
  value : α
  endptr : Nat
  erange : Bool
deriving DecidableEq, Repr

/-- The subject sequence of `strtol`/`strtoul` in base 10 at offset `nptr`: number of
white-space bytes skipped, whether a minus sign is present, length of the sign, and
number of digits. -/
def strto_subject (buf : List Nat) (nptr : Nat) : Nat × Bool × Nat × Nat :=
  let rest := buf.drop nptr
  let ws := spanLen isspace rest
  let rest1 := rest.drop ws
  let neg := rest1.head? == some 45
  let sl := if rest1.head? == some 45 || rest1.head? == some 43 then 1 else 0
  let nd := spanLen isdigit (rest1.drop sl)
  (ws, neg, sl, nd)

/-- ISO C `strtoul(nptr, &endptr, 10)` with `errno` cleared beforehand, for a 64-bit
`unsigned long`. Without digits no conversion is performed and `endptr = nptr`; a value
above `ULONG_MAX` gives `ULONG_MAX` and `ERANGE`; a minus sign negates in the unsigned
type. -/
def strtoul (buf : List Nat) (nptr : Nat) : strto_result Nat :=
  match strto_subject buf nptr with
  | (ws, neg, sl, nd) =>
    if nd = 0 then ⟨0, nptr, false⟩
    else
      let v := digitsVal 0 ((buf.drop (nptr + ws + sl)).take nd)
      let e := nptr + ws + sl + nd
      if v > ULONG_MAX then ⟨ULONG_MAX, e, true⟩
      else ⟨if neg then (2 ^ 64 - v) % 2 ^ 64 else v, e, false⟩

/-- ISO C `strtol(nptr, &endptr, 10)` with `errno` cleared beforehand, for a 64-bit
`long`. Out-of-range values give `LONG_MAX`/`LONG_MIN` and `ERANGE`. -/
def strtol (buf : List Nat) (nptr : Nat) : strto_result Int :=
  match strto_subject buf nptr with
  | (ws, neg, sl, nd) =>
    if nd = 0 then ⟨0, nptr, false⟩
    else
      let v : Int := digitsVal 0 ((buf.drop (nptr + ws + sl)).take nd)
      let e := nptr + ws + sl + nd
      if neg then
        if -v < LONG_MIN then ⟨LONG_MIN, e, true⟩ else ⟨-v, e, false⟩
      else
        if v > LONG_MAX then ⟨LONG_MAX, e, true⟩ else ⟨v, e, false⟩

/-- Conversion of an `unsigned long` to `uint32_t`. -/
def to_uint32 (v : Nat) : Nat := v % 2 ^ 32

/-- Conversion of a `long` to `int` (two's complement truncation). -/
def to_int (v : Int) : Int := (v + 2 ^ 31) % 2 ^ 32 - 2 ^ 31

/-- ISO C `strncmp` on two byte sequences, the end of a list standing for the
terminating NUL. -/
def strncmp : List Nat → List Nat → Nat → Int
  | _, _, 0 => 0
  | a, b, n + 1 =>
    let x := a.headD 0
    let y := b.headD 0
    if x ≠ y then (x : Int) - (y : Int)
    else if x = 0 then 0
    else strncmp a.tail b.tail n

/-! ## Request object -/

def MAX_REQ_TOKENS : Nat := 2

/-- Modelled from the spec: the index of the command token (`COMMAND_TOKEN`, declared in
a header that is not part of the sources); the command is the first of the two slots. -/
def COMMAND_TOKEN : Nat := 0

/-- Modelled from the spec: the index of the key token (`KEY_TOKEN`, declared in a header
that is not part of the sources); the key is the second of the two slots. -/
def KEY_TOKEN : Nat := 1

/-- Modelled from the spec: a token slice (`token_t`, declared in a header that is not
part of the sources): a pointer into the raw bytes and a length. -/
structure token_t where
  value : Nat
  length : Nat
deriving DecidableEq, Repr

/-- The struct `mcp_request_t`. `tokens` maps a slot index to its content; the array
has `MAX_REQ_TOKENS` slots. -/
structure mcp_request_t where
  request : List Nat
  reqlen : Nat
  tokens : Nat → token_t
  ntokens : Nat
  command : Int
  lua_key : Bool
  flags : Nat
  exptime : Int
  vlen : Int
  buf : Option (List Nat)

/-- The enum `proxy_defines`: `P_OK = 0`, `CMD_ANY`, then `CMD_FIELDS` in order. -/
def P_OK : Int := 0
def CMD_ANY : Int := 1
def CMD_MG : Int := 2
def CMD_MS : Int := 3
def CMD_MD : Int := 4
def CMD_MN : Int := 5
def CMD_MA : Int := 6
def CMD_ME : Int := 7
def CMD_GET : Int := 8
def CMD_GAT : Int := 9
def CMD_SET : Int := 10
def CMD_ADD : Int := 11
def CMD_CAS : Int := 12
def CMD_LRU : Int := 13
def CMD_GETS : Int := 14
def CMD_GATS : Int := 15
def CMD_INCR : Int := 16
def CMD_DECR : Int := 17
def CMD_QUIT : Int := 18
def CMD_STATS : Int := 19
def CMD_SLABS : Int := 20
def CMD_TOUCH : Int := 21
def CMD_WATCH : Int := 22
def CMD_APPEND : Int := 23
def CMD_DELETE : Int := 24

/-- Assignment to one slot of the token array. -/
def setTok (toks : Nat → token_t) (i : Nat) (t : token_t) : Nat → token_t :=
  fun j => if j = i then t else toks j

/-- Local variables of the token scan of `process_request` when the loop is left. -/
structure scan_state where
  cur : Nat
  s : Nat
  token : Nat
  tokens : Nat → token_t

/-- The `for (size_t i = cmdlen-2; i != 0; i--)` loop of `process_request`; the first
argument is `i`. -/
def tokenScan (buf : List Nat) : Nat → Nat → Nat → Nat → (Nat → token_t) → scan_state
  | 0, cur, s, token, toks => ⟨cur, s, token, toks⟩
  | i + 1, cur, s, token, toks =>
    if peek buf cur = 32 then
      if token + 1 = MAX_REQ_TOKENS then
        ⟨cur + 1, cur + 1, token + 1, setTok toks token ⟨s, cur - s⟩⟩
      else
        tokenScan buf i (cur + 1) (cur + 1) (token + 1) (setTok toks token ⟨s, cur - s⟩)
    else
      tokenScan buf i (cur + 1) s token toks

/-- The token scan followed by the `if (s != cur)` that closes the last token. -/
def tokenize (rq : mcp_request_t) (command : List Nat) (cmdlen : Nat) : scan_state :=
  let st := tokenScan command ((cmdlen + SIZE_MOD - 2) % SIZE_MOD) 0 0 0 rq.tokens
  if st.s ≠ st.cur then
    ⟨st.cur, st.s, st.token + 1, setTok st.tokens st.token ⟨st.s, st.cur - st.s⟩⟩
  else st

/-- The `set` branch of `process_request`, entered at `cur` with `token` tokens found.
Every early `return` leaves `rq` as it is. -/
def parse_set (rq : mcp_request_t) (command : List Nat) (cur token : Nat) : mcp_request_t :=
  if token ≠ 2 then rq
  else
    let r1 := strtoul command cur
    if r1.erange || cur == r1.endptr || peek command r1.endptr != 32 then rq
    else
      let flags := to_uint32 r1.value
      let r2 := strtol command r1.endptr
      if r2.erange || r1.endptr == r2.endptr || peek command r2.endptr != 32 then rq
      else
        let exptime := to_int r2.value
        let r3 := strtol command r2.endptr
        if r3.erange || r2.endptr == r3.endptr then rq
        else
          let vlen := to_int r3.value
          if vlen < 0 || vlen > INT_MAX - 2 then rq
          else
            { rq with flags := flags, exptime := exptime, vlen := vlen + 2, command := CMD_SET }

/-- The `switch (cl)` of `process_request` with the final `rq->command = cmd`; `cur` and
`token` are the locals left by the token scan. -/
def dispatch_command (rq : mcp_request_t) (command : List Nat) (cur token : Nat) :
    mcp_request_t :=
  let cm := (rq.tokens COMMAND_TOKEN).value
  let cl := (rq.tokens COMMAND_TOKEN).length
  if cl = 0 ∨ cl = 1 then { rq with command := -1 }
  else if cl = 2 then
    if peek command cm = 109 then
      if peek command (cm + 1) = 103 then { rq with command := CMD_MG }
      else if peek command (cm + 1) = 115 then { rq with command := CMD_MS }
      else if peek command (cm + 1) = 100 then { rq with command := CMD_MD }
      else if peek command (cm + 1) = 110 then { rq with command := CMD_MN }
      else if peek command (cm + 1) = 97 then { rq with command := CMD_MA }
      else if peek command (cm + 1) = 101 then { rq with command := CMD_ME }
      else { rq with command := -1 }
    else { rq with command := -1 }
  else if cl = 3 then
    if peek command cm = 103 ∧ peek command (cm + 1) = 101 ∧ peek command (cm + 2) = 116 then
      { rq with command := CMD_GET }
    else if peek command cm = 115 ∧ peek command (cm + 1) = 101 ∧
        peek command (cm + 2) = 116 then
      parse_set rq command cur token
    else { rq with command := -1 }
  else if cl = 6 then
    if strncmp (command.drop cm) (bytes "delete") 6 = 0 then { rq with command := CMD_DELETE }
    else { rq with command := -1 }
  else { rq with command := -1 }

/-- The function `process_request`: the token scan, `rq->vlen = 0`, then the dispatch on
the length of the command token. -/
def process_request (rq : mcp_request_t) (command : List Nat) (cmdlen : Nat) :
    mcp_request_t :=
  let st := tokenize rq command cmdlen
  dispatch_command { rq with tokens := st.tokens, vlen := 0 } command st.cur st.token

/-- The function `mcp_new_request`; `fresh` is the content of the newly allocated
userdata, which the allocator does not initialise. -/
def mcp_new_request (fresh : mcp_request_t) (command : List Nat) (cmdlen : Nat) :
    mcp_request_t :=
  process_request { fresh with request := command, reqlen := cmdlen, lua_key := false }
    command cmdlen

/-- A request memory whose fields are all zero. -/
def zero_request : mcp_request_t :=
  { request := [], reqlen := 0, tokens := fun _ => ⟨0, 0⟩, ntokens := 0, command := 0,
    lua_key := false, flags := 0, exptime := 0, vlen := 0, buf := none }

/-! ## Client connection adapter -/

/-- Modelled from the spec: the connection states the adapter moves between
(`enum conn_states`, declared in a header that is not part of the sources). -/
inductive conn_states where
  | conn_new_cmd
  | conn_waiting
  | conn_read
  | conn_parse_cmd
  | conn_nread
  | conn_write
  | conn_closing
deriving DecidableEq, Repr

/-- The `struct iovec`: base pointer (`none` is `NULL`, otherwise the memory it points
to) and length. -/
structure iovec where
  iov_base : Option (List Nat)
  iov_len : Nat
deriving DecidableEq, Repr

/-- Modelled from the spec: the parsed response header of the backend client library
(`mcmc_resp_t`, vendored outside the sources): kind, header length, value length, and the
part of the value already read. -/
structure mcmc_resp_t where
  type : Int
  reslen : Nat
  vlen : Nat
  vlen_read : Nat
deriving DecidableEq, Repr

/-- The struct `mcp_resp_t`. -/
structure mcp_resp_t where
  resp : mcmc_resp_t
  status : Int
  buf : Option (List Nat)
  blen : Nat
  bread : Int
deriving DecidableEq, Repr

/-- The struct `_io_pending_proxy_t`. The back references `resp` and `coro` are given by
where the record is stored; `next` is the order of `io_queue_t.stack_ctx`; `server` is a
handle of the backend. `q` and `c` index the client IO queues and connections of the
worker, and `server_next` is the address of the next pending IO in the backend queue
(`none` is `NULL`); the `memset` of `mcp_queue_io` leaves them zero. -/
structure io_pending_proxy_t where
  coro_ref : Int
  server : Nat
  iov : List iovec
  iovcnt : Nat
  client_resp : mcp_resp_t
  flushed : Bool
  q : Nat := 0
  c : Nat := 0
  server_next : Option Nat := none
deriving DecidableEq, Repr

/-- Modelled from the spec: the client reply object (`mc_resp`, declared in a header that
is not part of the sources): its write buffer, the byte chunks added for writing (in
order), the deferred IO attached to it, and the buffer to free once written. -/
structure mc_resp where
  wbuf : List Nat
  iov : List (List Nat)
  io_pending : Option io_pending_proxy_t
  write_and_free : Option (List Nat) := none
deriving DecidableEq, Repr

/-- Modelled from the spec: the per-connection IO queue (`io_queue_t`, declared in a
header that is not part of the sources): the batch of pending IOs, newest first, and the
counter of outstanding operations. -/
structure io_queue_t where
  stack_ctx : List io_pending_proxy_t
  count : Int
deriving DecidableEq, Repr

/-- A coroutine created by `process_proxy_command`: its stack holds the hook function and,
on top, the request object. -/
structure coroutine where
  rq : mcp_request_t

/-- Modelled from the spec: the fields of the client connection (`conn`, declared in a
header that is not part of the sources) the adapter touches. `L` is the stack of the
worker's main Lua state (top first). `resumed` is instrumentation: the requests on which
`lua_resume` has been called, most recent first. `rcurr` is the memory from the pointer
`c->rcurr` on, of which the first `rbytes` bytes have been read from the client. -/
structure conn where
  state : conn_states
  item : Option (List Nat)
  ritem : Option (List Nat)
  rlbytes : Int
  resp : mc_resp
  io_queue : io_queue_t
  L : List coroutine
  resumed : List mcp_request_t
  rcurr : List Nat := []
  rbytes : Nat := 0
  rbuf_malloced : Bool := false

/-- What the code inspects of the value on top of the coroutine stack after `LUA_OK`:
a string; a userdata, with what `lua_getiuservalue(Lc, -1, 1)` finds (`none` for
`LUA_TNONE`, otherwise what `lua_tolstring` makes of the user value, `none` being `NULL`);
or a value of another type. -/
inductive lua_top where
  | string (s : List Nat)
  | userdata (uv : Option (Option (List Nat)))
  | other

/-- Outcome of `lua_resume`: `LUA_OK` with the top of the stack, `LUA_YIELD` with the
server on top of the stack and the request below it, or an error status. -/
inductive lua_result where
  | ok (top : lua_top)
  | yield (server : Nat) (rq : mcp_request_t)
  | error

/-- What the surroundings answer: the size of the write buffer (`WRITE_BUFFER_SIZE`,
declared in a header that is not part of the sources), whether `resp_start` succeeds,
what `malloc` returns for a size, the content of freshly allocated userdata, the
registry reference `luaL_ref` hands out, the behaviour of the attached routing
function when resumed on a request, and whether `rbuf_switch_to_malloc` succeeds. -/
structure Env where
  WRITE_BUFFER_SIZE : Nat
  resp_start : Bool
  malloc : Nat → Option (List Nat)
  fresh_request : mcp_request_t
  fresh_resp : mcp_resp_t
  luaL_ref : Int
  lua_resume : mcp_request_t → lua_result
  rbuf_switch_to_malloc : Bool := true

/-- ISO C `memcpy(dst, src, n)` on the content of the destination buffer. -/
def memcpy (dst src : List Nat) (n : Nat) : List Nat := src.take n ++ dst.drop n

/-- Modelled from the spec: `resp_add_iov(resp, resp->wbuf, len)` (defined outside the
sources) queues the first `len` bytes of the write buffer for writing to the client. -/
def resp_add_iov (resp : mc_resp) (base : List Nat) (len : Nat) : mc_resp :=
  { resp with iov := resp.iov ++ [base.take len] }

/-- Modelled from the spec: `resp_start` (defined outside the sources) prepares a new,
empty reply object for this query. -/
def resp_start (c : conn) : conn :=
  { c with resp := { wbuf := c.resp.wbuf, iov := [], io_pending := none } }

/-- The `memcpy(resp->wbuf, s, l); resp_add_iov(resp, resp->wbuf, l);` pair. -/
def write_wbuf (resp : mc_resp) (s : List Nat) (l : Nat) : mc_resp :=
  let resp := { resp with wbuf := memcpy resp.wbuf s l }
  resp_add_iov resp resp.wbuf l

/-- The function `mcp_queue_io`, for a coroutine that yielded with the server `s` on top
of its stack and the request `rq` below it. -/
def mcp_queue_io (env : Env) (c : conn) (s : Nat) (rq : mcp_request_t) : conn :=
  let r : mcp_resp_t := { env.fresh_resp with buf := none, blen := 0 }
  let iov0 : iovec := ⟨some rq.request, rq.reqlen⟩
  let p : io_pending_proxy_t :=
    { coro_ref := env.luaL_ref
      server := s
      iov := if rq.vlen ≠ 0 then [iov0, ⟨rq.buf, rq.vlen.toNat⟩] else [iov0, ⟨none, 0⟩]
      iovcnt := if rq.vlen ≠ 0 then 2 else 1
      client_resp := r
      flushed := false }
  { c with
    resp := { c.resp with io_pending := some p }
    L := c.L.tail
    io_queue := { stack_ctx := p :: c.io_queue.stack_ctx, count := c.io_queue.count + 1 } }

/-- The bytes a single `writev` of the IO's iovecs offers to the backend. -/
def iov_bytes (p : io_pending_proxy_t) : List Nat :=
  ((p.iov.take p.iovcnt).map fun v => (v.iov_base.getD []).take v.iov_len).flatten

/-- The code from `lua_resume` to the end of the function, which is the same text in
`process_proxy_command` and `complete_nread_proxy`. -/
def resume_and_reply (env : Env) (c : conn) (rq : mcp_request_t) : conn :=
  let c := { c with resumed := rq :: c.resumed }
  match env.lua_resume rq with
  | .ok top =>
    match top with
    | .string s =>
      { c with resp := write_wbuf c.resp s (min s.length env.WRITE_BUFFER_SIZE) }
    | .userdata (some uv) =>
      let s := uv.getD []
      { c with resp := write_wbuf c.resp s (min s.length env.WRITE_BUFFER_SIZE) }
    | .userdata none =>
      { c with resp := write_wbuf c.resp (bytes "ERROR\r\n") 7 }
    | .other =>
      { c with resp := write_wbuf c.resp (bytes "ERROR\r\n") 7 }
  | .yield s rq2 => mcp_queue_io env c s rq2
  | .error =>
    { c with resp := write_wbuf c.resp (bytes "SERVER_ERROR lua failure\r\n") 15 }

/-- The function `process_proxy_command`. -/
def process_proxy_command (env : Env) (c : conn) (command : List Nat) (cmdlen : Nat) :
    conn :=
  if !env.resp_start then { c with state := .conn_closing }
  else
    let c := resp_start c
    let rq := mcp_new_request env.fresh_request command cmdlen
    let c := { c with L := ⟨rq⟩ :: c.L }
    if rq.vlen ≠ 0 then
      let item := env.malloc rq.vlen.toNat
      { c with item := item, ritem := item, rlbytes := rq.vlen, state := .conn_nread }
    else
      resume_and_reply env c rq

/-- The function `complete_nread_proxy`; `c.item` holds the bytes read into the buffer
allocated by `process_proxy_command`. The result is `none` where the C code dereferences
an invalid pointer (no coroutine on the Lua stack, no value buffer, or a value length
below 2). -/
def complete_nread_proxy (env : Env) (c : conn) : Option conn :=
  let c := { c with state := .conn_new_cmd }
  match c.L, c.item with
  | co :: Ls, some item =>
    if co.rq.vlen < 2 then none
    else if strncmp (item.drop (co.rq.vlen - 2).toNat) (bytes "\r\n") 2 ≠ 0 then some c
    else
      let rq := { co.rq with buf := some item }
      let c := { c with item := none, L := ⟨rq⟩ :: Ls }
      some (resume_and_reply env c rq)
  | _, _ => none

/-- A connection about to parse a command, with nothing queued. -/
def idle_conn : conn :=
  { state := .conn_parse_cmd, item := none, ritem := none, rlbytes := 0,
    resp := { wbuf := [], iov := [], io_pending := none },
    io_queue := { stack_ctx := [], count := 0 }, L := [], resumed := [] }

/-- An environment with a 1024-byte write buffer, a working allocator, and the given
routing behaviour. -/
def env_of (f : mcp_request_t → lua_result) : Env :=
  { WRITE_BUFFER_SIZE := 1024, resp_start := true, malloc := fun n => some (List.replicate n 0),
    fresh_request := zero_request,
    fresh_resp := { resp := ⟨0, 0, 0, 0⟩, status := 0, buf := none, blen := 0, bread := 0 },
    luaL_ref := 1, lua_resume := f }

/-- Modelled from the spec: the "read N bytes" state of the connection (its code is
outside the sources) reads exactly `rlbytes` bytes into the value buffer before
`complete_nread_proxy` is called; `payload` is what the client sent. -/
def nread (c : conn) (payload : List Nat) : conn :=
  { c with item := some payload, rlbytes := 0 }

/-- A routing function that answers every request with the string `HELLO\r\n`. -/
def hello_env : Env := env_of fun _ => .ok (.string (bytes "HELLO\r\n"))

/-- The connection after `process_proxy_command` on `set k 0 0 5\r\n`. -/
def set_command_conn : conn :=
  process_proxy_command hello_env idle_conn (bytes "set k 0 0 5\r\n")
    (bytes "set k 0 0 5\r\n").length

/-- The connection after the seven payload bytes `helloXY`, which do not end in CRLF, have
been read for `set k 0 0 5\r\n` and `complete_nread_proxy` has run. -/
def bad_payload_conn : Option conn :=
  complete_nread_proxy hello_env (nread set_command_conn (bytes "helloXY"))

/-- Decimal digits of `n`, most significant first, in front of `acc`; the first argument
bounds the number of digits. -/
def decimalAux : Nat → Nat → List Nat → List Nat
  | 0, _, acc => acc
  | fuel + 1, n, acc =>
    if n < 10 then (48 + n) :: acc
    else decimalAux fuel (n / 10) ((48 + n % 10) :: acc)

/-- The decimal numeral of a natural number, without leading zeros. -/
def decimal (n : Nat) : List Nat := decimalAux (n + 1) n []

/-- The decimal numeral of an integer: a minus sign in front of negative numbers. -/
def decimalInt (e : Int) : List Nat :=
  if e < 0 then 45 :: decimal e.natAbs else decimal e.toNat

/-! ## Auxiliary definitions for the statements -/

/-- The token array after the scan of a line that starts with `cmd SP key`. -/
def cmd_key_tokens (toks : Nat → token_t) (cmd key : List Nat) : Nat → token_t :=
  setTok (setTok toks 0 ⟨0, cmd.length⟩) 1 ⟨cmd.length + 1, key.length⟩

/-- The command line `set <key> <flags> <exptime> <bytes>\r\n` with the three numbers
written in decimal. -/
def set_line (key : List Nat) (f : Nat) (e : Int) (n : Nat) : List Nat :=
  bytes "set " ++ key ++ [32] ++ decimal f ++ [32] ++ decimalInt e ++ [32] ++ decimal n ++
    bytes "\r\n"

/-- The command line `<cmd> SP <key> [SP rest] CRLF`; `rest = none` stands for a line
that ends after the key. -/
def cmd_key_line (cmd key : List Nat) (rest : Option (List Nat)) : List Nat :=
  cmd ++ [32] ++ key ++ (match rest with
    | none => []
    | some r => 32 :: r) ++ bytes "\r\n"

/-- The bytes a token slice refers to in the raw buffer. -/
def token_bytes (buf : List Nat) (t : token_t) : List Nat := (buf.drop t.value).take t.length

/-- The last two bytes of a value payload. -/
def last_two (item : List Nat) : List Nat := item.drop (item.length - 2)

/-! ## Completion callback -/

/-- What `proxy_complete_cb` inspects of the value on top of the coroutine stack after
`LUA_OK`: a response object (a userdata accepted by `luaL_checkudata(Lc, -1, "mcp.response")`)
together with what `lua_getiuservalue(Lc, -1, 1)` finds for it (as in `lua_top`); a
userdata of another kind, on which `luaL_checkudata` raises an error; a string; or a
value of another type. -/
inductive lua_top_complete where
  | response (r : mcp_resp_t) (uv : Option (Option (List Nat)))
  | userdata_other
  | string (s : List Nat)
  | other

/-- Outcome of the `lua_resume` of `proxy_complete_cb`. -/
inductive lua_result_complete where
  | ok (top : lua_top_complete)
  | yield (server : Nat) (rq : mcp_request_t)
  | error

/-- The body of the `while (p)` loop of `proxy_complete_cb` for one pending IO: `res` is
the outcome of `lua_resume` on its coroutine, `c` is `p->c` and `resp` is `p->resp`. The
result is `none` where `luaL_checkudata` raises an error. -/
def complete_one (env : Env) (res : lua_result_complete) (c : conn) (resp : mc_resp) :
    Option (conn × mc_resp) :=
  match res with
  | .ok (.response r uv) =>
    match r.buf with
    | some b => some (c, resp_add_iov { resp with write_and_free := some b } b r.blen)
    | none =>
      match uv with
      | some v =>
        some (c, write_wbuf resp (v.getD []) (min (v.getD []).length env.WRITE_BUFFER_SIZE))
      | none => some (c, resp)
  | .ok .userdata_other => none
  | .ok (.string s) => some (c, write_wbuf resp s (min s.length env.WRITE_BUFFER_SIZE))
  | .ok .other => some (c, write_wbuf resp (bytes "ERROR\r\n") 7)
  | .yield s rq => some (mcp_queue_io env c s rq, resp)
  | .error => some (c, write_wbuf resp (bytes "SERVER_ERROR lua failure\r\n") 15)

/-- The function `proxy_complete_cb` on the chain of pending IOs of one client
connection `c`, each with its reply object `p->resp`; `resume` is the outcome of
`lua_resume` on the coroutine of a pending IO. It returns the connection and the reply
objects in chain order. -/
def proxy_complete_cb (env : Env) (resume : io_pending_proxy_t → lua_result_complete) :
    conn → List (io_pending_proxy_t × mc_resp) → Option (conn × List mc_resp)
  | c, [] => some (c, [])
  | c, (p, resp) :: rest =>
    match complete_one env (resume p) c resp with
    | none => none
    | some (c1, resp1) =>
      match proxy_complete_cb env resume c1 rest with
      | none => none
      | some (c2, rs) => some (c2, resp1 :: rs)

/-- An environment whose routing function answers every request with the string
`SERVER_ERROR no route\r\n`. -/
def no_route_env : Env := env_of fun _ => .ok (.string (bytes "SERVER_ERROR no route\r\n"))

/-- An environment whose routing function fails on every request. -/
def failing_env : Env := env_of fun _ => .error

/-- A pending IO with nothing but a one-byte request line. -/
def sample_io : io_pending_proxy_t :=
  { coro_ref := 1, server := 0, iov := [⟨some [103], 1⟩, ⟨none, 0⟩], iovcnt := 1,
    client_resp := { resp := ⟨0, 0, 0, 0⟩, status := 0, buf := none, blen := 0, bread := 0 },
    flushed := true }

/-- A connection in state "read N bytes" as `good_payload_conn`, for the value command
`set k 0 0 5\r\n`. -/
def set_payload_conn (env : Env) : conn :=
  nread (process_proxy_command env idle_conn (bytes "set k 0 0 5\r\n")
    (bytes "set k 0 0 5\r\n").length) (bytes "hello\r\n")

/-! ## Hash selector -/

/-- The struct `mcp_hash_selector_srv_t`: the registry reference of a server and the
server itself (a handle). -/
structure mcp_hash_selector_srv_t where
  ref : Int
  srv : Nat
deriving DecidableEq, Repr

/-- The struct `mcp_hash_selector_t`. `func` is a `hash_selector_func`: it is given the
`len` bytes at `key`, and its result is a `uint32_t`. -/
structure mcp_hash_selector_t where
  func : List Nat → Nat
  pool_size : Int
  pool : List mcp_hash_selector_srv_t

/-- The Lua auxiliary function `luaL_ref(L, LUA_REGISTRYINDEX)` on a registry that holds
server objects: the object is stored and its reference (its position, counted from 1) is
returned. -/
def luaL_ref (registry : List Nat) (obj : Nat) : List Nat × Int :=
  (registry ++ [obj], (registry.length : Int) + 1)

/-- The Lua function `lua_rawgeti(L, LUA_REGISTRYINDEX, ref)`: the object stored under the
reference, `none` for nil. -/
def lua_rawgeti (registry : List Nat) (ref : Int) : Option Nat :=
  if ref ≤ 0 then none else registry[(ref - 1).toNat]?

/-- The `for (int x = 1; x <= n; x++)` loop of `mcplib_hash_selector` over the entries of
the pool table: each server is referenced in the registry and stored with its
reference. -/
def selector_pool : List Nat → List Nat → List mcp_hash_selector_srv_t × List Nat
  | registry, [] => ([], registry)
  | registry, srv :: rest =>
    let r := luaL_ref registry srv
    let rec_ := selector_pool r.1 rest
    (⟨r.2, srv⟩ :: rec_.1, rec_.2)

/-- The function `mcplib_hash_selector` for a hash function and a pool table whose
entries are servers: the selector and the registry afterwards. `n` is the `int` the
length of the table is stored in. -/
def mcplib_hash_selector (hf : List Nat → Nat) (registry : List Nat) (table : List Nat) :
    mcp_hash_selector_t × List Nat :=
  let n := to_int table.length
  let pr := selector_pool registry (table.take n.toNat)
  ({ func := hf, pool_size := n, pool := pr.1 }, pr.2)

/-- Whether `process_request` has written the key slot of the token array of a request:
it writes slot `i` exactly when the scan of the request line counts more than `i` tokens.
A slot it has not written holds what the userdata held when it was allocated, which the
allocator does not initialise. -/
def key_token_set (rq : mcp_request_t) : Bool :=
  decide (KEY_TOKEN < (tokenize rq rq.request rq.reqlen).token)

/-- The function `mcplib_hash_selector_call`: the coroutine yields the request and
the selected server. `hash % ss->pool_size` is computed in `unsigned int`; the result is
`none` where the C code reads the pointer and the length of a key token that was never
written (it has no test for that: `FIXME: indicator for if request actually has a key
token or not.`), divides by zero, indexes outside the pool, or finds no server under the
reference. -/
def mcplib_hash_selector_call (ss : mcp_hash_selector_t) (registry : List Nat)
    (rq : mcp_request_t) : Option lua_result :=
  if !key_token_set rq then none
  else
    let hash := ss.func (token_bytes rq.request (rq.tokens KEY_TOKEN)) % 2 ^ 32
    let n := (ss.pool_size % 2 ^ 32).toNat
    if n = 0 then none
    else
      match ss.pool[hash % n]? with
      | none => none
      | some e =>
        match lua_rawgeti registry e.ref with
        | none => none
        | some srv => some (.yield srv rq)

/-- The server a coroutine yields with, if it yields. -/
def yielded_server (r : Option lua_result) : Option Nat :=
  match r with
  | some (.yield srv _) => some srv
  | _ => none

/-- A toy hash function: the sum of the key bytes. -/
def sum_hash (key : List Nat) : Nat := key.sum

/-! ## Backend connection and its reader state machine -/

/-- The enum `mcp_server_states`. -/
inductive mcp_server_states where
  | mcp_server_read
  | mcp_server_read_end
  | mcp_server_want_read
  | mcp_server_next
deriving DecidableEq, Repr

/-- Modelled from the spec: the status codes and response kinds of the backend client
library (macros of a vendored header that is not part of the sources). The code only
compares them with each other, so only their being distinct matters. -/
def MCMC_OK : Int := 0
def MCMC_ERR : Int := -1
def MCMC_NOT_CONNECTED : Int := 1
def MCMC_CONNECTED : Int := 2
def MCMC_CONNECTING : Int := 3
def MCMC_WANT_WRITE : Int := 4
def MCMC_WANT_READ : Int := 5
def MCMC_RESP_GET : Int := 100
def MCMC_RESP_META : Int := 101
def MCMC_RESP_STAT : Int := 102
def MCMC_RESP_GENERIC : Int := 104
def MCMC_RESP_END : Int := 105

/-- The string `ENDSTR` and its length `ENDLEN = sizeof(ENDSTR)-1`. -/
def ENDSTR : List Nat := bytes "END\r\n"
def ENDLEN : Nat := 5

/-- A set of libevent events, the bit set `EV_TIMEOUT | EV_READ | EV_WRITE` of the code. -/
structure ev_flags where
  timeout : Bool := false
  read : Bool := false
  write : Bool := false
deriving DecidableEq, Repr

/-- The union `a | b` of two event sets. -/
def ev_flags.union (a b : ev_flags) : ev_flags :=
  { timeout := a.timeout || b.timeout, read := a.read || b.read, write := a.write || b.write }

/-- The struct `mcp_server_t`: head and tail of the queue of in-flight pending IOs
(addresses, `none` is `NULL`), the read buffer (`none` until it is allocated), the
events its libevent event is pending for (`none` when it is not initialised or not
pending), the reader state and the two flags. -/
structure mcp_server_t where
  req_stack_head : Option Nat
  req_stack_tail : Option Nat
  rbuf : Option (List Nat)
  event : Option ev_flags
  state : mcp_server_states
  connecting : Bool
  can_write : Bool
deriving DecidableEq, Repr

/-- What a call of the backend client library (vendored outside the sources) answers:
* `mcmc_read`: the status, the parsed header `*r`, and the content of the buffer from the
  pointer passed on;
* `mcmc_read_value`: the status, the bytes the value region holds afterwards (from its
  start), and `*read`;
* `mcmc_buffer_consume`: the returned pointer as an offset into `s->rbuf`, and `*remain`;
* `mcmc_request_writev`: the status and `*sent`;
* `mcmc_check_nonblock_connect`: the status. -/
inductive mcmc_answer where
  | read (status : Int) (resp : mcmc_resp_t) (buf : List Nat)
  | read_value (status : Int) (data : List Nat) (read : Int)
  | buffer_consume (newbuf : Nat) (remain : Nat)
  | request_writev (status : Int) (sent : Int)
  | check_nonblock_connect (status : Int)
deriving DecidableEq, Repr

/-- The memory the backend functions share: the pending IOs (an address is a position in
`ios`), the client IO queues (`p->q`), and two logs kept as instrumentation: the
connections passed to `redispatch_conn` and the bytes offered by each `writev`, both in
order. -/
structure proxy_heap where
  ios : List io_pending_proxy_t
  queues : List io_queue_t
  redispatched : List Nat
  offered : List (List Nat)
deriving DecidableEq, Repr

/-- ISO C `memcpy(dst + off, src, n)` (also `memmove`, `src` being the content before the
call) on the content of the destination buffer. -/
def write_at (dst : List Nat) (off : Nat) (src : List Nat) (n : Nat) : List Nat :=
  dst.take off ++ src.take n ++ dst.drop (off + n)

/-- Content of a freshly allocated block of `n` bytes; the bytes, which `malloc` leaves
undefined, are taken to be zero. -/
def malloc_block (n : Nat) : List Nat := List.replicate n 0

/-- The `for` loop of `_flush_pending_write` that saves the progress of a partial write
in the lengths of the iovecs; the second argument is `sent`. -/
def save_progress : List iovec → Int → List iovec
  | [], _ => []
  | v :: vs, sent =>
    if sent ≥ v.iov_len then { v with iov_len := 0 } :: save_progress vs (sent - v.iov_len)
    else { v with iov_len := (v.iov_len - sent).toNat } :: vs

/-- The function `_flush_pending_write` for the pending IO at address `p`. The answer of
`mcmc_request_writev` is taken from the script, which is returned without it. -/
def _flush_pending_write (script : List mcmc_answer) (s : mcp_server_t) (h : proxy_heap)
    (p : Nat) : Option (ev_flags × mcp_server_t × proxy_heap × List mcmc_answer) :=
  match h.ios[p]? with
  | none => none
  | some io =>
    if io.flushed then some ({}, s, h, script)
    else
      match script with
      | .request_writev status sent :: rest =>
        let h := { h with offered := h.offered ++ [iov_bytes io] }
        let iov :=
          if sent > 0 then save_progress (io.iov.take io.iovcnt) sent ++ io.iov.drop io.iovcnt
          else io.iov
        let io := { io with iov := iov }
        if status = MCMC_WANT_WRITE then
          some ({ write := true }, { s with can_write := false },
            { h with ios := h.ios.set p io }, rest)
        else if status ≠ MCMC_OK then
          some ({}, s, { h with ios := h.ios.set p io }, rest)
        else
          some ({ read := true }, s,
            { h with ios := h.ios.set p { io with flushed := true } }, rest)
      | _ => none

/-- Local variables and surroundings of one run of `proxy_server_drive_machine`: the
server, the shared memory, the locals `p` and `flags`, and the answers the client library
has yet to give. -/
structure drive_state where
  s : mcp_server_t
  h : proxy_heap
  p : Option Nat
  flags : ev_flags
  script : List mcmc_answer
deriving DecidableEq, Repr

/-- Writing `r` back as the `client_resp` of the pending IO at address `p`. -/
def set_client_resp (h : proxy_heap) (p : Nat) (r : mcp_resp_t) : proxy_heap :=
  match h.ios[p]? with
  | none => h
  | some io => { h with ios := h.ios.set p { io with client_resp := r } }

/-- The `case mcp_server_read` of `proxy_server_drive_machine`; the `Bool` is `stop`.
The result is `none` where an assertion fails or the script has no fitting answer. -/
def drive_read (st : drive_state) : Option (drive_state × Bool) :=
  match st.s.req_stack_head with
  | none => none
  | some p =>
    match st.h.ios[p]?, st.script with
    | some io, .read status resp buf :: rest =>
      let s := { st.s with rbuf := some buf }
      let r := { io.client_resp with status := status, resp := resp }
      let extra_space := if resp.type = MCMC_RESP_GET then ENDLEN else 0
      let res := resp.type = MCMC_RESP_GET ∨ resp.type = MCMC_RESP_END ∨
        resp.type = MCMC_RESP_META ∨ resp.type = MCMC_RESP_GENERIC
      let next_state :=
        if resp.type = MCMC_RESP_GET then mcp_server_states.mcp_server_read_end
        else mcp_server_states.mcp_server_next
      if resp.type = MCMC_RESP_END ∧ resp.vlen ≠ 0 then none
      else if res then
        let r := { r with blen := resp.reslen + resp.vlen }
        let b := malloc_block (r.blen + extra_space)
        if resp.vlen = resp.vlen_read then
          let r := { r with buf := some (write_at b 0 buf r.blen) }
          some ({ st with s := { s with state := next_state }, h := set_client_resp st.h p r,
                          p := some p, script := rest }, false)
        else
          let b := write_at b 0 buf resp.reslen
          match rest with
          | .read_value status2 data rd :: rest2 =>
            let r := { r with buf := some (write_at b resp.reslen data data.length), bread := rd }
            if status2 = MCMC_OK then
              some ({ st with s := { s with state := next_state },
                              h := set_client_resp st.h p r, p := some p, script := rest2 },
                false)
            else if status2 = MCMC_WANT_READ then
              some ({ st with s := { s with state := .mcp_server_want_read },
                              h := set_client_resp st.h p r, p := some p,
                              flags := st.flags.union { read := true }, script := rest2 },
                true)
            else
              some ({ st with s := { s with state := next_state },
                              h := set_client_resp st.h p r, p := some p, script := rest2 },
                false)
          | _ => none
      else
        some ({ st with s := { s with state := next_state }, h := set_client_resp st.h p r,
                        p := some p, script := rest }, false)
    | _, _ => none

/-- The `case mcp_server_read_end` of `proxy_server_drive_machine`. -/
def drive_read_end (st : drive_state) : Option (drive_state × Bool) :=
  match st.s.req_stack_head with
  | none => none
  | some p =>
    match st.h.ios[p]?, st.script with
    | some io, .buffer_consume newbuf remain :: .read status tmp_resp buf :: rest =>
      let rbuf := st.s.rbuf.getD []
      let moved : Nat × List Nat :=
        if remain > ENDLEN then (newbuf, rbuf)
        else if remain ≠ 0 then (0, write_at rbuf 0 (rbuf.drop newbuf) remain)
        else (0, rbuf)
      let s := { st.s with rbuf := some (moved.2.take moved.1 ++ buf),
                           state := .mcp_server_next }
      let r := io.client_resp
      if status ≠ MCMC_OK then
        some ({ st with s := s, p := some p, script := rest }, false)
      else if tmp_resp.type ≠ MCMC_RESP_END then
        some ({ st with s := s, p := some p, script := rest }, false)
      else
        match r.buf with
        | none => none
        | some b =>
          let r := { r with buf := some (write_at b r.blen ENDSTR ENDLEN), blen := r.blen + 5 }
          some ({ st with s := s, h := set_client_resp st.h p r, p := some p, script := rest },
            false)
    | _, _ => none

/-- The `case mcp_server_want_read` of `proxy_server_drive_machine`. -/
def drive_want_read (st : drive_state) : Option (drive_state × Bool) :=
  match st.s.req_stack_head with
  | none => none
  | some p =>
    match st.h.ios[p]?, st.script with
    | some io, .read_value status data rd :: rest =>
      match io.client_resp.buf with
      | none => none
      | some b =>
        let r := { io.client_resp with
          buf := some (write_at b io.client_resp.resp.reslen data data.length), bread := rd }
        let h := set_client_resp st.h p r
        if status = MCMC_OK then
          let next_state :=
            if r.resp.type = MCMC_RESP_GET then mcp_server_states.mcp_server_read_end
            else mcp_server_states.mcp_server_next
          some ({ st with s := { st.s with state := next_state }, h := h, p := some p,
                          script := rest }, false)
        else if status = MCMC_WANT_READ then
          some ({ st with h := h, p := some p, flags := st.flags.union { read := true },
                          script := rest }, true)
        else
          some ({ st with h := h, p := some p, script := rest }, false)
    | _, _ => none

/-- The `case mcp_server_next` of `proxy_server_drive_machine`. It works on the local
`p`, which an earlier state of the same run has set. -/
def drive_next (st : drive_state) : Option (drive_state × Bool) :=
  match st.p with
  | none => none
  | some p =>
    match st.h.ios[p]?, st.script with
    | some io, .buffer_consume newbuf remain :: rest =>
      match st.h.queues[io.q]? with
      | none => none
      | some q =>
        if st.s.req_stack_tail = some p ∧ io.server_next ≠ none then none
        else
          let tail := if st.s.req_stack_tail = some p then none else st.s.req_stack_tail
          let stop1 := decide (st.s.req_stack_tail = some p)
          let q := { q with count := q.count - 1 }
          let h := { st.h with
            queues := st.h.queues.set io.q q
            redispatched :=
              if q.count = 0 then st.h.redispatched ++ [io.c] else st.h.redispatched }
          let rbuf := st.s.rbuf.getD []
          let s := { st.s with
            req_stack_head := io.server_next
            req_stack_tail := tail
            rbuf := if remain ≠ 0 then some (write_at rbuf 0 (rbuf.drop newbuf) remain)
                    else st.s.rbuf
            state := .mcp_server_read }
          some ({ st with s := s, h := h, script := rest }, stop1 || decide (remain = 0))
    | _, _ => none

/-- One turn of the `while (!stop)` loop of `proxy_server_drive_machine`. -/
def drive_step (st : drive_state) : Option (drive_state × Bool) :=
  match st.s.state with
  | .mcp_server_read => drive_read st
  | .mcp_server_read_end => drive_read_end st
  | .mcp_server_want_read => drive_want_read st
  | .mcp_server_next => drive_next st

/-- The `while (!stop)` loop, for at most the given number of turns. -/
def drive_loop : Nat → drive_state → Option drive_state
  | 0, _ => none
  | n + 1, st =>
    match drive_step st with
    | none => none
    | some (st1, stop) => if stop then some st1 else drive_loop n st1

/-- The function `proxy_server_drive_machine`. Every turn of its loop takes at least one
answer from the script, so one more turn than the script has answers is allowed; the
result is `none` when the script does not reach a `stop`. The returned state holds the
returned `flags` and the rest of the script. -/
def proxy_server_drive_machine (script : List mcmc_answer) (s : mcp_server_t)
    (h : proxy_heap) : Option drive_state :=
  drive_loop (script.length + 1) { s := s, h := h, p := none, flags := {}, script := script }

/-- The test `event_initialized(&s->event) == 0 || event_pending(&s->event,
EV_READ|EV_WRITE, NULL) == 0` of the event library: the event is not initialised or not
pending at all (`none`), or it is pending for neither `EV_READ` nor `EV_WRITE`. -/
def event_idle (e : Option ev_flags) : Bool :=
  match e with
  | none => true
  | some f => !(f.read || f.write)

/-- The `while (p)` loop of the `EV_WRITE` branch of `proxy_server_handler`, for at most
the given number of pending IOs. -/
def flush_queue : Nat → Option Nat → ev_flags → List mcmc_answer → mcp_server_t →
    proxy_heap → Option (ev_flags × mcp_server_t × proxy_heap × List mcmc_answer)
  | _, none, flags, script, s, h => some (flags, s, h, script)
  | 0, some _, _, _, _, _ => none
  | n + 1, some p, flags, script, s, h =>
    match h.ios[p]? with
    | none => none
    | some io =>
      match _flush_pending_write script s h p with
      | none => none
      | some (f, s1, h1, rest) => flush_queue n io.server_next (flags.union f) rest s1 h1

/-- The function `proxy_server_handler` for the events `which`. The result is the server,
the shared memory and the rest of the script. -/
def proxy_server_handler (which : ev_flags) (script : List mcmc_answer) (s : mcp_server_t)
    (h : proxy_heap) : Option (mcp_server_t × proxy_heap × List mcmc_answer) :=
  let flags0 : ev_flags := { timeout := true }
  let afterRead : Option (ev_flags × mcp_server_t × proxy_heap × List mcmc_answer) :=
    if which.read then
      match proxy_server_drive_machine script s h with
      | none => none
      | some st => some (flags0.union st.flags, st.s, st.h, st.script)
    else some (flags0, s, h, script)
  match afterRead with
  | none => none
  | some (flags1, s1, h1, script1) =>
    let afterWrite : Option (ev_flags × mcp_server_t × proxy_heap × List mcmc_answer) :=
      if which.write then
        let s2 := { s1 with can_write := true }
        let connected : Option (List mcmc_answer) :=
          if s2.connecting then
            match script1 with
            | .check_nonblock_connect _ :: rest => some rest
            | _ => none
          else some script1
        match connected with
        | none => none
        | some script2 =>
          flush_queue (h1.ios.length + 1) s2.req_stack_head flags1 script2 s2 h1
      else some (flags1, s1, h1, script1)
    match afterWrite with
    | none => none
    | some (flags3, s3, h3, script3) =>
      if s3.req_stack_head ≠ none ∧ event_idle s3.event = true then
        some ({ s3 with event := some flags3 }, h3, script3)
      else some (s3, h3, script3)

/-- The function `proxy_submit_cb` on the batch of pending IOs given by their addresses
in chain order (`ctx_stack` first, then along `next`); `servers` are the backends,
indexed by the `server` handle of a pending IO. -/
def proxy_submit_cb : List mcmc_answer → List mcp_server_t → proxy_heap → List Nat →
    Option (List mcp_server_t × proxy_heap × List mcmc_answer)
  | script, servers, h, [] => some (servers, h, script)
  | script, servers, h, p :: batch =>
    match h.ios[p]? with
    | none => none
    | some io =>
      match servers[io.server]? with
      | none => none
      | some s =>
        let flushed : Option (mcp_server_t × proxy_heap × List mcmc_answer) :=
          if s.can_write then
            match _flush_pending_write script s h p with
            | none => none
            | some (_, s1, h1, rest) => some (s1, h1, rest)
          else some (s, h, script)
        match flushed with
        | none => none
        | some (s1, h1, script1) =>
          let flags : ev_flags :=
            if s1.can_write then { read := true, timeout := true }
            else { read := true, write := true, timeout := true }
          let s2 := if event_idle s1.event then { s1 with event := some flags } else s1
          let s3 := if s2.req_stack_head = none then { s2 with req_stack_head := some p } else s2
          let linked : Option (mcp_server_t × proxy_heap) :=
            match s3.req_stack_tail with
            | none => some ({ s3 with req_stack_tail := some p }, h1)
            | some t =>
              match h1.ios[t]? with
              | none => none
              | some tio =>
                let ios1 := h1.ios.set t { tio with server_next := some p }
                match ios1[p]? with
                | none => none
                | some pio =>
                  some ({ s3 with req_stack_tail := some p },
                    { h1 with ios := ios1.set p { pio with server_next := none } })
          match linked with
          | none => none
          | some (s4, h2) => proxy_submit_cb script1 (servers.set io.server s4) h2 batch

/-- A backend with an empty queue that is connected and writable. -/
def ready_server : mcp_server_t :=
  { req_stack_head := none, req_stack_tail := none, rbuf := none, event := none,
    state := .mcp_server_read, connecting := false, can_write := true }

/-- A pending IO for the request line `get foo\r\n`, owned by client IO queue `q`. -/
def get_io (q : Nat) : io_pending_proxy_t :=
  { coro_ref := 1, server := 0, iov := [⟨some (bytes "get foo\r\n"), 9⟩, ⟨none, 0⟩],
    iovcnt := 1,
    client_resp := { resp := ⟨0, 0, 0, 0⟩, status := 0, buf := none, blen := 0, bread := 0 },
    flushed := true, q := q, c := q }

/-- A backend whose queue holds the single pending IO at address 0. -/
def one_io_server : mcp_server_t :=
  { ready_server with req_stack_head := some 0, req_stack_tail := some 0 }

/-- The shared memory with one pending IO, owned by a client IO queue with count 1. -/
def one_io_heap : proxy_heap :=
  { ios := [get_io 0], queues := [{ stack_ctx := [], count := 1 }], redispatched := [],
    offered := [] }

/-- A backend whose queue holds the pending IOs at addresses 0 and 1, in that order. -/
def two_io_server : mcp_server_t :=
  { ready_server with req_stack_head := some 0, req_stack_tail := some 1 }

/-- The shared memory with two pending IOs of two clients, each with count 1. -/
def two_io_heap : proxy_heap :=
  { ios := [{ get_io 0 with server_next := some 1 }, get_io 1],
    queues := [{ stack_ctx := [], count := 1 }, { stack_ctx := [], count := 1 }],
    redispatched := [], offered := [] }

/-- The function `mcplib_response_ok`: what `response:ok()` pushes. -/
def mcplib_response_ok (r : mcp_resp_t) : Bool := r.status == MCMC_OK

/-- The addresses of a backend queue, read from `head` along `server_next`, for at most
the given number of pending IOs. -/
def backend_queue : Nat → proxy_heap → Option Nat → List Nat
  | 0, _, _ => []
  | _ + 1, _, none => []
  | n + 1, h, some p =>
    p :: (match h.ios[p]? with
      | none => []
      | some io => backend_queue n h io.server_next)

/-- What a client sees of a pending IO's response: whether a buffer is set, the first
`blen` bytes of the buffer, `blen`, and the status. -/
def response_view (io : io_pending_proxy_t) : Bool × List Nat × Nat × Int :=
  (io.client_resp.buf.isSome, (io.client_resp.buf.getD []).take io.client_resp.blen,
    io.client_resp.blen, io.client_resp.status)

/-- The bytes `VALUE foo 0 3\r\nbar\r\n`: a 15-byte header and a 5-byte value. -/
def hit_bytes : List Nat := bytes "VALUE foo 0 3\r\nbar\r\n"

/-- The header `mcmc_read` parses from `hit_bytes`, the whole value being in the buffer. -/
def hit_resp : mcmc_resp_t := ⟨MCMC_RESP_GET, 15, 5, 5⟩

/-- One run of the state machine on a single in-flight GET whose value is followed by the
line `STORED\r\n` instead of `END\r\n`. -/
def desync_run : Option drive_state :=
  proxy_server_drive_machine
    [.read MCMC_OK hit_resp (hit_bytes ++ bytes "STORED\r\n"), .buffer_consume 20 8,
      .read MCMC_OK ⟨MCMC_RESP_GENERIC, 8, 0, 0⟩ (bytes "STORED\r\n"), .buffer_consume 8 0]
    one_io_server one_io_heap

/-- The same run with a second pending IO waiting in the backend queue. -/
def desync_run_two : Option drive_state :=
  proxy_server_drive_machine
    [.read MCMC_OK hit_resp (hit_bytes ++ bytes "STORED\r\n"), .buffer_consume 20 8,
      .read MCMC_OK ⟨MCMC_RESP_GENERIC, 8, 0, 0⟩ (bytes "STORED\r\n"), .buffer_consume 8 0]
    two_io_server two_io_heap

/-- One run of the state machine on a single in-flight request when only `VALUE fo` of the
response has arrived, so that the header read answers `MCMC_WANT_READ`. -/
def split_header_run : Option drive_state :=
  proxy_server_drive_machine
    [.read MCMC_WANT_READ ⟨0, 0, 0, 0⟩ (bytes "VALUE fo"), .buffer_consume 0 0]
    one_io_server one_io_heap

/-- One run of the state machine on a queue of two requests when the header read answers
`MCMC_WANT_READ`. -/
def header_would_block_run : Option drive_state :=
  proxy_server_drive_machine [.read MCMC_WANT_READ ⟨0, 0, 0, 0⟩ [], .buffer_consume 0 0]
    two_io_server two_io_heap

/-- One run of the state machine on a queue of two requests when the value of a GET hit
has arrived and the read of the `END` line answers `MCMC_WANT_READ`. -/
def end_would_block_run : Option drive_state :=
  proxy_server_drive_machine
    [.read MCMC_OK hit_resp hit_bytes, .buffer_consume 20 0,
      .read MCMC_WANT_READ ⟨0, 0, 0, 0⟩ [], .buffer_consume 0 0]
    two_io_server two_io_heap

/-- One run of the state machine on a queue of two requests when the value of a GET hit
has arrived only in part and the value read answers `MCMC_WANT_READ`. -/
def value_would_block_run : Option drive_state :=
  proxy_server_drive_machine
    [.read MCMC_OK ⟨MCMC_RESP_GET, 15, 5, 2⟩ (bytes "VALUE foo 0 3\r\nba"),
      .read_value MCMC_WANT_READ (bytes "ba") 2]
    two_io_server two_io_heap

/-- The parsed requests of `get a\r\n` and `get b\r\n`. -/
def request_a : mcp_request_t := mcp_new_request zero_request (bytes "get a\r\n") 7
def request_b : mcp_request_t := mcp_new_request zero_request (bytes "get b\r\n") 7

/-- The connection after `mcp_queue_io` for `request_a` and then for `request_b`, both
for backend 0. -/
def queued_a_b : conn :=
  mcp_queue_io hello_env (mcp_queue_io hello_env idle_conn 0 request_a) 0 request_b

/-- The result of `proxy_submit_cb` on the batch of `queued_a_b`, the backend being ready
and both writes succeeding at once. -/
def submitted_a_b : Option (List mcp_server_t × proxy_heap × List mcmc_answer) :=
  proxy_submit_cb [.request_writev MCMC_OK 7, .request_writev MCMC_OK 7] [ready_server]
    { ios := queued_a_b.io_queue.stack_ctx, queues := [queued_a_b.io_queue],
      redispatched := [], offered := [] }
    (List.range queued_a_b.io_queue.stack_ctx.length)

/-! ## Reading a command line -/

/-- ISO C `memchr(buf, ch, n)`: the offset of the first byte equal to `ch` among the first
`n` bytes, `none` for `NULL`. -/
def memchr : List Nat → Nat → Nat → Option Nat
  | [], _, _ => none
  | _ :: _, _, 0 => none
  | b :: bs, ch, n + 1 => if b = ch then some 0 else (memchr bs ch n).map (· + 1)

/-- Modelled from the spec: `rbuf_switch_to_malloc` (defined outside the sources) moves
the read buffer to a malloc'ed one and marks the connection; it fails when the allocation
fails. -/
def rbuf_switch_to_malloc (env : Env) (c : conn) : Bool × conn :=
  if env.rbuf_switch_to_malloc then (true, { c with rbuf_malloced := true }) else (false, c)

/-- The function `try_read_command_proxy`: the returned `int` and the connection
afterwards. `last_cmd_time` is not kept. -/
def try_read_command_proxy (env : Env) (c : conn) : Int × conn :=
  if c.rbytes = 0 then (0, c)
  else
    match memchr c.rcurr 10 c.rbytes with
    | none =>
      if c.rbytes > 1024 then
        let ptr := spanLen (fun b => b == 32) c.rcurr
        if ptr > 100 ∨ (strncmp (c.rcurr.drop ptr) (bytes "get ") 4 ≠ 0 ∧
            strncmp (c.rcurr.drop ptr) (bytes "gets ") 5 ≠ 0) then
          (1, { c with state := .conn_closing })
        else if !c.rbuf_malloced then
          let sw := rbuf_switch_to_malloc env c
          if !sw.1 then (1, { sw.2 with state := .conn_closing }) else (0, sw.2)
        else (0, c)
      else (0, c)
    | some el =>
      let cont := el + 1
      let c1 := process_proxy_command env c c.rcurr cont
      (1, { c1 with rbytes := c1.rbytes - cont, rcurr := c1.rcurr.drop cont })

/-- A connection whose read buffer holds the given bytes, all of them read. -/
def conn_with (buf : List Nat) : conn :=
  { idle_conn with rcurr := buf, rbytes := buf.length }

/-! ## Backend construction -/

/-- The function `mcplib_server`, for the status `mcmc_connect` answers: the new backend.
The zeroed event is one that is not initialised. -/
def mcplib_server (status : Int) : mcp_server_t :=
  let s : mcp_server_t :=
    { req_stack_head := none, req_stack_tail := none, rbuf := none, event := none,
      state := .mcp_server_read, connecting := false, can_write := false }
  if status = MCMC_CONNECTED then s
  else if status = MCMC_CONNECTING then { s with connecting := true, can_write := false }
  else s

/-! ## Example backends for the statements -/

/-- The shared memory with two pending IOs for `get foo\r\n` that have not been written
yet, the first queued before the second. -/
def unflushed_heap : proxy_heap :=
  { ios := [{ get_io 0 with flushed := false, server_next := some 1 },
      { get_io 1 with flushed := false }],
    queues := [{ stack_ctx := [], count := 1 }, { stack_ctx := [], count := 1 }],
    redispatched := [], offered := [] }

/-- A new backend whose non-blocking connect is in progress, after `proxy_submit_cb` has
queued one pending IO for it, and then `proxy_server_handler` for `EV_WRITE`, the connect
check and the write both succeeding. The event that called the handler has fired, so it
is no longer pending. -/
def connecting_run : Option (mcp_server_t × proxy_heap × List mcmc_answer) :=
  match proxy_submit_cb [] [mcplib_server MCMC_CONNECTING]
      { unflushed_heap with ios := [{ get_io 0 with flushed := false }] } [0] with
  | some ([s1], h1, _) =>
    proxy_server_handler { write := true }
      [.check_nonblock_connect MCMC_OK, .request_writev MCMC_OK 9] { s1 with event := none } h1
  | _ => none

/-- Two calls of `_flush_pending_write` for the pending IO at address 0: the first write
sends 4 of the 9 bytes and answers `MCMC_WANT_WRITE`, the second sends all it is
offered. -/
def partial_write_run : Option (ev_flags × mcp_server_t × proxy_heap × List mcmc_answer) :=
  match _flush_pending_write [.request_writev MCMC_WANT_WRITE 4, .request_writev MCMC_OK 5]
      one_io_server { unflushed_heap with ios := [{ get_io 0 with flushed := false }] } 0 with
  | some (_, s1, h1, rest) => _flush_pending_write rest s1 h1 0
  | none => none

/-- The handler for `EV_WRITE` on a queue of two unwritten pending IOs when the first
write sends 4 bytes and answers `MCMC_WANT_WRITE` and the second succeeds. -/
def blocked_write_run : Option (mcp_server_t × proxy_heap × List mcmc_answer) :=
  proxy_server_handler { write := true }
    [.request_writev MCMC_WANT_WRITE 4, .request_writev MCMC_OK 9] two_io_server
    unflushed_heap

/-- The submit callback on a batch of two unwritten pending IOs when the first write fails
with `MCMC_ERR` and the second succeeds. -/
def failed_write_run : Option (List mcp_server_t × proxy_heap × List mcmc_answer) :=
  proxy_submit_cb [.request_writev MCMC_ERR 0, .request_writev MCMC_OK 9] [ready_server]
    { unflushed_heap with
      ios := [{ get_io 0 with flushed := false }, { get_io 1 with flushed := false }] }
    [0, 1]

/-- A backend in state WantRead whose head is a GET hit with 2 of the 5 value bytes
read. -/
def waiting_server : mcp_server_t :=
  { one_io_server with state := .mcp_server_want_read }

/-- The response of that GET hit: header and two value bytes in a 25-byte buffer. -/
def waiting_resp : mcp_resp_t :=
  { resp := ⟨MCMC_RESP_GET, 15, 5, 2⟩, status := MCMC_OK,
    buf := some (bytes "VALUE foo 0 3\r\nba" ++ List.replicate 8 0), blen := 20, bread := 0 }

/-- The shared memory with that pending IO. -/
def waiting_heap : proxy_heap :=
  { one_io_heap with ios := [{ get_io 0 with client_resp := waiting_resp }] }

/-- One run of the state machine on a queue of two requests when the backend has sent the
response `END\r\n` to the first and nothing more. -/
def first_answer_run : Option drive_state :=
  proxy_server_drive_machine [.read MCMC_OK ⟨MCMC_RESP_END, 5, 0, 0⟩ ENDSTR, .buffer_consume 5 0]
    two_io_server two_io_heap

/-- The handler for `EV_READ` in the same situation. -/
def first_answer_handler : Option (mcp_server_t × proxy_heap × List mcmc_answer) :=
  proxy_server_handler { read := true }
    [.read MCMC_OK ⟨MCMC_RESP_END, 5, 0, 0⟩ ENDSTR, .buffer_consume 5 0]
    two_io_server two_io_heap

/-- One run of the state machine on a single in-flight GET whose whole response
`VALUE foo 0 3\r\nbar\r\nEND\r\n` is in the buffer at the first read. -/
def whole_hit_run : Option drive_state :=
  proxy_server_drive_machine
    [.read MCMC_OK hit_resp (hit_bytes ++ ENDSTR), .buffer_consume 20 5,
      .read MCMC_OK ⟨MCMC_RESP_END, 5, 0, 0⟩ ENDSTR, .buffer_consume 5 0]
    one_io_server one_io_heap

/-- One run of the state machine on a single in-flight GET when header and value have
arrived and the read of the `END` line answers `MCMC_WANT_READ`. -/
def end_pending_run : Option drive_state :=
  proxy_server_drive_machine
    [.read MCMC_OK hit_resp hit_bytes, .buffer_consume 20 0,
      .read MCMC_WANT_READ ⟨0, 0, 0, 0⟩ [], .buffer_consume 0 0]
    one_io_server one_io_heap

/-- The result of `proxy_submit_cb` on the batch of `queued_a_b` for a new backend whose
connect is in progress, so that nothing can be written yet. -/
def submitted_a_b_connecting : Option (List mcp_server_t × proxy_heap × List mcmc_answer) :=
  proxy_submit_cb [] [mcplib_server MCMC_CONNECTING]
    { ios := queued_a_b.io_queue.stack_ctx, queues := [queued_a_b.io_queue],
      redispatched := [], offered := [] }
    (List.range queued_a_b.io_queue.stack_ctx.length)

/-- The handler for `EV_WRITE` after `submitted_a_b_connecting`, the connect check and
both writes succeeding. The event that called the handler has fired, so it is no longer
pending. -/
def flushed_a_b_connecting : Option (mcp_server_t × proxy_heap × List mcmc_answer) :=
  match submitted_a_b_connecting with
  | some ([s1], h1, _) =>
    proxy_server_handler { write := true }
      [.check_nonblock_connect MCMC_OK, .request_writev MCMC_OK 7, .request_writev MCMC_OK 7]
      { s1 with event := none } h1
  | _ => none

/-! ## Buffer invariant of the reader state machine -/

/-- The recorded length of a response does not exceed the size of its buffer. -/
def resp_fits (r : mcp_resp_t) : Bool :=
  match r.buf with
  | none => true
  | some b => decide (r.blen ≤ b.length)

/-- What the state of the backend promises about the response at the head of its queue:
in state ReadEnd it is a GET hit of recorded length `reslen + vlen` in a buffer with 5
bytes to spare; in state WantRead its recorded length is `reslen + vlen` and its buffer
has that size, plus 5 for a GET hit. -/
def head_ready (state : mcp_server_states) (r : mcp_resp_t) : Bool :=
  match state, r.buf with
  | .mcp_server_read_end, some b =>
    decide (r.resp.type = MCMC_RESP_GET) && decide (b.length = r.blen + 5) &&
      decide (r.blen = r.resp.reslen + r.resp.vlen)
  | .mcp_server_read_end, none => false
  | .mcp_server_want_read, some b =>
    decide (b.length = r.blen + if r.resp.type = MCMC_RESP_GET then 5 else 0) &&
      decide (r.blen = r.resp.reslen + r.resp.vlen)
  | .mcp_server_want_read, none => false
  | _, _ => true

/-- The buffer invariant: every response fits its buffer, and the head of the queue is as
the state promises. -/
def buffers_fit (s : mcp_server_t) (h : proxy_heap) : Bool :=
  h.ios.all (fun io => resp_fits io.client_resp) &&
    match s.req_stack_head with
    | none => true
    | some p =>
      match h.ios[p]? with
      | none => true
      | some io => head_ready s.state io.client_resp

/-- What the client library guarantees of the answers the next turn takes: `mcmc_read`
leaves the header, and the whole value when `vlen_read = vlen`, in the read buffer, and
`mcmc_read_value` writes no more than the `vlen` bytes it is asked for. -/
def answer_fits (st : drive_state) : Bool :=
  match st.s.state, st.script with
  | .mcp_server_read, .read _ resp buf :: rest =>
    if resp.vlen = resp.vlen_read then decide (resp.reslen + resp.vlen ≤ buf.length)
    else
      decide (resp.reslen ≤ buf.length) &&
        match rest with
        | .read_value _ data _ :: _ => decide (data.length ≤ resp.vlen)
        | _ => true
  | .mcp_server_want_read, .read_value _ data _ :: _ =>
    match st.s.req_stack_head with
    | none => true
    | some p =>
      match st.h.ios[p]? with
      | none => true
      | some io => decide (data.length ≤ io.client_resp.resp.vlen)
  | _, _ => true

/-- The answers taken by the first turns of a run, as many as given or until the loop
stops, are as `answer_fits` says. -/
def run_fits : Nat → drive_state → Bool
  | 0, _ => true
  | n + 1, st =>
    answer_fits st &&
      match drive_step st with
      | none => true
      | some (st1, stop) => stop || run_fits n st1

/-! ## Lemmas -/

theorem spanLen_append (p : Nat → Bool) (a t : List Nat) (ha : ∀ c ∈ a, p c = true) :
    spanLen p (a ++ t) = a.length + spanLen p t := by
  induction a with
  | nil => simp
  | cons x xs ih =>
    have hx : p x = true := ha x (by simp)
    have h := ih (fun c hc => ha c (by simp [hc]))
    simp [spanLen, hx, h]
    omega

theorem digitsVal_append (a b : List Nat) (acc : Nat) :
    digitsVal acc (a ++ b) = digitsVal (digitsVal acc a) b := by
  induction a generalizing acc with
  | nil => rfl
  | cons x xs ih => exact ih (acc * 10 + (x - 48))

theorem decimalAux_spec (fuel : Nat) : ∀ (n : Nat) (acc : List Nat), n < fuel →
    ∃ pre, decimalAux fuel n acc = pre ++ acc ∧ pre ≠ [] ∧
      (∀ c ∈ pre, isdigit c = true) ∧ digitsVal 0 pre = n := by
  induction fuel with
  | zero => intro n acc h; omega
  | succ k ih =>
    intro n acc h
    by_cases hn : n < 10
    · refine ⟨[48 + n], by simp [decimalAux, hn], by simp, ?_, ?_⟩
      swap
      · show 0 * 10 + (48 + n - 48) = n
        omega
      intro c hc
      simp at hc
      subst hc
      simp [isdigit]
      omega
    · obtain ⟨pre, h1, h2, h3, h4⟩ := ih (n / 10) ((48 + n % 10) :: acc) (by omega)
      refine ⟨pre ++ [48 + n % 10], by simp [decimalAux, hn, h1], by simp, ?_, ?_⟩
      · intro c hc
        rcases List.mem_append.mp hc with hc | hc
        · exact h3 c hc
        · simp at hc
          subst hc
          simp [isdigit]
          omega
      · rw [digitsVal_append, h4]
        show n / 10 * 10 + (48 + n % 10 - 48) = n
        omega

theorem decimal_spec (n : Nat) :
    decimal n ≠ [] ∧ (∀ c ∈ decimal n, isdigit c = true) ∧ digitsVal 0 (decimal n) = n := by
  obtain ⟨pre, h1, h2, h3, h4⟩ := decimalAux_spec (n + 1) n [] (by omega)
  have : decimal n = pre := by simp [decimal, h1]
  rw [this]
  exact ⟨h2, h3, h4⟩

theorem isdigit_not_space {c : Nat} (h : isdigit c = true) :
    isspace c = false ∧ c ≠ 45 ∧ c ≠ 43 := by
  simp [isdigit] at h
  refine ⟨?_, by omega, by omega⟩
  simp [isspace]
  omega

/-- The subject sequence found in `white space, sign, digits, rest`. -/
theorem strto_subject_eq (buf : List Nat) (p : Nat) (w sg ds t : List Nat)
    (hbuf : buf.drop p = w ++ (sg ++ (ds ++ t)))
    (hw : ∀ c ∈ w, isspace c = true) (hsg : sg = [] ∨ sg = [45] ∨ sg = [43])
    (hds : ∀ c ∈ ds, isdigit c = true) (hne : ds ≠ []) (ht : spanLen isdigit t = 0) :
    strto_subject buf p = (w.length, sg == [45], sg.length, ds.length) ∧
      (buf.drop (p + w.length + sg.length)).take ds.length = ds := by
  obtain ⟨d, ds2, rfl⟩ := List.exists_cons_of_ne_nil hne
  have hd := isdigit_not_space (hds d (by simp))
  have hdd : isdigit d = true := hds d (by simp)
  have hsp : spanLen isspace (sg ++ (d :: ds2 ++ t)) = 0 := by
    rcases hsg with rfl | rfl | rfl
    · simp [spanLen, hd.1]
    · simp [spanLen, isspace]
    · simp [spanLen, isspace]
  have hws : spanLen isspace (w ++ (sg ++ (d :: ds2 ++ t))) = w.length := by
    rw [spanLen_append _ _ _ hw, hsp]
    rfl
  have hdig : spanLen isdigit (d :: (ds2 ++ t)) = ds2.length + 1 := by
    have := spanLen_append isdigit (d :: ds2) t hds
    rw [ht] at this
    simpa using this
  constructor
  · unfold strto_subject
    simp only [hbuf, hws, List.drop_left]
    rcases hsg with rfl | rfl | rfl
    · have h1 : d ≠ 45 := hd.2.1
      have h2 : d ≠ 43 := hd.2.2
      simp [h1, h2, hdig]
    · simp [hdig]
    · simp [hdig]
  · have : buf.drop (p + w.length + sg.length) = d :: ds2 ++ t := by
      rw [Nat.add_assoc, ← List.drop_drop, hbuf, ← List.append_assoc, ← List.length_append,
        List.drop_left]
    rw [this, List.take_left]

/-- What `strtoul` returns on `white space, sign, digits, rest`. -/
theorem strtoul_eq (buf : List Nat) (p : Nat) (w sg ds t : List Nat)
    (hbuf : buf.drop p = w ++ (sg ++ (ds ++ t)))
    (hw : ∀ c ∈ w, isspace c = true) (hsg : sg = [] ∨ sg = [45] ∨ sg = [43])
    (hds : ∀ c ∈ ds, isdigit c = true) (hne : ds ≠ []) (ht : spanLen isdigit t = 0) :
    strtoul buf p =
      if digitsVal 0 ds > ULONG_MAX then
        ⟨ULONG_MAX, p + w.length + sg.length + ds.length, true⟩
      else
        ⟨if sg == [45] then (2 ^ 64 - digitsVal 0 ds) % 2 ^ 64 else digitsVal 0 ds,
          p + w.length + sg.length + ds.length, false⟩ := by
  obtain ⟨h1, h2⟩ := strto_subject_eq buf p w sg ds t hbuf hw hsg hds hne ht
  have h3 : ds.length ≠ 0 := by
    intro h
    exact hne (List.length_eq_zero.mp h)
  unfold strtoul
  rw [h1]
  simp only [h2, h3, if_false]

/-- What `strtol` returns on `white space, sign, digits, rest`. -/
theorem strtol_eq (buf : List Nat) (p : Nat) (w sg ds t : List Nat)
    (hbuf : buf.drop p = w ++ (sg ++ (ds ++ t)))
    (hw : ∀ c ∈ w, isspace c = true) (hsg : sg = [] ∨ sg = [45] ∨ sg = [43])
    (hds : ∀ c ∈ ds, isdigit c = true) (hne : ds ≠ []) (ht : spanLen isdigit t = 0) :
    strtol buf p =
      if (sg == [45]) = true then
        if -(digitsVal 0 ds : Int) < LONG_MIN then
          ⟨LONG_MIN, p + w.length + sg.length + ds.length, true⟩
        else ⟨-(digitsVal 0 ds : Int), p + w.length + sg.length + ds.length, false⟩
      else
        if (digitsVal 0 ds : Int) > LONG_MAX then
          ⟨LONG_MAX, p + w.length + sg.length + ds.length, true⟩
        else ⟨(digitsVal 0 ds : Int), p + w.length + sg.length + ds.length, false⟩ := by
  obtain ⟨h1, h2⟩ := strto_subject_eq buf p w sg ds t hbuf hw hsg hds hne ht
  have h3 : ds.length ≠ 0 := by
    intro h
    exact hne (List.length_eq_zero.mp h)
  unfold strtol
  rw [h1]
  simp only [h2, h3, if_false]

theorem peek_append_left (a b : List Nat) (k : Nat) (h : k < a.length) :
    peek (a ++ b) k = peek a k := by
  simp [peek, List.getD_eq_getElem?_getD, List.getElem?_append_left h]

theorem peek_append_right (a b : List Nat) (k : Nat) :
    peek (a ++ b) (a.length + k) = peek b k := by
  simp [peek, List.getD_eq_getElem?_getD, List.getElem?_append_right]

theorem peek_mem (a : List Nat) (k : Nat) (h : k < a.length) : peek a k ∈ a := by
  simp [peek, List.getD_eq_getElem?_getD, List.getElem?_eq_getElem h]

theorem peek_of_drop (buf : List Nat) (k x : Nat) (t : List Nat) (h : buf.drop k = x :: t) :
    peek buf k = x := by
  have h1 : (buf.drop k).head? = some x := by rw [h]; rfl
  rw [List.head?_drop] at h1
  simp [peek, List.getD_eq_getElem?_getD, h1]

theorem tokenScan_word (buf : List Nat) (n : Nat) : ∀ (i cur s token : Nat)
    (toks : Nat → token_t), (∀ k < n, peek buf (cur + k) ≠ 32) →
    tokenScan buf (i + n) cur s token toks = tokenScan buf i (cur + n) s token toks := by
  induction n with
  | zero => intro i cur s token toks _; rfl
  | succ n ih =>
    intro i cur s token toks h
    have h0 : peek buf cur ≠ 32 := by simpa using h 0 (by omega)
    have h1 : ∀ k < n, peek buf (cur + 1 + k) ≠ 32 := by
      intro k hk
      have := h (k + 1) (by omega)
      rwa [show cur + (k + 1) = cur + 1 + k by omega] at this
    have h2 := ih i (cur + 1) s token toks h1
    rw [show i + (n + 1) = (i + n) + 1 by omega, show cur + (n + 1) = cur + 1 + n by omega, ← h2]
    simp [tokenScan, h0]

theorem tokenScan_first_space (buf : List Nat) (i cur s : Nat) (toks : Nat → token_t)
    (h : peek buf cur = 32) :
    tokenScan buf (i + 1) cur s 0 toks =
      tokenScan buf i (cur + 1) (cur + 1) 1 (setTok toks 0 ⟨s, cur - s⟩) := by
  simp [tokenScan, h, MAX_REQ_TOKENS]

theorem tokenScan_second_space (buf : List Nat) (i cur s : Nat) (toks : Nat → token_t)
    (h : peek buf cur = 32) :
    tokenScan buf (i + 1) cur s 1 toks =
      ⟨cur + 1, cur + 1, 2, setTok toks 1 ⟨s, cur - s⟩⟩ := by
  simp [tokenScan, h, MAX_REQ_TOKENS]

/-- The scan up to the end of the key of a line `cmd SP key ...`. -/
theorem tokenScan_cmd_key (cmd key tl : List Nat) (toks : Nat → token_t) (i : Nat)
    (hc : 32 ∉ cmd) (hk : 32 ∉ key) :
    tokenScan (cmd ++ 32 :: (key ++ tl)) (i + (cmd.length + 1 + key.length)) 0 0 0 toks =
      tokenScan (cmd ++ 32 :: (key ++ tl)) i (cmd.length + 1 + key.length) (cmd.length + 1) 1
        (setTok toks 0 ⟨0, cmd.length⟩) := by
  have e1 : ∀ k < cmd.length, peek (cmd ++ 32 :: (key ++ tl)) (0 + k) ≠ 32 := by
    intro k hk2 h
    rw [Nat.zero_add, peek_append_left _ _ _ hk2] at h
    exact hc (h ▸ peek_mem cmd k hk2)
  have e2 : peek (cmd ++ 32 :: (key ++ tl)) (0 + cmd.length) = 32 := by
    have := peek_append_right cmd (32 :: (key ++ tl)) 0
    simpa [peek] using this
  have e3 : ∀ k < key.length, peek (cmd ++ 32 :: (key ++ tl)) (0 + cmd.length + 1 + k) ≠ 32 := by
    intro k hk2 h
    have := peek_append_right cmd (32 :: (key ++ tl)) (k + 1)
    rw [show 0 + cmd.length + 1 + k = cmd.length + (k + 1) by omega, this] at h
    have h2 : peek (32 :: (key ++ tl)) (k + 1) = peek key k := by
      have := peek_append_left key tl k hk2
      simpa [peek] using this
    rw [h2] at h
    exact hk (h ▸ peek_mem key k hk2)
  rw [show i + (cmd.length + 1 + key.length) = (i + key.length + 1) + cmd.length by omega,
    tokenScan_word _ _ _ _ _ _ _ e1, tokenScan_first_space _ _ _ _ _ e2,
    tokenScan_word _ _ _ _ _ _ _ e3]
  simp [Nat.add_assoc]

theorem bytes_crlf : bytes "\r\n" = [13, 10] := by decide

theorem size_sub_two (n : Nat) (h : n + 2 < SIZE_MOD) : (n + 2 + SIZE_MOD - 2) % SIZE_MOD = n := by
  unfold SIZE_MOD at *
  omega

/-- Tokens of a line `cmd SP key CRLF`: the scan runs out right after the key, and the
key is closed by the `if (s != cur)` after the loop. -/
theorem tokenize_cmd_key_crlf (rq : mcp_request_t) (cmd key tl : List Nat)
    (hc : 32 ∉ cmd) (hk : 32 ∉ key) (hne : key ≠ [])
    (hlen : cmd.length + 1 + key.length + 2 < SIZE_MOD) :
    tokenize rq (cmd ++ 32 :: (key ++ tl)) (cmd.length + 1 + key.length + 2) =
      ⟨cmd.length + 1 + key.length, cmd.length + 1, 2, cmd_key_tokens rq.tokens cmd key⟩ := by
  have hpos : 0 < key.length := List.length_pos.mpr hne
  have h := tokenScan_cmd_key cmd key tl rq.tokens 0 hc hk
  rw [Nat.zero_add] at h
  unfold tokenize
  rw [size_sub_two _ hlen, h]
  simp only [tokenScan]
  have h2 : cmd.length + 1 ≠ cmd.length + 1 + key.length := by omega
  simp only [h2, ne_eq, not_false_eq_true, if_true, cmd_key_tokens]
  congr 2
  simp

/-- Tokens of a line `cmd SP key SP ...`: the scan stops at the second space. -/
theorem tokenize_cmd_key_sp (rq : mcp_request_t) (cmd key tl : List Nat) (j : Nat)
    (hc : 32 ∉ cmd) (hk : 32 ∉ key)
    (hlen : cmd.length + 1 + key.length + 1 + j + 2 < SIZE_MOD) :
    tokenize rq (cmd ++ 32 :: (key ++ 32 :: tl)) (cmd.length + 1 + key.length + 1 + j + 2) =
      ⟨cmd.length + 1 + key.length + 1, cmd.length + 1 + key.length + 1, 2,
        cmd_key_tokens rq.tokens cmd key⟩ := by
  have h := tokenScan_cmd_key cmd key (32 :: tl) rq.tokens (j + 1) hc hk
  have e : peek (cmd ++ 32 :: (key ++ 32 :: tl)) (cmd.length + 1 + key.length) = 32 := by
    apply peek_of_drop _ _ _ tl
    rw [show cmd ++ 32 :: (key ++ 32 :: tl) = (cmd ++ 32 :: key) ++ 32 :: tl by simp,
      show cmd.length + 1 + key.length = (cmd ++ 32 :: key).length by simp; omega,
      List.drop_left]
  unfold tokenize
  rw [size_sub_two _ hlen,
    show cmd.length + 1 + key.length + 1 + j = j + 1 + (cmd.length + 1 + key.length) by omega,
    h, tokenScan_second_space _ _ _ _ _ e]
  simp only [ne_eq, not_true_eq_false, if_false, cmd_key_tokens]
  congr 2
  simp

theorem bytes_lits : bytes "mg" = [109, 103] ∧ bytes "ms" = [109, 115] ∧ bytes "md" = [109, 100] ∧
    bytes "mn" = [109, 110] ∧ bytes "ma" = [109, 97] ∧ bytes "me" = [109, 101] ∧
    bytes "get" = [103, 101, 116] ∧ bytes "set" = [115, 101, 116] ∧
    bytes "delete" = [100, 101, 108, 101, 116, 101] := by decide

theorem strncmp_eq_zero_iff (n : Nat) : ∀ (a b : List Nat), (∀ c ∈ b, c ≠ 0) → n ≤ b.length →
    (strncmp a b n = 0 ↔ a.take n = b.take n) := by
  induction n with
  | zero => intro a b _ _; simp [strncmp]
  | succ n ih =>
    intro a b hb hn
    rcases b with _ | ⟨y, b2⟩
    · simp at hn
    have hy : y ≠ 0 := hb y (by simp)
    rcases a with _ | ⟨x, a2⟩
    · have : ((0 : Nat) : Int) - (y : Int) ≠ 0 := by omega
      simp [strncmp, Ne.symm hy]
      omega
    · by_cases hxy : x = y
      · subst hxy
        have := ih a2 b2 (fun c hc => hb c (by simp [hc])) (by simpa using hn)
        simp [strncmp, hy, this]
      · have : (x : Int) - (y : Int) ≠ 0 := by omega
        simp [strncmp, hxy, this]

theorem process_request_def (rq : mcp_request_t) (command : List Nat) (cmdlen : Nat) :
    process_request rq command cmdlen =
      dispatch_command { rq with tokens := (tokenize rq command cmdlen).tokens, vlen := 0 } command
        (tokenize rq command cmdlen).cur (tokenize rq command cmdlen).token := rfl

theorem drop_add_of_drop (buf : List Nat) (p : Nat) (a t : List Nat) (h : buf.drop p = a ++ t) :
    buf.drop (p + a.length) = t := by
  rw [← List.drop_drop, h, List.drop_left]

/-- The `set` branch on `flags SP [-]exptime SP bytes rest` with all three numbers in
range: the three fields are stored and `vlen` is the byte count plus 2. -/
theorem parse_set_ok (rq : mcp_request_t) (buf : List Nat) (cur : Nat)
    (fd sg ed nd t : List Nat)
    (hbuf : buf.drop cur = fd ++ (32 :: (sg ++ (ed ++ (32 :: (nd ++ t))))))
    (hfd : ∀ c ∈ fd, isdigit c = true) (hfne : fd ≠ [])
    (hsg : sg = [] ∨ sg = [45])
    (hed : ∀ c ∈ ed, isdigit c = true) (hene : ed ≠ [])
    (hnd : ∀ c ∈ nd, isdigit c = true) (hnne : nd ≠ [])
    (ht : spanLen isdigit t = 0)
    (hF : digitsVal 0 fd ≤ ULONG_MAX)
    (hE : if sg = [45] then LONG_MIN ≤ -(digitsVal 0 ed : Int) else (digitsVal 0 ed : Int) ≤ LONG_MAX)
    (hN : (digitsVal 0 nd : Int) ≤ LONG_MAX)
    (hV : 0 ≤ to_int (digitsVal 0 nd) ∧ to_int (digitsVal 0 nd) ≤ INT_MAX - 2) :
    parse_set rq buf cur 2 =
      { rq with
        flags := to_uint32 (digitsVal 0 fd)
        exptime := to_int (if sg = [45] then -(digitsVal 0 ed : Int) else (digitsVal 0 ed : Int))
        vlen := to_int (digitsVal 0 nd) + 2
        command := CMD_SET } := by
  have sp32 : ∀ l : List Nat, spanLen isdigit (32 :: l) = 0 := by
    intro l
    simp [spanLen, isdigit]
  have ws32 : ∀ c ∈ [32], isspace c = true := by
    intro c hc
    simp at hc
    subst hc
    rfl
  have lf : 0 < fd.length := List.length_pos.mpr hfne
  have le : 0 < ed.length := List.length_pos.mpr hene
  have ln : 0 < nd.length := List.length_pos.mpr hnne
  -- first field
  have r1 := strtoul_eq buf cur [] [] fd (32 :: (sg ++ (ed ++ (32 :: (nd ++ t)))))
    (by simpa using hbuf) (by simp) (Or.inl rfl) hfd hfne (sp32 _)
  have d1 := drop_add_of_drop buf cur fd _ hbuf
  have p1 : peek buf (cur + fd.length) = 32 := peek_of_drop _ _ _ _ d1
  simp only [List.length_nil, Nat.add_zero, gt_iff_lt, not_lt.mpr hF, if_false] at r1
  -- second field
  have r2 := strtol_eq buf (cur + fd.length) [32] sg ed (32 :: (nd ++ t))
    (by simpa using d1) ws32 (by rcases hsg with h | h <;> simp [h]) hed hene (sp32 _)
  have d2 : buf.drop (cur + fd.length + 1 + sg.length + ed.length) = 32 :: (nd ++ t) := by
    have := drop_add_of_drop buf (cur + fd.length) (32 :: (sg ++ ed)) (32 :: (nd ++ t))
      (by simpa using d1)
    rw [← this]
    congr 1
    simp
    omega
  have p2 : peek buf (cur + fd.length + 1 + sg.length + ed.length) = 32 := peek_of_drop _ _ _ _ d2
  -- third field
  have r3 := strtol_eq buf (cur + fd.length + 1 + sg.length + ed.length) [32] [] nd t
    (by simpa using d2) ws32 (Or.inl rfl) hnd hnne ht
  simp only [List.length_singleton, List.length_nil, Nat.add_zero] at r2 r3
  have hN2 : ¬ ((digitsVal 0 nd : Int) > LONG_MAX) := not_lt.mpr hN
  have hV1 : ¬ (to_int (digitsVal 0 nd) < 0) := not_lt.mpr hV.1
  have hV2 : ¬ (to_int (digitsVal 0 nd) > INT_MAX - 2) := not_lt.mpr hV.2
  rcases hsg with rfl | rfl
  · simp only [List.nil_eq, reduceCtorEq, if_false] at hE
    have hE2 : ¬ ((digitsVal 0 ed : Int) > LONG_MAX) := not_lt.mpr hE
    simp only [List.length_nil, Nat.add_zero] at p2
    simp [hE2, hN2] at r2 r3
    have e1 : ¬ (cur + fd.length = cur + fd.length + 1 + ed.length) := by omega
    have e2 : ¬ (cur + fd.length + 1 + ed.length = cur + fd.length + 1 + ed.length + 1 + nd.length) := by
      omega
    unfold parse_set
    simp [r1, r2, r3, p1, p2, hV1, hV2, hfne, e1, e2]
  · simp only [if_true] at hE
    have hE2 : ¬ (-(digitsVal 0 ed : Int) < LONG_MIN) := not_lt.mpr hE
    simp only [List.length_singleton] at p2
    simp [hE2, hN2] at r2 r3
    have e1 : ¬ (cur + fd.length = cur + fd.length + 1 + 1 + ed.length) := by omega
    have e2 : ¬ (cur + fd.length + 1 + 1 + ed.length =
        cur + fd.length + 1 + 1 + ed.length + 1 + nd.length) := by
      omega
    unfold parse_set
    simp [r1, r2, r3, p1, p2, hV1, hV2, hfne, e1, e2]

theorem decimalInt_spec (e : Int) :
    ∃ sg ed, decimalInt e = sg ++ ed ∧ (sg = [] ∨ sg = [45]) ∧ ed ≠ [] ∧
      (∀ c ∈ ed, isdigit c = true) ∧
      (if sg = [45] then -(digitsVal 0 ed : Int) else (digitsVal 0 ed : Int)) = e := by
  by_cases h : e < 0
  · obtain ⟨h1, h2, h3⟩ := decimal_spec e.natAbs
    refine ⟨[45], decimal e.natAbs, by simp [decimalInt, h], Or.inr rfl, h1, h2, ?_⟩
    simp only [if_true, h3]
    omega
  · obtain ⟨h1, h2, h3⟩ := decimal_spec e.toNat
    refine ⟨[], decimal e.toNat, by simp [decimalInt, h], Or.inl rfl, h1, h2, ?_⟩
    simp only [List.nil_eq, reduceCtorEq, if_false, h3]
    omega

theorem to_int_of_range (v : Int) (h1 : INT_MIN ≤ v) (h2 : v ≤ INT_MAX) : to_int v = v := by
  unfold INT_MIN at h1
  unfold INT_MAX at h2
  unfold to_int
  omega

theorem to_uint32_of_range (v : Nat) (h : v ≤ UINT32_MAX) : to_uint32 v = v := by
  unfold UINT32_MAX at h
  unfold to_uint32
  omega

/-- The request `process_request` leaves for a well-formed `set` line whose numbers are
in range. -/
theorem process_request_set_line (rq0 : mcp_request_t) (key mem : List Nat) (f : Nat) (e : Int)
    (n : Nat) (hk : 32 ∉ key) (hf : f ≤ UINT32_MAX) (he1 : INT_MIN ≤ e) (he2 : e ≤ INT_MAX)
    (hn : (n : Int) ≤ INT_MAX - 2) (hlen : (set_line key f e n).length < SIZE_MOD) :
    process_request rq0 (set_line key f e n ++ mem) (set_line key f e n).length =
      { rq0 with
        tokens := cmd_key_tokens rq0.tokens (bytes "set") key
        flags := f, exptime := e, vlen := (n : Int) + 2, command := CMD_SET } := by
  obtain ⟨sg, ed, hE, hsg, hene, hed, hval⟩ := decimalInt_spec e
  obtain ⟨f1, f2, f3⟩ := decimal_spec f
  obtain ⟨n1, n2, n3⟩ := decimal_spec n
  have hset4 : bytes "set " = [115, 101, 116, 32] := by decide
  have hset3 : bytes "set" = [115, 101, 116] := by decide
  obtain ⟨tl, htl⟩ : ∃ tl, tl = decimal f ++ (32 :: (sg ++ (ed ++ (32 :: (decimal n ++
      (13 :: 10 :: mem)))))) := ⟨_, rfl⟩
  have hb : set_line key f e n ++ mem = [115, 101, 116] ++ 32 :: (key ++ 32 :: tl) := by
    rw [htl]
    simp [set_line, hE, hset4, bytes_crlf]
  have hl : (set_line key f e n).length = [115, 101, 116].length + 1 + key.length + 1 +
      ((decimal f).length + 1 + (sg ++ ed).length + 1 + (decimal n).length) + 2 := by
    simp [set_line, hE, hset4, bytes_crlf]
    omega
  rw [hl] at hlen
  rw [hb, hl, hset3]
  have ht := tokenize_cmd_key_sp rq0 [115, 101, 116] key tl _ (by simp) hk hlen
  have hd := drop_add_of_drop ([115, 101, 116] ++ 32 :: (key ++ 32 :: tl)) 0
    ([115, 101, 116] ++ 32 :: (key ++ [32])) tl (by simp)
  have hd2 : 0 + ([115, 101, 116] ++ 32 :: (key ++ [32])).length =
      [115, 101, 116].length + 1 + key.length + 1 := by
    simp
    omega
  rw [hd2] at hd
  replace hd := hd.trans htl
  rw [process_request_def, ht]
  clear ht hl hlen
  have hps := parse_set_ok
    { rq0 with tokens := cmd_key_tokens rq0.tokens [115, 101, 116] key, vlen := 0 }
    ([115, 101, 116] ++ 32 :: (key ++ 32 :: tl)) _ (decimal f) sg ed (decimal n)
    (13 :: 10 :: mem) hd f2 f1 hsg hed hene n2 n1 (by simp [spanLen, isdigit])
    (by rw [f3]; unfold UINT32_MAX at hf; unfold ULONG_MAX; omega)
    (by
      unfold INT_MIN at he1
      unfold INT_MAX at he2
      unfold LONG_MIN LONG_MAX
      split_ifs with h <;> simp only [h, if_true, if_false] at hval <;> omega)
    (by rw [n3]; unfold INT_MAX at hn; unfold LONG_MAX; omega)
    (by
      rw [n3, to_int_of_range _ (by unfold INT_MIN; omega) (by omega)]
      exact ⟨by omega, hn⟩)
  rw [hval, f3, n3, to_uint32_of_range _ hf, to_int_of_range _ he1 he2,
    to_int_of_range _ (by unfold INT_MIN; omega) (by omega)] at hps
  simp only [dispatch_command, cmd_key_tokens, setTok, COMMAND_TOKEN]
  simp [peek]
  simp only [cmd_key_tokens, setTok] at hps
  simpa using hps

theorem parse_set_keeps (rq : mcp_request_t) (buf : List Nat) (cur token : Nat) :
    (parse_set rq buf cur token).tokens = rq.tokens ∧
      (parse_set rq buf cur token).request = rq.request ∧
      (parse_set rq buf cur token).reqlen = rq.reqlen ∧
      (parse_set rq buf cur token).buf = rq.buf := by
  unfold parse_set
  dsimp only
  split_ifs <;> exact ⟨rfl, rfl, rfl, rfl⟩

theorem dispatch_command_keeps (rq : mcp_request_t) (buf : List Nat) (cur token : Nat) :
    (dispatch_command rq buf cur token).tokens = rq.tokens ∧
      (dispatch_command rq buf cur token).request = rq.request ∧
      (dispatch_command rq buf cur token).reqlen = rq.reqlen ∧
      (dispatch_command rq buf cur token).buf = rq.buf := by
  unfold dispatch_command
  dsimp only
  split_ifs <;> first | exact ⟨rfl, rfl, rfl, rfl⟩ | exact parse_set_keeps _ _ _ _

theorem dispatch_command_keeps_scan (rq : mcp_request_t) (toks : Nat → token_t)
    (buf : List Nat) (cur token : Nat) :
    (dispatch_command { rq with tokens := toks, vlen := 0 } buf cur token).tokens = toks ∧
      (dispatch_command { rq with tokens := toks, vlen := 0 } buf cur token).request
        = rq.request ∧
      (dispatch_command { rq with tokens := toks, vlen := 0 } buf cur token).reqlen
        = rq.reqlen ∧
      (dispatch_command { rq with tokens := toks, vlen := 0 } buf cur token).buf = rq.buf :=
  dispatch_command_keeps { rq with tokens := toks, vlen := 0 } buf cur token

theorem process_request_keeps (rq : mcp_request_t) (buf : List Nat) (cmdlen : Nat) :
    (process_request rq buf cmdlen).tokens = (tokenize rq buf cmdlen).tokens ∧
      (process_request rq buf cmdlen).request = rq.request ∧
      (process_request rq buf cmdlen).reqlen = rq.reqlen ∧
      (process_request rq buf cmdlen).buf = rq.buf := by
  rw [process_request_def]
  generalize tokenize rq buf cmdlen = st
  exact dispatch_command_keeps_scan rq st.tokens buf st.cur st.token

/-- The tokens and the token count on a line `cmd SP key [SP rest] CRLF`. -/
theorem tokenize_cmd_key_line (rq0 : mcp_request_t) (cmd key mem : List Nat)
    (rest : Option (List Nat)) (hc : 32 ∉ cmd) (hk : 32 ∉ key) (hkne : key ≠ [])
    (hlen : (cmd_key_line cmd key rest).length < SIZE_MOD) :
    (tokenize rq0 (cmd_key_line cmd key rest ++ mem) (cmd_key_line cmd key rest).length).tokens
        = cmd_key_tokens rq0.tokens cmd key ∧
      (tokenize rq0 (cmd_key_line cmd key rest ++ mem) (cmd_key_line cmd key rest).length).token
        = 2 := by
  cases rest with
  | none =>
    have hb : cmd_key_line cmd key none ++ mem = cmd ++ 32 :: (key ++ (13 :: 10 :: mem)) := by
      simp [cmd_key_line, bytes_crlf]
    have hl : (cmd_key_line cmd key none).length = cmd.length + 1 + key.length + 2 := by
      simp [cmd_key_line, bytes_crlf]
      omega
    rw [hl] at hlen
    rw [hb, hl, tokenize_cmd_key_crlf rq0 cmd key _ hc hk hkne hlen]
    exact ⟨rfl, rfl⟩
  | some r =>
    have hb : cmd_key_line cmd key (some r) ++ mem =
        cmd ++ 32 :: (key ++ 32 :: (r ++ (13 :: 10 :: mem))) := by
      simp [cmd_key_line, bytes_crlf]
    have hl : (cmd_key_line cmd key (some r)).length =
        cmd.length + 1 + key.length + 1 + r.length + 2 := by
      simp [cmd_key_line, bytes_crlf]
      omega
    rw [hl] at hlen
    rw [hb, hl, tokenize_cmd_key_sp rq0 cmd key _ _ hc hk hlen]
    exact ⟨rfl, rfl⟩

theorem mcp_new_request_def (fresh : mcp_request_t) (command : List Nat) (cmdlen : Nat) :
    mcp_new_request fresh command cmdlen =
      process_request { fresh with request := command, reqlen := cmdlen, lua_key := false }
        command cmdlen := rfl

theorem mcp_new_request_line (fresh : mcp_request_t) (command : List Nat) (cmdlen : Nat) :
    (mcp_new_request fresh command cmdlen).request = command ∧
      (mcp_new_request fresh command cmdlen).reqlen = cmdlen := by
  rw [mcp_new_request_def]
  have h := process_request_keeps
    { fresh with request := command, reqlen := cmdlen, lua_key := false } command cmdlen
  exact ⟨h.2.1, h.2.2.1⟩

theorem write_wbuf_iov (resp : mc_resp) (s : List Nat) (l : Nat) (h : l ≤ s.length) :
    (write_wbuf resp s l).iov = resp.iov ++ [s.take l] := by
  have : (List.take l s ++ List.drop l resp.wbuf).take l = s.take l := by
    rw [List.take_append_of_le_length (by simp [h])]
    simp
  simp [write_wbuf, resp_add_iov, memcpy, this]

theorem resume_and_reply_resumed (env : Env) (c : conn) (rq : mcp_request_t) :
    (resume_and_reply env c rq).resumed = rq :: c.resumed ∧
      (resume_and_reply env c rq).state = c.state := by
  unfold resume_and_reply
  cases env.lua_resume rq with
  | ok top =>
    cases top with
    | string s => exact ⟨rfl, rfl⟩
    | userdata uv =>
      cases uv with
      | none => exact ⟨rfl, rfl⟩
      | some v => exact ⟨rfl, rfl⟩
    | other => exact ⟨rfl, rfl⟩
  | yield s rq2 => exact ⟨rfl, rfl⟩
  | error => exact ⟨rfl, rfl⟩

theorem resume_and_reply_string (env : Env) (c : conn) (rq : mcp_request_t) (s : List Nat)
    (h : env.lua_resume rq = .ok (.string s)) :
    (resume_and_reply env c rq).resp.iov =
      c.resp.iov ++ [s.take (min s.length env.WRITE_BUFFER_SIZE)] := by
  unfold resume_and_reply
  rw [h]
  exact write_wbuf_iov c.resp s _ (Nat.min_le_left _ _)

theorem process_proxy_command_nread (env : Env) (c : conn) (command : List Nat) (cmdlen : Nat)
    (rq : mcp_request_t) (hrq : rq = mcp_new_request env.fresh_request command cmdlen)
    (hs : env.resp_start = true) (hv : rq.vlen ≠ 0) :
    process_proxy_command env c command cmdlen =
      { resp_start c with
        L := ⟨rq⟩ :: (resp_start c).L
        item := env.malloc rq.vlen.toNat
        ritem := env.malloc rq.vlen.toNat
        rlbytes := rq.vlen
        state := .conn_nread } := by
  unfold process_proxy_command
  rw [← hrq]
  simp [hs, hv]

theorem process_proxy_command_resume (env : Env) (c : conn) (command : List Nat)
    (cmdlen : Nat) (rq : mcp_request_t)
    (hrq : rq = mcp_new_request env.fresh_request command cmdlen)
    (hs : env.resp_start = true) (hv : rq.vlen = 0) :
    process_proxy_command env c command cmdlen =
      resume_and_reply env { resp_start c with L := ⟨rq⟩ :: (resp_start c).L } rq := by
  unfold process_proxy_command
  rw [← hrq]
  simp [hs, hv]

theorem crlf_check (item : List Nat) (vlen : Int) (hlen : (item.length : Int) = vlen)
    (h2 : 2 ≤ item.length) :
    strncmp (item.drop (vlen - 2).toNat) (bytes "\r\n") 2 = 0 ↔ last_two item = bytes "\r\n" := by
  have hk : (vlen - 2).toNat = item.length - 2 := by omega
  rw [hk, bytes_crlf, strncmp_eq_zero_iff 2 _ [13, 10] (by simp) (by simp)]
  have : (item.drop (item.length - 2)).length = 2 := by
    simp
    omega
  unfold last_two
  rw [List.take_of_length_le (by omega)]
  simp

set_option maxHeartbeats 1000000 in
/-- The command code on a line `cmd SP key CRLF`, by cases on the length of the command
token. -/
theorem command_code_by_length (rq0 : mcp_request_t) (cmd key mem : List Nat)
    (hc : 32 ∉ cmd) (hk : 32 ∉ key) (hne : key ≠ [])
    (hlen : (cmd ++ [32] ++ key ++ bytes "\r\n").length < SIZE_MOD)
    (hset : cmd ≠ bytes "set") :
    (process_request rq0 ((cmd ++ [32] ++ key ++ bytes "\r\n") ++ mem)
      (cmd ++ [32] ++ key ++ bytes "\r\n").length).command =
      if cmd = bytes "mg" then CMD_MG
      else if cmd = bytes "ms" then CMD_MS
      else if cmd = bytes "md" then CMD_MD
      else if cmd = bytes "mn" then CMD_MN
      else if cmd = bytes "ma" then CMD_MA
      else if cmd = bytes "me" then CMD_ME
      else if cmd = bytes "get" then CMD_GET
      else if cmd = bytes "delete" then CMD_DELETE
      else -1 := by
  have hb : (cmd ++ [32] ++ key ++ bytes "\r\n") ++ mem = cmd ++ 32 :: (key ++ (13 :: 10 :: mem)) := by
    simp [bytes_crlf]
  have hl : (cmd ++ [32] ++ key ++ bytes "\r\n").length = cmd.length + 1 + key.length + 2 := by
    simp [bytes_crlf]
    omega
  rw [hl] at hlen
  rw [hb, hl]
  have ht := tokenize_cmd_key_crlf rq0 cmd key (13 :: 10 :: mem) hc hk hne hlen
  rw [process_request_def]
  rw [ht]
  clear ht hl hb hlen
  simp only [bytes_lits] at hset ⊢
  rcases cmd with _ | ⟨a, _ | ⟨b, _ | ⟨c, _ | ⟨d, _ | ⟨e, _ | ⟨f, _ | ⟨g, r⟩⟩⟩⟩⟩⟩⟩
  · simp [dispatch_command, cmd_key_tokens, setTok, COMMAND_TOKEN]
  · simp [dispatch_command, cmd_key_tokens, setTok, COMMAND_TOKEN]
  · simp [dispatch_command, cmd_key_tokens, setTok, COMMAND_TOKEN, peek]
    split_ifs <;> simp_all
  · simp [dispatch_command, cmd_key_tokens, setTok, COMMAND_TOKEN, peek]
    split_ifs <;> simp_all
  · simp [dispatch_command, cmd_key_tokens, setTok, COMMAND_TOKEN]
  · simp [dispatch_command, cmd_key_tokens, setTok, COMMAND_TOKEN]
  · have hs := strncmp_eq_zero_iff 6 (a :: b :: c :: d :: e :: f :: 32 :: (key ++ 13 :: 10 :: mem))
      [100, 101, 108, 101, 116, 101] (by simp) (by simp)
    simp at hs
    simp [dispatch_command, cmd_key_tokens, setTok, COMMAND_TOKEN, bytes_lits, hs]
    split_ifs <;> simp_all
  · simp [dispatch_command, cmd_key_tokens, setTok, COMMAND_TOKEN]

theorem complete_nread_proxy_resume (env : Env) (c : conn) (co : coroutine)
    (Ls : List coroutine) (item : List Nat) (hL : c.L = co :: Ls) (hi : c.item = some item)
    (hlen : (item.length : Int) = co.rq.vlen) (h2 : 2 ≤ item.length)
    (hcr : last_two item = bytes "\r\n") :
    complete_nread_proxy env c =
      some (resume_and_reply env
        { c with state := .conn_new_cmd, item := none,
                 L := ⟨{ co.rq with buf := some item }⟩ :: Ls }
        { co.rq with buf := some item }) := by
  have h0 := (crlf_check item co.rq.vlen hlen h2).mpr hcr
  have hge : ¬ (co.rq.vlen < 2) := by omega
  unfold complete_nread_proxy
  simp [hL, hi, hge, h0]

theorem resume_and_reply_error (env : Env) (c : conn) (rq : mcp_request_t)
    (h : env.lua_resume rq = .error) :
    (resume_and_reply env c rq).resp.iov =
      c.resp.iov ++ [(bytes "SERVER_ERROR lua failure\r\n").take 15] := by
  unfold resume_and_reply
  rw [h]
  exact write_wbuf_iov c.resp _ 15 (by decide)

theorem proxy_complete_cb_string (env : Env) (resume : io_pending_proxy_t → lua_result_complete)
    (s : List Nat) : ∀ (chain : List (io_pending_proxy_t × mc_resp)) (c c2 : conn)
    (rs : List mc_resp) (i : Nat) (p : io_pending_proxy_t) (resp : mc_resp),
    chain[i]? = some (p, resp) → resume p = .ok (.string s) →
    proxy_complete_cb env resume c chain = some (c2, rs) →
    ∃ r2, rs[i]? = some r2 ∧
      r2.iov = resp.iov ++ [s.take (min s.length env.WRITE_BUFFER_SIZE)] := by
  intro chain
  induction chain with
  | nil => intro c c2 rs i p resp h; simp at h
  | cons x rest ih =>
    intro c c2 rs i p resp hi hres hrun
    obtain ⟨p0, resp0⟩ := x
    simp only [proxy_complete_cb] at hrun
    cases h1 : complete_one env (resume p0) c resp0 with
    | none => simp [h1] at hrun
    | some v =>
      obtain ⟨c1, resp1⟩ := v
      cases h2 : proxy_complete_cb env resume c1 rest with
      | none => simp [h1, h2] at hrun
      | some w =>
        obtain ⟨c3, rs3⟩ := w
        simp [h1, h2] at hrun
        obtain ⟨_, rfl⟩ := hrun
        cases i with
        | zero =>
          simp at hi
          obtain ⟨rfl, rfl⟩ := hi
          rw [hres] at h1
          simp [complete_one] at h1
          refine ⟨resp1, by simp, ?_⟩
          rw [← h1.2]
          exact write_wbuf_iov _ s _ (Nat.min_le_left _ _)
        | succ j =>
          simp at hi
          obtain ⟨r2, hr, hiov⟩ := ih c1 c3 rs3 j p resp hi hres h2
          exact ⟨r2, by simpa using hr, hiov⟩

theorem selector_pool_spec : ∀ (l registry : List Nat),
    (selector_pool registry l).2 = registry ++ l ∧
      (selector_pool registry l).1.length = l.length ∧
      ∀ (i srv : Nat), l[i]? = some srv →
        (selector_pool registry l).1[i]? =
          some (⟨(registry.length : Int) + i + 1, srv⟩ : mcp_hash_selector_srv_t) := by
  intro l
  induction l with
  | nil => intro registry; simp [selector_pool]
  | cons x rest ih =>
    intro registry
    obtain ⟨h1, h2, h3⟩ := ih (registry ++ [x])
    refine ⟨by simp [selector_pool, luaL_ref, h1], by simp [selector_pool, luaL_ref, h2], ?_⟩
    intro i srv hi
    cases i with
    | zero =>
      simp at hi
      simp [selector_pool, luaL_ref, hi]
    | succ j =>
      simp at hi
      have := h3 j srv hi
      simp [selector_pool, luaL_ref, this]
      omega

theorem lua_rawgeti_append (registry l : List Nat) (i : Nat) :
    lua_rawgeti (registry ++ l) ((registry.length : Int) + i + 1) = l[i]? := by
  have h1 : ¬ ((registry.length : Int) + i + 1 ≤ 0) := by omega
  have h2 : ((registry.length : Int) + i).toNat = registry.length + i := by omega
  simp [lua_rawgeti, h1, h2, List.getElem?_append_right]

theorem set_client_resp_get (h : proxy_heap) (p : Nat) (io : io_pending_proxy_t)
    (r : mcp_resp_t) (hio : h.ios[p]? = some io) :
    (set_client_resp h p r).ios[p]? = some { io with client_resp := r } := by
  have hp : p < h.ios.length := by
    rcases Nat.lt_or_ge p h.ios.length with hlt | hge
    · exact hlt
    · rw [List.getElem?_eq_none hge] at hio
      cases hio
  unfold set_client_resp
  rw [hio]
  show (h.ios.set p { io with client_resp := r })[p]? = _
  rw [List.getElem?_set_self hp]

theorem set_client_resp_queues (h : proxy_heap) (p : Nat) (r : mcp_resp_t) :
    (set_client_resp h p r).queues = h.queues := by
  unfold set_client_resp
  cases h.ios[p]? <;> rfl

theorem drive_loop_succ (n : Nat) (st : drive_state) :
    drive_loop (n + 1) st =
      match drive_step st with
      | none => none
      | some (st1, stop) => if stop then some st1 else drive_loop n st1 := rfl

theorem write_at_fresh (n : Nat) (src : List Nat) :
    write_at (malloc_block n) 0 src n = src.take n := by
  unfold write_at malloc_block
  simp

theorem write_at_end (b : List Nat) (n : Nat) (hb : b.length = n + 5) :
    write_at b n ENDSTR ENDLEN = b.take n ++ ENDSTR := by
  unfold write_at
  have h1 : List.take ENDLEN ENDSTR = ENDSTR := by decide
  have h2 : List.drop (n + ENDLEN) b = [] := by
    apply List.drop_eq_nil_of_le
    show b.length ≤ n + 5
    omega
  rw [h1, h2, List.append_nil]

/-- The turn of the loop in state Read when the header read succeeds with an `END`
line. -/
theorem drive_read_end_line (s : mcp_server_t) (h : proxy_heap) (p : Nat) (lp : Option Nat)
    (fl : ev_flags) (io : io_pending_proxy_t) (resp : mcmc_resp_t) (buf : List Nat)
    (rest : List mcmc_answer) (hstate : s.state = .mcp_server_read)
    (hhead : s.req_stack_head = some p) (hio : h.ios[p]? = some io)
    (htype : resp.type = MCMC_RESP_END) (hvlen : resp.vlen = 0) (hread : resp.vlen_read = 0) :
    drive_step ⟨s, h, lp, fl, .read MCMC_OK resp buf :: rest⟩ =
      some (⟨{ s with rbuf := some buf, state := .mcp_server_next },
          set_client_resp h p { io.client_resp with
            status := MCMC_OK, resp := resp, blen := resp.reslen,
            buf := some (buf.take resp.reslen) }, some p, fl, rest⟩, false) := by
  have hne : ¬ MCMC_RESP_END = MCMC_RESP_GET := by decide
  unfold drive_step
  simp only [hstate]
  unfold drive_read
  simp only [hhead, hio, htype, hvlen, hread, hne, if_false, if_true, ne_eq, not_true,
    and_false, true_or, or_true, Nat.add_zero, write_at_fresh]

/-- The turn of the loop in state Read when the header read succeeds with a GET hit whose
value is complete in the buffer. -/
theorem drive_read_hit (s : mcp_server_t) (h : proxy_heap) (p : Nat) (lp : Option Nat)
    (fl : ev_flags) (io : io_pending_proxy_t) (resp : mcmc_resp_t) (buf : List Nat)
    (rest : List mcmc_answer) (hstate : s.state = .mcp_server_read)
    (hhead : s.req_stack_head = some p) (hio : h.ios[p]? = some io)
    (htype : resp.type = MCMC_RESP_GET) (hfull : resp.vlen = resp.vlen_read) :
    drive_step ⟨s, h, lp, fl, .read MCMC_OK resp buf :: rest⟩ =
      some (⟨{ s with rbuf := some buf, state := .mcp_server_read_end },
          set_client_resp h p { io.client_resp with
            status := MCMC_OK, resp := resp, blen := resp.reslen + resp.vlen,
            buf := some (write_at (malloc_block (resp.reslen + resp.vlen + ENDLEN)) 0 buf
              (resp.reslen + resp.vlen)) }, some p, fl, rest⟩, false) := by
  have hne : ¬ MCMC_RESP_GET = MCMC_RESP_END := by decide
  unfold drive_step
  simp only [hstate]
  unfold drive_read
  simp only [hhead, hio, htype, ← hfull, hne, if_false, if_true, ne_eq,
    false_and, true_or, or_true]

/-- The turn of the loop in state Read when the header read succeeds with a GET hit whose
value is not complete in the buffer and the value read succeeds. -/
theorem drive_read_hit_value (s : mcp_server_t) (h : proxy_heap) (p : Nat) (lp : Option Nat)
    (fl : ev_flags) (io : io_pending_proxy_t) (resp : mcmc_resp_t) (buf data : List Nat)
    (rd : Int) (rest : List mcmc_answer) (hstate : s.state = .mcp_server_read)
    (hhead : s.req_stack_head = some p) (hio : h.ios[p]? = some io)
    (htype : resp.type = MCMC_RESP_GET) (hpart : resp.vlen ≠ resp.vlen_read) :
    drive_step ⟨s, h, lp, fl, .read MCMC_OK resp buf :: .read_value MCMC_OK data rd :: rest⟩ =
      some (⟨{ s with rbuf := some buf, state := .mcp_server_read_end },
          set_client_resp h p { io.client_resp with
            status := MCMC_OK, resp := resp, blen := resp.reslen + resp.vlen,
            buf := some (write_at
              (write_at (malloc_block (resp.reslen + resp.vlen + ENDLEN)) 0 buf resp.reslen)
              resp.reslen data data.length),
            bread := rd }, some p, fl, rest⟩, false) := by
  have hne : ¬ MCMC_RESP_GET = MCMC_RESP_END := by decide
  unfold drive_step
  simp only [hstate]
  unfold drive_read
  simp only [hhead, hio, htype, hpart, hne, if_false, if_true, ne_eq,
    false_and, true_or, or_true]

/-- The turn of the loop in state ReadEnd when the read succeeds with an `END` line. -/
theorem drive_read_end_ok (s : mcp_server_t) (h : proxy_heap) (p : Nat) (lp : Option Nat)
    (fl : ev_flags) (io : io_pending_proxy_t) (b : List Nat) (newbuf remain : Nat)
    (tmp : mcmc_resp_t) (buf : List Nat) (rest : List mcmc_answer)
    (hstate : s.state = .mcp_server_read_end) (hhead : s.req_stack_head = some p)
    (hio : h.ios[p]? = some io) (hb : io.client_resp.buf = some b)
    (hend : tmp.type = MCMC_RESP_END) :
    ∃ rb : Option (List Nat),
      drive_step ⟨s, h, lp, fl, .buffer_consume newbuf remain :: .read MCMC_OK tmp buf :: rest⟩ =
        some (⟨{ s with rbuf := rb, state := .mcp_server_next },
          set_client_resp h p { io.client_resp with
            buf := some (write_at b io.client_resp.blen ENDSTR ENDLEN),
            blen := io.client_resp.blen + 5 }, some p, fl, rest⟩, false) := by
  constructor
  unfold drive_step
  simp only [hstate]
  unfold drive_read_end
  simp only [hhead, hio, hb, hend, ne_eq, not_true, if_false]
  rfl

/-- The turn of the loop in state Next. -/
theorem drive_next_pop (s : mcp_server_t) (h : proxy_heap) (p : Nat) (fl : ev_flags)
    (io : io_pending_proxy_t) (q : io_queue_t) (newbuf remain : Nat)
    (rest : List mcmc_answer) (hstate : s.state = .mcp_server_next)
    (hio : h.ios[p]? = some io) (hq : h.queues[io.q]? = some q)
    (hwf : s.req_stack_tail = some p → io.server_next = none) :
    ∃ rb : Option (List Nat),
      drive_step ⟨s, h, some p, fl, .buffer_consume newbuf remain :: rest⟩ =
        some (⟨{ s with
            req_stack_head := io.server_next
            req_stack_tail := if s.req_stack_tail = some p then none else s.req_stack_tail
            rbuf := rb
            state := .mcp_server_read },
          { h with
            queues := h.queues.set io.q { q with count := q.count - 1 }
            redispatched :=
              if q.count - 1 = 0 then h.redispatched ++ [io.c] else h.redispatched },
          some p, fl, rest⟩, decide (s.req_stack_tail = some p) || decide (remain = 0)) := by
  constructor
  unfold drive_step
  simp only [hstate]
  unfold drive_next
  simp only [hio, hq]
  have hg : ¬ (s.req_stack_tail = some p ∧ io.server_next ≠ none) := by
    rintro ⟨h1, h2⟩
    exact h2 (hwf h1)
  rw [if_neg hg]

theorem or_stop (b : Bool) : (b || decide (0 = 0)) = true := by
  cases b <;> rfl

theorem drive_loop_stop (n : Nat) (st st1 : drive_state)
    (h : drive_step st = some (st1, true)) : drive_loop (n + 1) st = some st1 := by
  rw [drive_loop_succ, h]
  rfl

theorem drive_loop_go (n : Nat) (st st1 : drive_state)
    (h : drive_step st = some (st1, false)) : drive_loop (n + 1) st = drive_loop n st1 := by
  rw [drive_loop_succ, h]
  rfl

theorem hit_buffer_full (buf : List Nat) (n : Nat) (hn : n ≤ buf.length) :
    write_at (write_at (malloc_block (n + ENDLEN)) 0 buf n) n ENDSTR ENDLEN
      = buf.take n ++ ENDSTR := by
  have h1 : write_at (malloc_block (n + ENDLEN)) 0 buf n
      = buf.take n ++ List.replicate 5 0 := by
    unfold write_at malloc_block ENDLEN
    simp
  rw [h1, write_at_end _ n (by simp [hn])]
  simp [hn]

theorem hit_buffer_value (buf data : List Nat) (r v : Nat) (hr : r ≤ buf.length)
    (hv : data.length = v) :
    write_at (write_at (write_at (malloc_block (r + v + ENDLEN)) 0 buf r) r data data.length)
        (r + v) ENDSTR ENDLEN
      = buf.take r ++ data ++ ENDSTR := by
  have h1 : write_at (malloc_block (r + v + ENDLEN)) 0 buf r
      = buf.take r ++ List.replicate (v + 5) 0 := by
    unfold write_at malloc_block ENDLEN
    simp
    omega
  have h2 : write_at (buf.take r ++ List.replicate (v + 5) 0) r data data.length
      = buf.take r ++ data ++ List.replicate 5 0 := by
    unfold write_at
    have e1 : (buf.take r ++ List.replicate (v + 5) 0).take r = buf.take r := by
      rw [List.take_append_of_le_length (by simp [hr])]
      simp
    have e2 : (buf.take r ++ List.replicate (v + 5) 0).drop (r + data.length)
        = List.replicate 5 0 := by
      have hl : (buf.take r).length = r := by simp [hr]
      rw [List.drop_append_eq_append_drop, hl]
      simp [hv]
    rw [e1, e2, List.take_length]
  rw [h1, h2, write_at_end _ (r + v) (by simp [hr, hv]; omega)]
  have e3 : (buf.take r ++ data ++ List.replicate 5 0).take (r + v) = buf.take r ++ data := by
    rw [List.take_append_of_le_length (by simp [hr, hv])]
    apply List.take_of_length_le
    simp [hr, hv]
  rw [e3]

theorem save_progress_base (l : List iovec) (sent : Int) :
    (save_progress l sent).map (fun v => v.iov_base) = l.map (fun v => v.iov_base) := by
  induction l generalizing sent with
  | nil => rfl
  | cons v vs ih =>
    unfold save_progress
    split_ifs
    · simp only [List.map_cons, ih]
    · simp only [List.map_cons]

/-- What `proxy_submit_cb` does with a batch of two unflushed pending IOs for a writable
backend with an empty queue, both writes succeeding. -/
theorem proxy_submit_cb_pair (B : mcp_server_t) (pb pa : io_pending_proxy_t)
    (queues : List io_queue_t) (sent1 sent2 : Int) (rest : List mcmc_answer)
    (hhead : B.req_stack_head = none) (htail : B.req_stack_tail = none)
    (hwrite : B.can_write = true) (hfb : pb.flushed = false) (hfa : pa.flushed = false)
    (hsb : pb.server = 0) (hsa : pa.server = 0) :
    ∃ servers h1,
      proxy_submit_cb (.request_writev MCMC_OK sent1 :: .request_writev MCMC_OK sent2 :: rest)
          [B] ⟨[pb, pa], queues, [], []⟩ [0, 1] = some (servers, h1, rest) ∧
      servers.map (fun s => (s.req_stack_head, s.req_stack_tail)) = [(some 0, some 1)] ∧
      backend_queue 2 h1 (some 0) = [0, 1] ∧
      h1.ios.map (fun io => io.iov.map fun v => v.iov_base)
        = [pb.iov.map fun v => v.iov_base, pa.iov.map fun v => v.iov_base] ∧
      h1.offered = [iov_bytes pb, iov_bytes pa] := by
  have hne : ¬ MCMC_OK = MCMC_WANT_WRITE := by decide
  obtain ⟨hd, tl, rbuf, ev, st, cn, cw⟩ := B
  simp only at hhead htail hwrite
  subst hhead htail hwrite
  have hbase : ∀ (p : io_pending_proxy_t) (sent : Int),
      (if sent > 0 then save_progress (p.iov.take p.iovcnt) sent ++ p.iov.drop p.iovcnt
        else p.iov).map (fun v => v.iov_base) = p.iov.map fun v => v.iov_base := by
    intro p sent
    split_ifs
    · rw [List.map_append, save_progress_base, ← List.map_append, List.take_append_drop]
    · rfl
  have harmed : event_idle (some { timeout := true, read := true, write := false }) = false :=
    rfl
  cases hev : event_idle ev
  all_goals
    constructor
    constructor
    refine ⟨?_, ?_, ?_, ?_, ?_⟩
    · unfold proxy_submit_cb
      simp only [List.getElem?_cons_zero, hsb, if_true, hev, Bool.false_eq_true, if_false]
      unfold _flush_pending_write
      simp only [List.getElem?_cons_zero, hfb, Bool.false_eq_true, if_false, hne, ne_eq,
        not_true, List.set_cons_zero, if_true, hev]
      unfold proxy_submit_cb
      simp only [List.getElem?_cons_succ, List.getElem?_cons_zero, hsa, if_true,
        reduceCtorEq, if_false, hev, harmed, Bool.false_eq_true]
      unfold _flush_pending_write
      simp only [List.getElem?_cons_succ, List.getElem?_cons_zero, hfa, Bool.false_eq_true,
        if_false, hne, ne_eq, not_true, List.set_cons_zero, List.set_cons_succ, if_true,
        reduceCtorEq, hev, harmed]
      unfold proxy_submit_cb
      rfl
    · rfl
    · rfl
    · dsimp only [List.map]
      rw [hbase pb sent1, hbase pa sent2]
    · rfl

/-- The token scan reads at most as many bytes as its counter allows. -/
theorem tokenScan_cur_le (buf : List Nat) : ∀ (i cur s token : Nat) (toks : Nat → token_t),
    (tokenScan buf i cur s token toks).cur ≤ cur + i := by
  intro i
  induction i with
  | zero => intro cur s token toks; simp [tokenScan]
  | succ i ih =>
    intro cur s token toks
    unfold tokenScan
    split_ifs
    · show cur + 1 ≤ cur + (i + 1)
      omega
    · have := ih (cur + 1) (cur + 1) (token + 1) (setTok toks token ⟨s, cur - s⟩)
      omega
    · have := ih (cur + 1) s token toks
      omega

/-- For a line of at least two bytes the scan stays inside the first `cmdlen - 2`
bytes. -/
theorem tokenize_cur_le (rq : mcp_request_t) (command : List Nat) (n : Nat)
    (hlen : n + 2 < SIZE_MOD) : (tokenize rq command (n + 2)).cur ≤ n := by
  have key : tokenize rq command (n + 2) =
      if (tokenScan command n 0 0 0 rq.tokens).s ≠ (tokenScan command n 0 0 0 rq.tokens).cur then
        ⟨(tokenScan command n 0 0 0 rq.tokens).cur, (tokenScan command n 0 0 0 rq.tokens).s,
          (tokenScan command n 0 0 0 rq.tokens).token + 1,
          setTok (tokenScan command n 0 0 0 rq.tokens).tokens
            (tokenScan command n 0 0 0 rq.tokens).token
            ⟨(tokenScan command n 0 0 0 rq.tokens).s,
              (tokenScan command n 0 0 0 rq.tokens).cur
                - (tokenScan command n 0 0 0 rq.tokens).s⟩⟩
      else tokenScan command n 0 0 0 rq.tokens := by
    unfold tokenize
    rw [size_sub_two _ hlen]
  have h := tokenScan_cur_le command n 0 0 0 rq.tokens
  rw [Nat.zero_add] at h
  rw [key]
  split_ifs
  · exact h
  · exact h

theorem memchr_replicate (n m a ch : Nat) (h : a ≠ ch) :
    memchr (List.replicate n a) ch m = none := by
  induction n generalizing m with
  | zero => cases m <;> rfl
  | succ n ih =>
    cases m with
    | zero => rfl
    | succ m =>
      rw [List.replicate_succ]
      unfold memchr
      rw [if_neg h, ih]
      rfl

/-- Without a newline in a buffer of at most 1024 bytes `try_read_command_proxy` waits
for more data. -/
theorem try_read_short_without_newline (env : Env) (c : conn) (h0 : c.rbytes ≠ 0)
    (hnl : memchr c.rcurr 10 c.rbytes = none) (hle : c.rbytes ≤ 1024) :
    try_read_command_proxy env c = (0, c) := by
  unfold try_read_command_proxy
  rw [if_neg h0, hnl]
  dsimp only
  rw [if_neg (by omega)]

/-- In state WantRead an error answer of the value read leaves the backend, the memory
and the flags as they are, and the loop goes on. -/
theorem drive_want_read_error (lp : Option Nat) (rest : List mcmc_answer) :
    drive_step ⟨waiting_server, waiting_heap, lp, {}, .read_value MCMC_ERR [] 0 :: rest⟩
      = some (⟨waiting_server, waiting_heap, some 0, {}, rest⟩, false) := rfl

theorem drive_want_read_errors (k : Nat) : ∀ (lp : Option Nat) (m : Nat)
    (rest : List mcmc_answer),
    drive_loop (k + m) ⟨waiting_server, waiting_heap, lp, {},
        List.replicate k (.read_value MCMC_ERR [] 0) ++ rest⟩
      = drive_loop m ⟨waiting_server, waiting_heap, if k = 0 then lp else some 0, {}, rest⟩ := by
  induction k with
  | zero =>
    intro lp m rest
    rw [Nat.zero_add]
    rfl
  | succ k ih =>
    intro lp m rest
    rw [show k + 1 + m = (k + m) + 1 by omega, List.replicate_succ, List.cons_append,
      drive_loop_go _ _ _ (drive_want_read_error lp _), ih]
    simp

theorem backend_queue_ios (n : Nat) : ∀ (h1 h2 : proxy_heap) (x : Option Nat),
    h1.ios = h2.ios → backend_queue n h1 x = backend_queue n h2 x := by
  induction n with
  | zero => intro h1 h2 x _; rfl
  | succ n ih =>
    intro h1 h2 x he
    cases x with
    | none => rfl
    | some p =>
      unfold backend_queue
      rw [he]
      cases h2.ios[p]? with
      | none => rfl
      | some io =>
        dsimp only
        rw [ih h1 h2 io.server_next he]

/-- Every turn of the loop in a state other than Next leaves the local `p` equal to the
head of the queue. -/
theorem drive_step_sets_p (st st1 : drive_state) (stop : Bool)
    (hs : st.s.state ≠ .mcp_server_next) (h : drive_step st = some (st1, stop)) :
    st1.p = st1.s.req_stack_head ∧ st1.p ≠ none := by
  unfold drive_step at h
  cases hst : st.s.state with
  | mcp_server_next => exact absurd hst hs
  | mcp_server_read =>
    rw [hst] at h
    dsimp only at h
    unfold drive_read at h
    cases hh : st.s.req_stack_head with
    | none => rw [hh] at h; cases h
    | some p =>
      rw [hh] at h
      dsimp only at h
      repeat' split at h
      all_goals cases h
      all_goals exact ⟨hh.symm, by simp⟩
  | mcp_server_read_end =>
    rw [hst] at h
    dsimp only at h
    unfold drive_read_end at h
    cases hh : st.s.req_stack_head with
    | none => rw [hh] at h; cases h
    | some p =>
      rw [hh] at h
      dsimp only at h
      repeat' split at h
      all_goals cases h
      all_goals exact ⟨hh.symm, by simp⟩
  | mcp_server_want_read =>
    rw [hst] at h
    dsimp only at h
    unfold drive_want_read at h
    cases hh : st.s.req_stack_head with
    | none => rw [hh] at h; cases h
    | some p =>
      rw [hh] at h
      dsimp only at h
      repeat' split at h
      all_goals cases h
      all_goals exact ⟨hh.symm, by simp⟩

theorem write_at_length (dst src : List Nat) (off n : Nat) (h1 : off + n ≤ dst.length)
    (h2 : n ≤ src.length) : (write_at dst off src n).length = dst.length := by
  unfold write_at
  simp only [List.length_append, List.length_take, List.length_drop]
  omega

theorem head_ready_next (r : mcp_resp_t) : head_ready .mcp_server_next r = true := by
  unfold head_ready
  split <;> simp_all

theorem head_ready_read (r : mcp_resp_t) : head_ready .mcp_server_read r = true := by
  unfold head_ready
  split <;> simp_all

theorem head_ready_read_end (r : mcp_resp_t) (b : List Nat) (hb : r.buf = some b) :
    head_ready .mcp_server_read_end r = true ↔
      (r.resp.type = MCMC_RESP_GET ∧ b.length = r.blen + 5 ∧
        r.blen = r.resp.reslen + r.resp.vlen) := by
  unfold head_ready
  rw [hb]
  simp [and_assoc]

theorem head_ready_want_read (r : mcp_resp_t) (b : List Nat) (hb : r.buf = some b) :
    head_ready .mcp_server_want_read r = true ↔
      (b.length = r.blen + (if r.resp.type = MCMC_RESP_GET then 5 else 0) ∧
        r.blen = r.resp.reslen + r.resp.vlen) := by
  unfold head_ready
  rw [hb]
  simp

theorem head_ready_buf (state : mcp_server_states) (r : mcp_resp_t)
    (hs : state = .mcp_server_read_end ∨ state = .mcp_server_want_read)
    (h : head_ready state r = true) : ∃ b, r.buf = some b := by
  cases hb : r.buf with
  | some b => exact ⟨b, rfl⟩
  | none =>
    rcases hs with hs | hs <;>
    · subst hs
      unfold head_ready at h
      rw [hb] at h
      simp at h

theorem buffers_fit_iff (s : mcp_server_t) (h : proxy_heap) :
    buffers_fit s h = true ↔
      (∀ io ∈ h.ios, resp_fits io.client_resp = true) ∧
      (∀ p io, s.req_stack_head = some p → h.ios[p]? = some io →
        head_ready s.state io.client_resp = true) := by
  unfold buffers_fit
  rw [Bool.and_eq_true, List.all_eq_true]
  constructor
  · rintro ⟨h1, h2⟩
    refine ⟨h1, ?_⟩
    intro p io hp hio
    rw [hp] at h2
    dsimp only at h2
    rw [hio] at h2
    exact h2
  · rintro ⟨h1, h2⟩
    refine ⟨h1, ?_⟩
    cases hp : s.req_stack_head with
    | none => rfl
    | some p =>
      dsimp only
      cases hio : h.ios[p]? with
      | none => rfl
      | some io => exact h2 p io hp hio

theorem mem_of_getElem_some (l : List io_pending_proxy_t) (p : Nat) (io : io_pending_proxy_t)
    (h : l[p]? = some io) : io ∈ l := by
  rw [List.getElem?_eq_some] at h
  obtain ⟨hp, rfl⟩ := h
  exact List.getElem_mem _

/-- The invariant after the response of the head has been written back. -/
theorem buffers_fit_set (s1 : mcp_server_t) (h : proxy_heap) (p : Nat)
    (io : io_pending_proxy_t) (r : mcp_resp_t)
    (hall : ∀ io ∈ h.ios, resp_fits io.client_resp = true) (hio : h.ios[p]? = some io)
    (hhead : s1.req_stack_head = some p) (hr : resp_fits r = true)
    (hh : head_ready s1.state r = true) : buffers_fit s1 (set_client_resp h p r) = true := by
  rw [buffers_fit_iff]
  constructor
  · intro io1 hmem
    unfold set_client_resp at hmem
    rw [hio] at hmem
    dsimp only at hmem
    rcases List.mem_or_eq_of_mem_set hmem with hm | rfl
    · exact hall io1 hm
    · exact hr
  · intro p1 io1 hp1 hio1
    rw [hhead] at hp1
    cases hp1
    rw [set_client_resp_get h p io r hio] at hio1
    cases hio1
    exact hh

theorem malloc_block_length (n : Nat) : (malloc_block n).length = n := by
  unfold malloc_block
  simp

theorem resp_fits_of (r : mcp_resp_t) (b : List Nat) (hb : r.buf = some b)
    (h : r.blen ≤ b.length) : resp_fits r = true := by
  unfold resp_fits
  rw [hb]
  simp [h]

/-- A turn in state Read keeps the buffer invariant. -/
theorem drive_read_keeps_fit (st st1 : drive_state) (stop : Bool)
    (hst : st.s.state = .mcp_server_read) (hinv : buffers_fit st.s st.h = true)
    (hfit : answer_fits st = true) (h : drive_read st = some (st1, stop)) :
    buffers_fit st1.s st1.h = true := by
  rw [buffers_fit_iff] at hinv
  obtain ⟨hall, -⟩ := hinv
  unfold drive_read at h
  cases hh : st.s.req_stack_head with
  | none => rw [hh] at h; cases h
  | some p =>
    rw [hh] at h
    dsimp only at h
    split at h
    rotate_left
    · cases h
    rename_i io status resp buf rest hio hscript
    unfold answer_fits at hfit
    rw [hst, hscript] at hfit
    dsimp only at hfit
    have hext : ∃ e : Nat, (if resp.type = MCMC_RESP_GET then ENDLEN else 0) = e ∧
        (resp.type = MCMC_RESP_GET → e = 5) := by
      by_cases hg : resp.type = MCMC_RESP_GET
      · exact ⟨5, by rw [if_pos hg]; rfl, fun _ => rfl⟩
      · exact ⟨0, by rw [if_neg hg], fun h => absurd h hg⟩
    obtain ⟨e, he, he5⟩ := hext
    rw [he] at h
    have hnext : ∀ r : mcp_resp_t, r.resp = resp → ∀ b, r.buf = some b →
        b.length = r.blen + e → r.blen = resp.reslen + resp.vlen →
        head_ready (if resp.type = MCMC_RESP_GET then mcp_server_states.mcp_server_read_end
          else mcp_server_states.mcp_server_next) r = true := by
      intro r hr b hb hl hbl
      split_ifs with hg
      · rw [head_ready_read_end _ _ hb, hr]
        exact ⟨hg, by rw [hl, he5 hg], hbl⟩
      · exact head_ready_next _
    generalize hns : (if resp.type = MCMC_RESP_GET then mcp_server_states.mcp_server_read_end
      else mcp_server_states.mcp_server_next) = ns at h hnext
    by_cases h1 : resp.type = MCMC_RESP_END ∧ resp.vlen ≠ 0
    · rw [if_pos h1] at h
      cases h
    rw [if_neg h1] at h
    by_cases h2 : resp.type = MCMC_RESP_GET ∨ resp.type = MCMC_RESP_END ∨
        resp.type = MCMC_RESP_META ∨ resp.type = MCMC_RESP_GENERIC
    · rw [if_pos h2] at h
      by_cases h3 : resp.vlen = resp.vlen_read
      · rw [if_pos h3] at h
        rw [if_pos h3, decide_eq_true_eq] at hfit
        have hlen : (write_at (malloc_block (resp.reslen + resp.vlen + e)) 0 buf
            (resp.reslen + resp.vlen)).length = resp.reslen + resp.vlen + e := by
          rw [write_at_length _ _ _ _ (by rw [malloc_block_length]; omega) hfit,
            malloc_block_length]
        cases h
        refine buffers_fit_set _ _ _ _ _ hall hio hh ?_ ?_
        · exact resp_fits_of _ _ rfl (by show resp.reslen + resp.vlen ≤ _; rw [hlen]; omega)
        · exact hnext _ rfl _ rfl hlen rfl
      · rw [if_neg h3] at h
        rw [if_neg h3, Bool.and_eq_true, decide_eq_true_eq] at hfit
        obtain ⟨hf1, hf2⟩ := hfit
        split at h
        rotate_left
        · cases h
        rename_i status2 data rd rest2
        dsimp only at hf2
        rw [decide_eq_true_eq] at hf2
        have hlen : (write_at (write_at (malloc_block (resp.reslen + resp.vlen + e)) 0 buf
            resp.reslen) resp.reslen data data.length).length
            = resp.reslen + resp.vlen + e := by
          rw [write_at_length _ _ _ _ _ (Nat.le_refl _),
            write_at_length _ _ _ _ (by rw [malloc_block_length]; omega) hf1,
            malloc_block_length]
          rw [write_at_length _ _ _ _ (by rw [malloc_block_length]; omega) hf1,
            malloc_block_length]
          omega
        have hr : ∀ r : mcp_resp_t, r.blen = resp.reslen + resp.vlen →
            r.buf = some (write_at (write_at (malloc_block (resp.reslen + resp.vlen + e)) 0
              buf resp.reslen) resp.reslen data data.length) → resp_fits r = true := by
          intro r hbl hb
          exact resp_fits_of _ _ hb (by rw [hlen, hbl]; omega)
        split_ifs at h with h4 h5
        · cases h
          exact buffers_fit_set _ _ _ _ _ hall hio hh (hr _ rfl rfl) (hnext _ rfl _ rfl hlen rfl)
        · cases h
          refine buffers_fit_set _ _ _ _ _ hall hio hh (hr _ rfl rfl) ?_
          rw [head_ready_want_read _ _ rfl]
          refine ⟨?_, rfl⟩
          show _ = resp.reslen + resp.vlen + _
          rw [hlen]
          by_cases hg : resp.type = MCMC_RESP_GET
          · rw [if_pos hg, he5 hg]
          · rw [if_neg hg, ← he, if_neg hg]
        · cases h
          exact buffers_fit_set _ _ _ _ _ hall hio hh (hr _ rfl rfl) (hnext _ rfl _ rfl hlen rfl)
    · rw [if_neg h2] at h
      cases h
      have hg : ¬ resp.type = MCMC_RESP_GET := fun hg => h2 (Or.inl hg)
      refine buffers_fit_set _ _ _ _ _ hall hio hh ?_ ?_
      · have := hall io (mem_of_getElem_some _ _ _ hio)
        unfold resp_fits at this ⊢
        exact this
      · rw [← hns, if_neg hg]
        exact head_ready_next _

/-- The invariant in a state that promises nothing about the head. -/
theorem buffers_fit_idle (s1 : mcp_server_t) (h : proxy_heap)
    (hall : ∀ io ∈ h.ios, resp_fits io.client_resp = true)
    (hs : s1.state = .mcp_server_next ∨ s1.state = .mcp_server_read) :
    buffers_fit s1 h = true := by
  rw [buffers_fit_iff]
  refine ⟨hall, ?_⟩
  intro p io _ _
  rcases hs with hs | hs <;> rw [hs]
  · exact head_ready_next _
  · exact head_ready_read _

/-- A turn in state ReadEnd keeps the buffer invariant and ends in state Next; it either
leaves the response of the head as it is or, for a GET hit, adds 5 to its recorded
length, which then is `reslen + vlen + 5`, the size of the buffer. -/
theorem drive_read_end_keeps_fit (st st1 : drive_state) (stop : Bool)
    (hst : st.s.state = .mcp_server_read_end) (hinv : buffers_fit st.s st.h = true)
    (h : drive_read_end st = some (st1, stop)) :
    buffers_fit st1.s st1.h = true ∧ st1.s.state = .mcp_server_next ∧
      ∃ p io io1, st.s.req_stack_head = some p ∧ st.h.ios[p]? = some io ∧
        st1.h.ios[p]? = some io1 ∧
        (io1.client_resp = io.client_resp ∨
          (io.client_resp.resp.type = MCMC_RESP_GET ∧ io1.client_resp.resp = io.client_resp.resp ∧
            io1.client_resp.blen = io.client_resp.blen + 5 ∧
            io1.client_resp.blen = io.client_resp.resp.reslen + io.client_resp.resp.vlen + 5 ∧
            ∃ b, io1.client_resp.buf = some b ∧ b.length = io1.client_resp.blen)) := by
  rw [buffers_fit_iff] at hinv
  obtain ⟨hall, hhd⟩ := hinv
  unfold drive_read_end at h
  cases hh : st.s.req_stack_head with
  | none => rw [hh] at h; cases h
  | some p =>
    rw [hh] at h
    dsimp only at h
    split at h
    rotate_left
    · cases h
    rename_i io newbuf remain status tmp buf rest hio hscript
    have hready := hhd p io hh hio
    rw [hst] at hready
    obtain ⟨b, hb⟩ := head_ready_buf _ _ (Or.inl rfl) hready
    rw [head_ready_read_end _ _ hb] at hready
    obtain ⟨hg, hbl, hbv⟩ := hready
    by_cases h1 : status ≠ MCMC_OK
    · rw [if_pos h1] at h
      cases h
      exact ⟨buffers_fit_idle _ _ hall (Or.inl rfl), rfl, p, io, io, rfl, hio, hio, Or.inl rfl⟩
    rw [if_neg h1] at h
    by_cases h2 : tmp.type ≠ MCMC_RESP_END
    · rw [if_pos h2] at h
      cases h
      exact ⟨buffers_fit_idle _ _ hall (Or.inl rfl), rfl, p, io, io, rfl, hio, hio, Or.inl rfl⟩
    rw [if_neg h2, hb] at h
    dsimp only at h
    cases h
    have hlen : (write_at b io.client_resp.blen ENDSTR ENDLEN).length
        = io.client_resp.blen + 5 := by
      have h5 : ENDSTR.length = 5 := rfl
      rw [write_at_end _ _ hbl, List.length_append, List.length_take, h5,
        Nat.min_eq_left (by omega)]
    refine ⟨buffers_fit_set _ _ _ _ _ hall hio hh ?_ (head_ready_next _), rfl, p, io, _, rfl,
      hio, set_client_resp_get _ _ _ _ hio, Or.inr ⟨hg, rfl, rfl, ?_, _, rfl, hlen⟩⟩
    · exact resp_fits_of _ _ rfl (by rw [hlen])
    · show io.client_resp.blen + 5 = _
      rw [hbv]

/-- A turn in state WantRead keeps the buffer invariant. -/
theorem drive_want_read_keeps_fit (st st1 : drive_state) (stop : Bool)
    (hst : st.s.state = .mcp_server_want_read) (hinv : buffers_fit st.s st.h = true)
    (hfit : answer_fits st = true) (h : drive_want_read st = some (st1, stop)) :
    buffers_fit st1.s st1.h = true := by
  rw [buffers_fit_iff] at hinv
  obtain ⟨hall, hhd⟩ := hinv
  unfold drive_want_read at h
  cases hh : st.s.req_stack_head with
  | none => rw [hh] at h; cases h
  | some p =>
    rw [hh] at h
    dsimp only at h
    split at h
    rotate_left
    · cases h
    rename_i io status data rd rest hio hscript
    unfold answer_fits at hfit
    rw [hst, hscript] at hfit
    dsimp only at hfit
    rw [hh] at hfit
    dsimp only at hfit
    rw [hio] at hfit
    dsimp only at hfit
    rw [decide_eq_true_eq] at hfit
    have hready := hhd p io hh hio
    rw [hst] at hready
    obtain ⟨b, hb⟩ := head_ready_buf _ _ (Or.inr rfl) hready
    rw [head_ready_want_read _ _ hb] at hready
    obtain ⟨hbl, hbv⟩ := hready
    rw [hb] at h
    dsimp only at h
    have hlen : (write_at b io.client_resp.resp.reslen data data.length).length = b.length :=
      write_at_length _ _ _ _ (by rw [hbl, hbv]; omega) (Nat.le_refl _)
    have hr : ∀ r : mcp_resp_t, r.blen = io.client_resp.blen →
        r.buf = some (write_at b io.client_resp.resp.reslen data data.length) →
        resp_fits r = true := by
      intro r hrl hrb
      exact resp_fits_of _ _ hrb (by rw [hlen, hbl, hrl]; omega)
    have hw : ∀ r : mcp_resp_t, r.blen = io.client_resp.blen → r.resp = io.client_resp.resp →
        r.buf = some (write_at b io.client_resp.resp.reslen data data.length) →
        head_ready .mcp_server_want_read r = true := by
      intro r hrl hrr hrb
      rw [head_ready_want_read _ _ hrb, hlen, hrl, hrr]
      exact ⟨hbl, hbv⟩
    generalize hns : (if io.client_resp.resp.type = MCMC_RESP_GET then
      mcp_server_states.mcp_server_read_end else mcp_server_states.mcp_server_next) = ns at h
    split_ifs at h with h1 h2
    · cases h
      refine buffers_fit_set _ _ _ _ _ hall hio hh (hr _ rfl rfl) ?_
      show head_ready ns _ = true
      rw [← hns]
      split_ifs with hg
      · rw [head_ready_read_end _ _ rfl]
        refine ⟨hg, ?_, hbv⟩
        show _ = io.client_resp.blen + 5
        rw [hlen, hbl, if_pos hg]
      · exact head_ready_next _
    · cases h
      refine buffers_fit_set _ _ _ _ _ hall hio hh (hr _ rfl rfl) ?_
      show head_ready st.s.state _ = true
      rw [hst]
      exact hw _ rfl rfl rfl
    · cases h
      refine buffers_fit_set _ _ _ _ _ hall hio hh (hr _ rfl rfl) ?_
      show head_ready st.s.state _ = true
      rw [hst]
      exact hw _ rfl rfl rfl

/-- A turn in state Next keeps the buffer invariant. -/
theorem drive_next_keeps_fit (st st1 : drive_state) (stop : Bool)
    (hinv : buffers_fit st.s st.h = true) (h : drive_next st = some (st1, stop)) :
    buffers_fit st1.s st1.h = true := by
  rw [buffers_fit_iff] at hinv
  obtain ⟨hall, -⟩ := hinv
  unfold drive_next at h
  repeat' split at h
  all_goals cases h
  all_goals exact buffers_fit_idle _ _ hall (Or.inr rfl)

/-- A turn in state Read for a response of a kind the proxy handles records the length
`reslen + vlen` and leaves a buffer of that size, plus 5 for a GET hit. -/
theorem drive_read_allocates (st st1 : drive_state) (stop : Bool) (p : Nat)
    (io : io_pending_proxy_t) (status : Int) (resp : mcmc_resp_t) (buf : List Nat)
    (rest : List mcmc_answer) (hst : st.s.state = .mcp_server_read)
    (hh : st.s.req_stack_head = some p) (hio : st.h.ios[p]? = some io)
    (hscript : st.script = .read status resp buf :: rest)
    (hres : resp.type = MCMC_RESP_GET ∨ resp.type = MCMC_RESP_END ∨
      resp.type = MCMC_RESP_META ∨ resp.type = MCMC_RESP_GENERIC)
    (hfit : answer_fits st = true) (h : drive_read st = some (st1, stop)) :
    ∃ io1 b, st1.h.ios[p]? = some io1 ∧ io1.client_resp.resp = resp ∧
      io1.client_resp.blen = resp.reslen + resp.vlen ∧ io1.client_resp.buf = some b ∧
      b.length = resp.reslen + resp.vlen + if resp.type = MCMC_RESP_GET then 5 else 0 := by
  unfold drive_read at h
  rw [hh] at h
  dsimp only at h
  rw [hio, hscript] at h
  dsimp only at h
  unfold answer_fits at hfit
  rw [hst, hscript] at hfit
  dsimp only at hfit
  have he : (if resp.type = MCMC_RESP_GET then ENDLEN else 0)
      = if resp.type = MCMC_RESP_GET then 5 else 0 := rfl
  rw [he] at h
  generalize (if resp.type = MCMC_RESP_GET then 5 else 0) = e at h ⊢
  generalize (if resp.type = MCMC_RESP_GET then mcp_server_states.mcp_server_read_end
    else mcp_server_states.mcp_server_next) = ns at h
  by_cases h1 : resp.type = MCMC_RESP_END ∧ resp.vlen ≠ 0
  · rw [if_pos h1] at h
    cases h
  rw [if_neg h1, if_pos hres] at h
  by_cases h3 : resp.vlen = resp.vlen_read
  · rw [if_pos h3] at h
    rw [if_pos h3, decide_eq_true_eq] at hfit
    cases h
    refine ⟨_, _, set_client_resp_get _ _ _ _ hio, rfl, rfl, rfl, ?_⟩
    rw [write_at_length _ _ _ _ (by rw [malloc_block_length]; omega) hfit,
      malloc_block_length]
  · rw [if_neg h3] at h
    rw [if_neg h3, Bool.and_eq_true, decide_eq_true_eq] at hfit
    obtain ⟨hf1, hf2⟩ := hfit
    split at h
    rotate_left
    · cases h
    rename_i status2 data rd rest2
    dsimp only at hf2
    rw [decide_eq_true_eq] at hf2
    have hlen : (write_at (write_at (malloc_block (resp.reslen + resp.vlen + e)) 0 buf
        resp.reslen) resp.reslen data data.length).length
        = resp.reslen + resp.vlen + e := by
      rw [write_at_length _ _ _ _ _ (Nat.le_refl _),
        write_at_length _ _ _ _ (by rw [malloc_block_length]; omega) hf1,
        malloc_block_length]
      rw [write_at_length _ _ _ _ (by rw [malloc_block_length]; omega) hf1,
        malloc_block_length]
      omega
    split_ifs at h
    all_goals cases h
    all_goals exact ⟨_, _, set_client_resp_get _ _ _ _ hio, rfl, rfl, rfl, hlen⟩

/-- Every turn of the loop keeps the buffer invariant. -/
theorem drive_step_keeps_fit (st st1 : drive_state) (stop : Bool)
    (hinv : buffers_fit st.s st.h = true) (hfit : answer_fits st = true)
    (h : drive_step st = some (st1, stop)) : buffers_fit st1.s st1.h = true := by
  unfold drive_step at h
  cases hst : st.s.state with
  | mcp_server_read =>
    rw [hst] at h
    exact drive_read_keeps_fit st st1 stop hst hinv hfit h
  | mcp_server_read_end =>
    rw [hst] at h
    exact (drive_read_end_keeps_fit st st1 stop hst hinv h).1
  | mcp_server_want_read =>
    rw [hst] at h
    exact drive_want_read_keeps_fit st st1 stop hst hinv hfit h
  | mcp_server_next =>
    rw [hst] at h
    exact drive_next_keeps_fit st st1 stop hinv h

/-- A run of the loop keeps the buffer invariant. -/
theorem drive_loop_keeps_fit (n : Nat) : ∀ (st st1 : drive_state),
    buffers_fit st.s st.h = true → run_fits n st = true → drive_loop n st = some st1 →
    buffers_fit st1.s st1.h = true := by
  induction n with
  | zero =>
    intro st st1 _ _ h
    cases h
  | succ n ih =>
    intro st st1 hinv hrun h
    unfold run_fits at hrun
    rw [Bool.and_eq_true] at hrun
    obtain ⟨hfit, hrest⟩ := hrun
    rw [drive_loop_succ] at h
    cases hstep : drive_step st with
    | none => rw [hstep] at h; cases h
    | some r =>
      obtain ⟨st2, stop⟩ := r
      rw [hstep] at h hrest
      dsimp only at h hrest
      have hinv2 := drive_step_keeps_fit st st2 stop hinv hfit hstep
      cases stop with
      | true =>
        rw [if_pos rfl] at h
        cases h
        exact hinv2
      | false =>
        rw [if_neg (by simp)] at h
        rw [Bool.false_or] at hrest
        exact ih st2 st1 hinv2 hrest h

theorem resp_fits_iff (r : mcp_resp_t) :
    resp_fits r = true ↔ ∀ b, r.buf = some b → r.blen ≤ b.length := by
  unfold resp_fits
  cases hb : r.buf with
  | none => simp
  | some b => simp

/-- For a selector built by `mcplib_hash_selector` from a non-empty pool of `n` servers
and a request whose key token the parser has written, `mcplib_hash_selector_call` yields
the request together with the server stored at pool index `H(key) mod n`, `H` being the
injected hash, as a `uint32_t`, of exactly the bytes of the key token; the index is below
`n`, and a request with a key token of the same bytes gets the same server. -/
theorem hash_selector_picks_by_hash (hf : List Nat → Nat) (registry table : List Nat)
    (rq : mcp_request_t) (hne : table ≠ []) (hsz : (table.length : Int) ≤ INT_MAX)
    (hkey : key_token_set rq = true) :
    (mcplib_hash_selector hf registry table).1.pool_size = table.length ∧
      hf (token_bytes rq.request (rq.tokens KEY_TOKEN)) % 2 ^ 32 % table.length
        < table.length ∧
      (∃ e srv,
        (mcplib_hash_selector hf registry table).1.pool[
          hf (token_bytes rq.request (rq.tokens KEY_TOKEN)) % 2 ^ 32 % table.length]? = some e ∧
        e.srv = srv ∧
        table[hf (token_bytes rq.request (rq.tokens KEY_TOKEN)) % 2 ^ 32 % table.length]?
          = some srv ∧
        mcplib_hash_selector_call (mcplib_hash_selector hf registry table).1
          (mcplib_hash_selector hf registry table).2 rq = some (.yield srv rq) ∧
        ∀ rq2 : mcp_request_t, key_token_set rq2 = true →
          token_bytes rq2.request (rq2.tokens KEY_TOKEN)
            = token_bytes rq.request (rq.tokens KEY_TOKEN) →
          mcplib_hash_selector_call (mcplib_hash_selector hf registry table).1
            (mcplib_hash_selector hf registry table).2 rq2 = some (.yield srv rq2)) := by
  have hpos : 0 < table.length := List.length_pos.mpr hne
  have hn : to_int table.length = table.length :=
    to_int_of_range _ (by unfold INT_MIN; omega) hsz
  have htake : table.take (to_int table.length).toNat = table := by
    rw [hn]
    simp
  obtain ⟨h1, h2, h3⟩ := selector_pool_spec table registry
  have hmod : ((table.length : Int) % 2 ^ 32).toNat = table.length := by
    unfold INT_MAX at hsz
    omega
  have hss : mcplib_hash_selector hf registry table =
      ({ func := hf, pool_size := (table.length : Int), pool := (selector_pool registry table).1 },
        registry ++ table) := by
    unfold mcplib_hash_selector
    dsimp only
    rw [htake, hn, h1]
  have hcall : ∀ r : mcp_request_t, key_token_set r = true → ∀ srv,
      table[hf (token_bytes r.request (r.tokens KEY_TOKEN)) % 2 ^ 32 % table.length]? = some srv →
      mcplib_hash_selector_call (mcplib_hash_selector hf registry table).1
        (mcplib_hash_selector hf registry table).2 r = some (.yield srv r) := by
    intro r hr srv hsrv
    have hp := h3 _ srv hsrv
    have hg := lua_rawgeti_append registry table
      (hf (token_bytes r.request (r.tokens KEY_TOKEN)) % 2 ^ 32 % table.length)
    rw [hsrv] at hg
    have hz : table.length ≠ 0 := by omega
    rw [hss]
    unfold mcplib_hash_selector_call
    rw [hr]
    simp only [Bool.not_true, Bool.false_eq_true, if_false]
    rw [hmod, if_neg hz, hp]
    dsimp only
    rw [hg]
  have hlt : hf (token_bytes rq.request (rq.tokens KEY_TOKEN)) % 2 ^ 32 % table.length
      < table.length := Nat.mod_lt _ hpos
  obtain ⟨srv, hsrv⟩ : ∃ srv, table[hf (token_bytes rq.request (rq.tokens KEY_TOKEN)) % 2 ^ 32
      % table.length]? = some srv := ⟨_, List.getElem?_eq_getElem hlt⟩
  refine ⟨by rw [hss], hlt, ⟨(registry.length : Int) +
    (hf (token_bytes rq.request (rq.tokens KEY_TOKEN)) % 2 ^ 32 % table.length : Nat) + 1, srv⟩,
    srv, ?_, rfl, hsrv, hcall rq hkey srv hsrv, ?_⟩
  · rw [hss]
    exact h3 _ srv hsrv
  · intro rq2 hk2 hk
    apply hcall _ hk2
    rw [hk]
    exact hsrv

/-- The completion callback returns when no coroutine of the chain ends with a userdata
that is not a response, on which `luaL_checkudata` raises a Lua error. -/
theorem proxy_complete_cb_some (env : Env) (resume : io_pending_proxy_t → lua_result_complete) :
    ∀ (chain : List (io_pending_proxy_t × mc_resp)) (c : conn),
    (∀ x ∈ chain, resume x.1 ≠ .ok .userdata_other) →
    ∃ c2 rs, proxy_complete_cb env resume c chain = some (c2, rs) := by
  intro chain
  induction chain with
  | nil => intro c _; exact ⟨c, [], rfl⟩
  | cons x rest ih =>
    intro c hall
    obtain ⟨p0, resp0⟩ := x
    have h0 : resume p0 ≠ .ok .userdata_other := hall (p0, resp0) (List.mem_cons_self _ _)
    have hone : ∃ c1 resp1, complete_one env (resume p0) c resp0 = some (c1, resp1) := by
      unfold complete_one
      cases hr : resume p0 with
      | ok top =>
        cases top with
        | response r uv =>
          dsimp only
          cases r.buf with
          | some b => exact ⟨_, _, rfl⟩
          | none =>
            cases uv with
            | some v => exact ⟨_, _, rfl⟩
            | none => exact ⟨_, _, rfl⟩
        | userdata_other => exact absurd hr h0
        | string s => exact ⟨_, _, rfl⟩
        | other => exact ⟨_, _, rfl⟩
      | yield srv rq => exact ⟨_, _, rfl⟩
      | error => exact ⟨_, _, rfl⟩
    obtain ⟨c1, resp1, h1⟩ := hone
    obtain ⟨c2, rs, h2⟩ := ih c1 (fun y hy => hall y (List.mem_cons_of_mem _ hy))
    refine ⟨c2, resp1 :: rs, ?_⟩
    simp only [proxy_complete_cb, h1, h2]

/-- For a GET hit at the head of a backend queue whose header read succeeds and whose
value is complete (already in the buffer, or after a successful value read): if the read
in state ReadEnd succeeds with an `END` line and the buffer is empty after it, the run
pops the request with the buffer header ++ value ++ `END\r\n` and
`blen = reslen + vlen + 5`. -/
theorem hit_reply_gets_end_appended (s : mcp_server_t) (h : proxy_heap) (p : Nat)
    (io : io_pending_proxy_t) (q : io_queue_t) (resp tmp : mcmc_resp_t)
    (buf buf2 : List Nat) (nb rm nb2 : Nat) (rest : List mcmc_answer)
    (hstate : s.state = .mcp_server_read) (hhead : s.req_stack_head = some p)
    (hio : h.ios[p]? = some io) (hq : h.queues[io.q]? = some q)
    (hwf : s.req_stack_tail = some p → io.server_next = none)
    (htype : resp.type = MCMC_RESP_GET) (hend : tmp.type = MCMC_RESP_END) :
    (resp.vlen = resp.vlen_read → resp.reslen + resp.vlen ≤ buf.length →
      ∃ st io1, proxy_server_drive_machine
          (.read MCMC_OK resp buf :: .buffer_consume nb rm :: .read MCMC_OK tmp buf2 ::
            .buffer_consume nb2 0 :: rest) s h = some st ∧
        st.s.req_stack_head = io.server_next ∧ st.h.ios[p]? = some io1 ∧
        io1.client_resp.resp.type = MCMC_RESP_GET ∧
        io1.client_resp.buf = some (buf.take (resp.reslen + resp.vlen) ++ ENDSTR) ∧
        io1.client_resp.blen = resp.reslen + resp.vlen + 5) ∧
    (∀ (data : List Nat) (rd : Int), resp.vlen ≠ resp.vlen_read →
      data.length = resp.vlen → resp.reslen ≤ buf.length →
      ∃ st io1, proxy_server_drive_machine
          (.read MCMC_OK resp buf :: .read_value MCMC_OK data rd :: .buffer_consume nb rm ::
            .read MCMC_OK tmp buf2 :: .buffer_consume nb2 0 :: rest) s h = some st ∧
        st.s.req_stack_head = io.server_next ∧ st.h.ios[p]? = some io1 ∧
        io1.client_resp.resp.type = MCMC_RESP_GET ∧
        io1.client_resp.buf = some (buf.take resp.reslen ++ data ++ ENDSTR) ∧
        io1.client_resp.blen = resp.reslen + resp.vlen + 5) := by
  constructor
  · intro hfull hlen
    have step1 := drive_read_hit s h p none {} io resp buf
      (.buffer_consume nb rm :: .read MCMC_OK tmp buf2 :: .buffer_consume nb2 0 :: rest)
      hstate hhead hio htype hfull
    have hio1 := set_client_resp_get h p io { io.client_resp with
      status := MCMC_OK, resp := resp, blen := resp.reslen + resp.vlen,
      buf := some (write_at (malloc_block (resp.reslen + resp.vlen + ENDLEN)) 0 buf
        (resp.reslen + resp.vlen)) } hio
    obtain ⟨rb2, step2⟩ := drive_read_end_ok
      { s with rbuf := some buf, state := .mcp_server_read_end } _ p (some p) {} _ _ nb rm
      tmp buf2 (.buffer_consume nb2 0 :: rest) rfl hhead hio1 rfl hend
    have hio2 := set_client_resp_get _ p _ { io.client_resp with
      status := MCMC_OK, resp := resp, blen := resp.reslen + resp.vlen + 5,
      buf := some (write_at (write_at (malloc_block (resp.reslen + resp.vlen + ENDLEN)) 0 buf
        (resp.reslen + resp.vlen)) (resp.reslen + resp.vlen) ENDSTR ENDLEN) } hio1
    obtain ⟨rb3, step3⟩ := drive_next_pop
      { s with rbuf := rb2, state := .mcp_server_next } _ p {} _ q nb2 0 rest rfl hio2
      (by rw [set_client_resp_queues, set_client_resp_queues]; exact hq) hwf
    rw [or_stop] at step3
    have hrun := ((drive_loop_go (rest.length + 1 + 1 + 1 + 1) _ _ step1).trans
      (drive_loop_go (rest.length + 1 + 1 + 1) _ _ step2)).trans
      (drive_loop_stop (rest.length + 1 + 1) _ _ step3)
    refine ⟨_, _, hrun, rfl, hio2, htype, ?_, rfl⟩
    show some (write_at (write_at (malloc_block (resp.reslen + resp.vlen + ENDLEN)) 0 buf
      (resp.reslen + resp.vlen)) (resp.reslen + resp.vlen) ENDSTR ENDLEN) = _
    rw [hit_buffer_full buf _ hlen]
  · intro data rd hpart hdata hlen
    have step1 := drive_read_hit_value s h p none {} io resp buf data rd
      (.buffer_consume nb rm :: .read MCMC_OK tmp buf2 :: .buffer_consume nb2 0 :: rest)
      hstate hhead hio htype hpart
    have hio1 := set_client_resp_get h p io { io.client_resp with
      status := MCMC_OK, resp := resp, blen := resp.reslen + resp.vlen,
      buf := some (write_at (write_at (malloc_block (resp.reslen + resp.vlen + ENDLEN)) 0 buf
        resp.reslen) resp.reslen data data.length), bread := rd } hio
    obtain ⟨rb2, step2⟩ := drive_read_end_ok
      { s with rbuf := some buf, state := .mcp_server_read_end } _ p (some p) {} _ _ nb rm
      tmp buf2 (.buffer_consume nb2 0 :: rest) rfl hhead hio1 rfl hend
    have hio2 := set_client_resp_get _ p _ { io.client_resp with
      status := MCMC_OK, resp := resp, blen := resp.reslen + resp.vlen + 5,
      buf := some (write_at (write_at (write_at (malloc_block (resp.reslen + resp.vlen + ENDLEN)) 0 buf
        resp.reslen) resp.reslen data data.length) (resp.reslen + resp.vlen) ENDSTR ENDLEN), bread := rd } hio1
    obtain ⟨rb3, step3⟩ := drive_next_pop
      { s with rbuf := rb2, state := .mcp_server_next } _ p {} _ q nb2 0 rest rfl hio2
      (by rw [set_client_resp_queues, set_client_resp_queues]; exact hq) hwf
    rw [or_stop] at step3
    have hrun := ((drive_loop_go (rest.length + 1 + 1 + 1 + 1 + 1) _ _ step1).trans
      (drive_loop_go (rest.length + 1 + 1 + 1 + 1) _ _ step2)).trans
      (drive_loop_stop (rest.length + 1 + 1 + 1) _ _ step3)
    refine ⟨_, _, hrun, rfl, hio2, htype, ?_, rfl⟩
    show some (write_at (write_at (write_at (malloc_block (resp.reslen + resp.vlen + ENDLEN))
      0 buf resp.reslen) resp.reslen data data.length) (resp.reslen + resp.vlen)
      ENDSTR ENDLEN) = _
    rw [hit_buffer_value buf data _ _ hlen hdata]

/-- The only in-flight request is answered by `VALUE foo 0 3\r\nbar\r\nEND\r\n`, all of it
in the buffer at the first read. -/
theorem hit_reply_gets_end_appended_example :
    ∃ st io1, proxy_server_drive_machine
        (.read MCMC_OK hit_resp (hit_bytes ++ ENDSTR) :: .buffer_consume 20 5 ::
          .read MCMC_OK ⟨MCMC_RESP_END, 5, 0, 0⟩ ENDSTR :: .buffer_consume 5 0 :: [])
        one_io_server one_io_heap = some st ∧
      st.s.req_stack_head = (get_io 0).server_next ∧ st.h.ios[0]? = some io1 ∧
      io1.client_resp.resp.type = MCMC_RESP_GET ∧
      io1.client_resp.buf
        = some ((hit_bytes ++ ENDSTR).take (hit_resp.reslen + hit_resp.vlen) ++ ENDSTR) ∧
      io1.client_resp.blen = hit_resp.reslen + hit_resp.vlen + 5 :=
  (hit_reply_gets_end_appended one_io_server one_io_heap 0 (get_io 0)
    { stack_ctx := [], count := 1 } hit_resp ⟨MCMC_RESP_END, 5, 0, 0⟩ (hit_bytes ++ ENDSTR)
    ENDSTR 20 5 5 [] rfl rfl rfl rfl (fun _ => rfl) rfl rfl).1 rfl (by decide)

/-- After `mcp_queue_io` for request `a` and then for request `b` on an empty batch, the
batch is `[b, a]`; when `proxy_submit_cb` processes it for a writable backend with an
empty queue and both writes succeed, the backend queue holds the batch in its order,
`[b, a]` with `b` at the head, and the bytes are offered to the socket in the same order,
those of `b` before those of `a`. -/
theorem submit_keeps_batch_order (env : Env) (c : conn) (a b : mcp_request_t)
    (B : mcp_server_t) (sent1 sent2 : Int) (rest : List mcmc_answer)
    (hempty : c.io_queue.stack_ctx = []) (hhead : B.req_stack_head = none)
    (htail : B.req_stack_tail = none) (hwrite : B.can_write = true) :
    (mcp_queue_io env (mcp_queue_io env c 0 a) 0 b).io_queue.stack_ctx.map
        (fun p => p.iov.head?)
      = [some ⟨some b.request, b.reqlen⟩, some ⟨some a.request, a.reqlen⟩] ∧
    ∃ servers h1,
      proxy_submit_cb (.request_writev MCMC_OK sent1 :: .request_writev MCMC_OK sent2 :: rest)
          [B]
          { ios := (mcp_queue_io env (mcp_queue_io env c 0 a) 0 b).io_queue.stack_ctx,
            queues := [(mcp_queue_io env (mcp_queue_io env c 0 a) 0 b).io_queue],
            redispatched := [], offered := [] }
          [0, 1] = some (servers, h1, rest) ∧
      servers.map (fun s => (s.req_stack_head, s.req_stack_tail)) = [(some 0, some 1)] ∧
      backend_queue 2 h1 (some 0) = [0, 1] ∧
      h1.ios.map (fun io => io.iov.map fun v => v.iov_base)
        = (mcp_queue_io env (mcp_queue_io env c 0 a) 0 b).io_queue.stack_ctx.map
            (fun io => io.iov.map fun v => v.iov_base) ∧
      h1.offered
        = (mcp_queue_io env (mcp_queue_io env c 0 a) 0 b).io_queue.stack_ctx.map iov_bytes := by
  obtain ⟨pb, pa, hstack, hfb, hfa, hsb, hsa, hib, hia⟩ :
      ∃ pb pa, (mcp_queue_io env (mcp_queue_io env c 0 a) 0 b).io_queue.stack_ctx = [pb, pa] ∧
        pb.flushed = false ∧ pa.flushed = false ∧ pb.server = 0 ∧ pa.server = 0 ∧
        pb.iov.head? = some ⟨some b.request, b.reqlen⟩ ∧
        pa.iov.head? = some ⟨some a.request, a.reqlen⟩ := by
    constructor
    constructor
    refine ⟨?_, ?_, ?_, ?_, ?_, ?_, ?_⟩
    · unfold mcp_queue_io
      dsimp only
      rw [hempty]
    · rfl
    · rfl
    · rfl
    · rfl
    · dsimp only
      split_ifs <;> rfl
    · dsimp only
      split_ifs <;> rfl
  rw [hstack]
  refine ⟨?_, ?_⟩
  · simp only [List.map_cons, List.map_nil, hib, hia]
  · exact proxy_submit_cb_pair B pb pa _ sent1 sent2 rest hhead htail hwrite hfb hfa hsb hsa

/-- The requests `get a` and `get b` of an idle connection, submitted to a ready
backend. -/
theorem submit_keeps_batch_order_example :
    queued_a_b.io_queue.stack_ctx.map (fun p => p.iov.head?)
      = [some ⟨some request_b.request, request_b.reqlen⟩,
          some ⟨some request_a.request, request_a.reqlen⟩] ∧
    ∃ servers h1,
      proxy_submit_cb (.request_writev MCMC_OK 7 :: .request_writev MCMC_OK 7 :: [])
          [ready_server]
          { ios := queued_a_b.io_queue.stack_ctx, queues := [queued_a_b.io_queue],
            redispatched := [], offered := [] }
          [0, 1] = some (servers, h1, []) ∧
      servers.map (fun s => (s.req_stack_head, s.req_stack_tail)) = [(some 0, some 1)] ∧
      backend_queue 2 h1 (some 0) = [0, 1] ∧
      h1.ios.map (fun io => io.iov.map fun v => v.iov_base)
        = queued_a_b.io_queue.stack_ctx.map (fun io => io.iov.map fun v => v.iov_base) ∧
      h1.offered = queued_a_b.io_queue.stack_ctx.map iov_bytes :=
  submit_keeps_batch_order hello_env idle_conn request_a request_b ready_server 7 7 []
    rfl rfl rfl rfl

/-! ## The claims -/

/-- C1: on the line `set <key> <f> <e> <n>\r\n` with a space-free key, `f` a 32-bit
unsigned value, `e` an `int` and `0 ≤ n ≤ INT_MAX - 2`, `process_request` yields
`command = CMD_SET`, `flags = f`, `exptime = e` and `vlen = n + 2`. -/
theorem process_request_set_fields (rq0 : mcp_request_t) (key mem : List Nat) (f : Nat)
    (e : Int) (n : Nat) (hk : 32 ∉ key) (hf : f ≤ UINT32_MAX)
    (he1 : INT_MIN ≤ e) (he2 : e ≤ INT_MAX) (hn : (n : Int) ≤ INT_MAX - 2)
    (hlen : (set_line key f e n).length < SIZE_MOD) :
    (process_request rq0 (set_line key f e n ++ mem) (set_line key f e n).length).command
        = CMD_SET ∧
      (process_request rq0 (set_line key f e n ++ mem) (set_line key f e n).length).flags = f ∧
      (process_request rq0 (set_line key f e n ++ mem) (set_line key f e n).length).exptime = e ∧
      (process_request rq0 (set_line key f e n ++ mem) (set_line key f e n).length).vlen
        = (n : Int) + 2 := by
  rw [process_request_set_line rq0 key mem f e n hk hf he1 he2 hn hlen]
  exact ⟨rfl, rfl, rfl, rfl⟩

/-- Witness for C1: `set k 0 0 5\r\n` gives `vlen = 7`. -/
theorem process_request_set_fields_witness :
    set_line (bytes "k") 0 0 5 = bytes "set k 0 0 5\r\n" ∧
      (process_request zero_request (set_line (bytes "k") 0 0 5 ++ [])
        (set_line (bytes "k") 0 0 5).length).vlen = 7 :=
  ⟨by decide,
    (process_request_set_fields zero_request (bytes "k") [] 0 0 5 (by decide) (by decide)
      (by decide) (by decide) (by decide) (by decide)).2.2.2⟩

/-- C2 (failing input): a bytes field of 4294967297 is accepted and stored as `vlen = 3`;
the boundary `INT_MAX - 2` is accepted with `vlen = INT_MAX`, and `INT_MAX - 1` is
rejected. -/
theorem set_bytes_field_wraps :
    (process_request zero_request (bytes "set k 0 0 4294967297\r\n")
        (bytes "set k 0 0 4294967297\r\n").length).vlen = 3 ∧
      (process_request zero_request (bytes "set k 0 0 4294967297\r\n")
        (bytes "set k 0 0 4294967297\r\n").length).command = CMD_SET ∧
      (process_request zero_request (bytes "set k 0 0 2147483645\r\n")
        (bytes "set k 0 0 2147483645\r\n").length).vlen = INT_MAX ∧
      (process_request zero_request (bytes "set k 0 0 2147483646\r\n")
        (bytes "set k 0 0 2147483646\r\n").length).vlen = 0 := by
  decide

/-- C3 (failing input): a flags field of 4294967296 is stored as `flags = 0` and an
exptime field of 4294967297 as `exptime = 1`; both lines are accepted with `vlen = 7`. -/
theorem set_flags_field_wraps :
    (process_request zero_request (bytes "set k 4294967296 0 5\r\n")
        (bytes "set k 4294967296 0 5\r\n").length).flags = 0 ∧
      (process_request zero_request (bytes "set k 4294967296 0 5\r\n")
        (bytes "set k 4294967296 0 5\r\n").length).vlen = 7 ∧
      (process_request zero_request (bytes "set k 4294967296 0 5\r\n")
        (bytes "set k 4294967296 0 5\r\n").length).command = CMD_SET ∧
      (process_request zero_request (bytes "set k 0 4294967297 5\r\n")
        (bytes "set k 0 4294967297 5\r\n").length).exptime = 1 ∧
      (process_request zero_request (bytes "set k 0 4294967297 5\r\n")
        (bytes "set k 0 4294967297 5\r\n").length).vlen = 7 := by
  decide

/-- C5: on a line `cmd SP key CRLF` with a space-free command token and a space-free,
non-empty key, the command code is decided by the command token alone: the six meta
commands, `get` and `delete` get their codes, every other token except `set` gets -1. -/
theorem process_request_command_code (rq0 : mcp_request_t) (cmd key mem : List Nat)
    (hc : 32 ∉ cmd) (hk : 32 ∉ key) (hne : key ≠ [])
    (hlen : (cmd ++ [32] ++ key ++ bytes "\r\n").length < SIZE_MOD)
    (hset : cmd ≠ bytes "set") :
    (process_request rq0 ((cmd ++ [32] ++ key ++ bytes "\r\n") ++ mem)
      (cmd ++ [32] ++ key ++ bytes "\r\n").length).command =
      if cmd = bytes "mg" then CMD_MG
      else if cmd = bytes "ms" then CMD_MS
      else if cmd = bytes "md" then CMD_MD
      else if cmd = bytes "mn" then CMD_MN
      else if cmd = bytes "ma" then CMD_MA
      else if cmd = bytes "me" then CMD_ME
      else if cmd = bytes "get" then CMD_GET
      else if cmd = bytes "delete" then CMD_DELETE
      else -1 :=
  command_code_by_length rq0 cmd key mem hc hk hne hlen hset

/-- Witness for C5: the token `mg` gives `CMD_MG`. -/
theorem process_request_command_code_witness :
    (process_request zero_request (bytes "mg" ++ [32] ++ bytes "foo" ++ bytes "\r\n" ++ [])
      (bytes "mg" ++ [32] ++ bytes "foo" ++ bytes "\r\n").length).command = CMD_MG :=
  (process_request_command_code zero_request (bytes "mg") (bytes "foo") [] (by decide)
    (by decide) (by decide) (by decide) (by decide)).trans (by decide)

/-- C6: on a line `<cmd> SP <key> [SP rest] CRLF` with non-empty, space-free `cmd` and
`key`, the command token is exactly the bytes of `cmd`, the key token exactly the bytes of
`key`, the scan counts two tokens and writes no slot other than the first two, and both
slices lie inside the first `cmdlen - 2` bytes of the line. -/
theorem process_request_tokens (rq0 : mcp_request_t) (cmd key mem : List Nat)
    (rest : Option (List Nat)) (hc : 32 ∉ cmd) (hk : 32 ∉ key)
    (hkne : key ≠ []) (hlen : (cmd_key_line cmd key rest).length < SIZE_MOD) :
    token_bytes (cmd_key_line cmd key rest ++ mem)
        ((process_request rq0 (cmd_key_line cmd key rest ++ mem)
          (cmd_key_line cmd key rest).length).tokens COMMAND_TOKEN) = cmd ∧
      token_bytes (cmd_key_line cmd key rest ++ mem)
        ((process_request rq0 (cmd_key_line cmd key rest ++ mem)
          (cmd_key_line cmd key rest).length).tokens KEY_TOKEN) = key ∧
      (tokenize rq0 (cmd_key_line cmd key rest ++ mem) (cmd_key_line cmd key rest).length).token
        = MAX_REQ_TOKENS ∧
      (∀ i, MAX_REQ_TOKENS ≤ i →
        (process_request rq0 (cmd_key_line cmd key rest ++ mem)
          (cmd_key_line cmd key rest).length).tokens i = rq0.tokens i) ∧
      (∀ i, i < MAX_REQ_TOKENS →
        ((process_request rq0 (cmd_key_line cmd key rest ++ mem)
          (cmd_key_line cmd key rest).length).tokens i).value +
        ((process_request rq0 (cmd_key_line cmd key rest ++ mem)
          (cmd_key_line cmd key rest).length).tokens i).length
          ≤ (cmd_key_line cmd key rest).length - 2) := by
  obtain ⟨h1, h2⟩ := tokenize_cmd_key_line rq0 cmd key mem rest hc hk hkne hlen
  rw [(process_request_keeps rq0 _ _).1, h1]
  have hb : ∃ tl, cmd_key_line cmd key rest ++ mem = cmd ++ 32 :: (key ++ tl) ∧
      cmd.length + 1 + key.length + 2 ≤ (cmd_key_line cmd key rest).length := by
    cases rest with
    | none => exact ⟨13 :: 10 :: mem, by simp [cmd_key_line, bytes_crlf],
        by simp [cmd_key_line, bytes_crlf]; omega⟩
    | some r => exact ⟨32 :: (r ++ 13 :: 10 :: mem), by simp [cmd_key_line, bytes_crlf],
        by simp [cmd_key_line, bytes_crlf]; omega⟩
  obtain ⟨tl, hb1, hb2⟩ := hb
  refine ⟨?_, ?_, h2, ?_, ?_⟩
  · rw [hb1]
    simp [token_bytes, cmd_key_tokens, setTok, COMMAND_TOKEN]
  · rw [hb1]
    have : List.drop (cmd.length + 1) (cmd ++ 32 :: (key ++ tl)) = key ++ tl := by
      rw [show cmd ++ 32 :: (key ++ tl) = (cmd ++ [32]) ++ (key ++ tl) by simp,
        show cmd.length + 1 = (cmd ++ [32]).length by simp, List.drop_left]
    simp [token_bytes, cmd_key_tokens, setTok, KEY_TOKEN, this]
  · intro i hi
    unfold MAX_REQ_TOKENS at hi
    have h0 : i ≠ 0 := by omega
    have h1 : i ≠ 1 := by omega
    simp [cmd_key_tokens, setTok, h0, h1]
  · intro i hi
    unfold MAX_REQ_TOKENS at hi
    have : i = 0 ∨ i = 1 := by omega
    rcases this with rfl | rfl
    · simp [cmd_key_tokens, setTok]
      omega
    · simp [cmd_key_tokens, setTok]
      omega

/-- Witness for C6: the tokens of `get foo\r\n` are `get` and `foo`. -/
theorem process_request_tokens_witness :
    cmd_key_line (bytes "get") (bytes "foo") none = bytes "get foo\r\n" ∧
      token_bytes (cmd_key_line (bytes "get") (bytes "foo") none ++ [])
        ((process_request zero_request (cmd_key_line (bytes "get") (bytes "foo") none ++ [])
          (cmd_key_line (bytes "get") (bytes "foo") none).length).tokens KEY_TOKEN)
        = bytes "foo" :=
  ⟨by decide,
    (process_request_tokens zero_request (bytes "get") (bytes "foo") [] none (by decide)
      (by decide) (by decide) (by decide)).2.1⟩

/-- C7: the request keeps the raw line (`request`, `reqlen`), and the pending IO built
by `mcp_queue_io` from it offers exactly that line: one iovec when `vlen = 0`, and when
`vlen ≠ 0` a second iovec with the `vlen`-byte value buffer, so that the bytes offered to
the backend are the line followed by the payload. -/
theorem queued_io_is_request_line (env : Env) (c : conn) (s : Nat) (fresh : mcp_request_t)
    (L mem payload : List Nat) (rq : mcp_request_t)
    (hrq : rq = mcp_new_request fresh (L ++ mem) L.length) :
    rq.request = L ++ mem ∧ rq.reqlen = L.length ∧
      (rq.vlen = 0 →
        ∃ p, (mcp_queue_io env c s rq).resp.io_pending = some p ∧ p.iovcnt = 1 ∧
          p.iov.head? = some ⟨some (L ++ mem), L.length⟩ ∧ iov_bytes p = L) ∧
      (rq.vlen ≠ 0 → (payload.length : Int) = rq.vlen →
        ∃ p, (mcp_queue_io env c s { rq with buf := some payload }).resp.io_pending = some p ∧
          p.iovcnt = 2 ∧
          p.iov = [⟨some (L ++ mem), L.length⟩, ⟨some payload, payload.length⟩] ∧
          iov_bytes p = L ++ payload) := by
  obtain ⟨h1, h2⟩ := mcp_new_request_line fresh (L ++ mem) L.length
  rw [← hrq] at h1 h2
  refine ⟨h1, h2, ?_, ?_⟩
  · intro hv
    refine ⟨_, rfl, ?_, ?_, ?_⟩
    · simp [hv]
    · simp [hv, h1, h2]
    · simp [iov_bytes, hv, h1, h2]
  · intro hv hp
    have hn : rq.vlen.toNat = payload.length := by omega
    refine ⟨_, rfl, ?_, ?_, ?_⟩
    · simp [hv]
    · simp [hv, h1, h2, hn]
    · simp [iov_bytes, hv, h1, h2, hn]

/-- Witness for C7: `get foo\r\n` goes out byte-identical. -/
theorem queued_io_is_request_line_witness :
    ∃ p, (mcp_queue_io hello_env idle_conn 0
        (mcp_new_request zero_request (bytes "get foo\r\n" ++ []) (bytes "get foo\r\n").length)
        ).resp.io_pending = some p ∧ p.iovcnt = 1 ∧
      p.iov.head? = some ⟨some (bytes "get foo\r\n" ++ []), (bytes "get foo\r\n").length⟩ ∧
      iov_bytes p = bytes "get foo\r\n" :=
  (queued_io_is_request_line hello_env idle_conn 0 zero_request (bytes "get foo\r\n") [] []
    (mcp_new_request zero_request (bytes "get foo\r\n" ++ []) (bytes "get foo\r\n").length)
    rfl).2.2.1 (by decide)

/-- C8: when the parsed request has `vlen > 0`, `process_proxy_command` does not resume
the routing coroutine and writes no reply; it sets `rlbytes = vlen` and the state
`conn_nread`. When `vlen = 0` the coroutine is resumed on the request at once. -/
theorem value_command_waits_for_payload (env : Env) (c : conn) (command : List Nat)
    (cmdlen : Nat) (rq : mcp_request_t)
    (hrq : rq = mcp_new_request env.fresh_request command cmdlen)
    (hs : env.resp_start = true) :
    (0 < rq.vlen →
        (process_proxy_command env c command cmdlen).resumed = c.resumed ∧
        (process_proxy_command env c command cmdlen).resp.iov = [] ∧
        (process_proxy_command env c command cmdlen).rlbytes = rq.vlen ∧
        (process_proxy_command env c command cmdlen).state = .conn_nread) ∧
      (rq.vlen = 0 →
        (process_proxy_command env c command cmdlen).resumed = rq :: c.resumed) := by
  constructor
  · intro hv
    rw [process_proxy_command_nread env c command cmdlen rq hrq hs (by omega)]
    exact ⟨rfl, rfl, rfl, rfl⟩
  · intro hv
    rw [process_proxy_command_resume env c command cmdlen rq hrq hs hv]
    exact (resume_and_reply_resumed _ _ _).1

/-- Witness for C8: after `set k 0 0 5\r\n` the connection waits for 7 bytes. -/
theorem value_command_waits_for_payload_witness :
    (process_proxy_command hello_env idle_conn (bytes "set k 0 0 5\r\n") 13).rlbytes = 7 ∧
      (process_proxy_command hello_env idle_conn (bytes "set k 0 0 5\r\n") 13).state
        = .conn_nread :=
  ⟨((value_command_waits_for_payload hello_env idle_conn (bytes "set k 0 0 5\r\n") 13
      (mcp_new_request hello_env.fresh_request (bytes "set k 0 0 5\r\n") 13) rfl rfl).1
      (by decide)).2.2.1.trans (by decide),
    ((value_command_waits_for_payload hello_env idle_conn (bytes "set k 0 0 5\r\n") 13
      (mcp_new_request hello_env.fresh_request (bytes "set k 0 0 5\r\n") 13) rfl rfl).1
      (by decide)).2.2.2⟩

/-- C10 (failing input): for `set k 0 0 5\r\n` followed by the seven bytes `helloXY`,
`process_proxy_command` asks for 7 more bytes and `complete_nread_proxy` then returns
without resuming the routing function and without adding a reply. -/
theorem bad_payload_gets_no_reply :
    set_command_conn.state = conn_states.conn_nread ∧ set_command_conn.rlbytes = 7 ∧
      set_command_conn.resp.iov = [] ∧
      bad_payload_conn.map (fun c => (c.resp.iov, c.resumed.length, c.state))
        = some ([], 0, conn_states.conn_new_cmd) := by
  decide

/-- C11: when the routing function returns a string `s`, the reply added for the client
is the first `min |s| WRITE_BUFFER_SIZE` bytes of `s`: `process_proxy_command` and
`complete_nread_proxy` add it, and `proxy_complete_cb`, which returns whenever no
coroutine of the chain ends with a foreign userdata, adds it for every pending IO whose
coroutine returns `s`; a string no longer than the write buffer is delivered unchanged. -/
theorem string_reply_is_cut (env : Env) (s : List Nat) :
    (∀ (c : conn) (command : List Nat) (cmdlen : Nat) (rq : mcp_request_t),
        rq = mcp_new_request env.fresh_request command cmdlen → env.resp_start = true →
        rq.vlen = 0 → env.lua_resume rq = .ok (.string s) →
        (process_proxy_command env c command cmdlen).resp.iov =
          [s.take (min s.length env.WRITE_BUFFER_SIZE)]) ∧
      (∀ (c : conn) (co : coroutine) (Ls : List coroutine) (item : List Nat),
        c.L = co :: Ls → c.item = some item → (item.length : Int) = co.rq.vlen →
        2 ≤ item.length → last_two item = bytes "\r\n" →
        env.lua_resume { co.rq with buf := some item } = .ok (.string s) →
        ∃ c2, complete_nread_proxy env c = some c2 ∧
          c2.resp.iov = c.resp.iov ++ [s.take (min s.length env.WRITE_BUFFER_SIZE)]) ∧
      (∀ (resume : io_pending_proxy_t → lua_result_complete)
        (chain : List (io_pending_proxy_t × mc_resp)) (c : conn)
        (i : Nat) (p : io_pending_proxy_t) (resp : mc_resp),
        chain[i]? = some (p, resp) → resume p = .ok (.string s) →
        (∀ x ∈ chain, resume x.1 ≠ .ok .userdata_other) →
        ∃ c2 rs r2, proxy_complete_cb env resume c chain = some (c2, rs) ∧
          rs[i]? = some r2 ∧
          r2.iov = resp.iov ++ [s.take (min s.length env.WRITE_BUFFER_SIZE)]) ∧
      (s.length ≤ env.WRITE_BUFFER_SIZE →
        s.take (min s.length env.WRITE_BUFFER_SIZE) = s) := by
  refine ⟨?_, ?_, ?_, ?_⟩
  · intro c command cmdlen rq hrq hs hv hres
    rw [process_proxy_command_resume env c command cmdlen rq hrq hs hv,
      resume_and_reply_string _ _ _ s hres]
    rfl
  · intro c co Ls item hL hi hlen h2 hcr hres
    refine ⟨_, complete_nread_proxy_resume env c co Ls item hL hi hlen h2 hcr, ?_⟩
    rw [resume_and_reply_string _ _ _ s hres]
  · intro resume chain c i p resp hi hres hall
    obtain ⟨c2, rs, hrun⟩ := proxy_complete_cb_some env resume chain c hall
    obtain ⟨r2, hr2, hiov⟩ :=
      proxy_complete_cb_string env resume s chain c c2 rs i p resp hi hres hrun
    exact ⟨c2, rs, r2, hrun, hr2, hiov⟩
  · intro h
    rw [Nat.min_eq_left h, List.take_length]

/-- Witness for C11: `SERVER_ERROR no route\r\n` is delivered unchanged for `get foo\r\n`,
for the payload of `set k 0 0 5\r\n`, and for a pending IO that has completed. -/
theorem string_reply_is_cut_witness :
    (process_proxy_command no_route_env idle_conn (bytes "get foo\r\n") 9).resp.iov =
        [bytes "SERVER_ERROR no route\r\n"] ∧
      (∃ c2, complete_nread_proxy no_route_env (set_payload_conn no_route_env) = some c2 ∧
        c2.resp.iov = (set_payload_conn no_route_env).resp.iov ++
          [(bytes "SERVER_ERROR no route\r\n").take
            (min (bytes "SERVER_ERROR no route\r\n").length no_route_env.WRITE_BUFFER_SIZE)]) ∧
      (∃ c2 rs r2, proxy_complete_cb no_route_env
            (fun _ => .ok (.string (bytes "SERVER_ERROR no route\r\n"))) idle_conn
            [(sample_io, idle_conn.resp)] = some (c2, rs) ∧
        rs[0]? = some r2 ∧
        r2.iov = idle_conn.resp.iov ++
          [(bytes "SERVER_ERROR no route\r\n").take
            (min (bytes "SERVER_ERROR no route\r\n").length no_route_env.WRITE_BUFFER_SIZE)]) :=
  ⟨((string_reply_is_cut no_route_env (bytes "SERVER_ERROR no route\r\n")).1 idle_conn
      (bytes "get foo\r\n") 9
      (mcp_new_request no_route_env.fresh_request (bytes "get foo\r\n") 9)
      rfl rfl (by decide) rfl).trans (by decide),
    (string_reply_is_cut no_route_env (bytes "SERVER_ERROR no route\r\n")).2.1
      (set_payload_conn no_route_env)
      ⟨{ mcp_new_request no_route_env.fresh_request (bytes "set k 0 0 5\r\n") 13 with
        buf := none }⟩ [] (bytes "hello\r\n") rfl rfl (by decide) (by decide) (by decide) rfl,
    (string_reply_is_cut no_route_env (bytes "SERVER_ERROR no route\r\n")).2.2.1
      (fun _ => .ok (.string (bytes "SERVER_ERROR no route\r\n"))) [(sample_io, idle_conn.resp)]
      idle_conn 0 sample_io idle_conn.resp rfl rfl
      (fun _ _ h => lua_result_complete.noConfusion h
        (fun h2 => lua_top_complete.noConfusion h2))⟩

/-- C12 (failing input): when the coroutine ends in an error, the reply is the 15 bytes
`SERVER_ERROR lu`, not the 26-byte line, in `process_proxy_command`,
`complete_nread_proxy` and `proxy_complete_cb`. -/
theorem error_reply_is_cut_short :
    (process_proxy_command failing_env idle_conn (bytes "get foo\r\n") 9).resp.iov
        = [bytes "SERVER_ERROR lu"] ∧
      (complete_nread_proxy failing_env (set_payload_conn failing_env)).map
          (fun c => c.resp.iov) = some [bytes "SERVER_ERROR lu"] ∧
      (proxy_complete_cb failing_env (fun _ => .error) idle_conn
          [(sample_io, idle_conn.resp)]).map (fun r => r.2.map fun x => x.iov)
        = some [[bytes "SERVER_ERROR lu"]] ∧
      (bytes "SERVER_ERROR lu").length = 15 ∧
      (bytes "SERVER_ERROR lua failure\r\n").length = 26 := by
  decide

/-- C13 (failing input): a GET hit is popped with `END\r\n` appended (25 bytes) when the
`END` line is read at once; when header and value have arrived and the read of the `END`
line would block, and when the value is followed by `STORED\r\n`, the hit is popped and
its client redispatched with the 20 bytes of header and value, `blen = 20`, status OK and
no `END\r\n`. -/
theorem hit_is_forwarded_without_end :
    whole_hit_run.map (fun st => (st.s.req_stack_head, st.h.redispatched,
        st.h.ios.map fun io => (io.client_resp.resp.type, response_view io)))
      = some ((none : Option Nat), [0],
          [(MCMC_RESP_GET, true, hit_bytes ++ ENDSTR, 25, MCMC_OK)]) ∧
    end_pending_run.map (fun st => (st.s.req_stack_head, st.h.redispatched,
        st.h.ios.map fun io => (io.client_resp.resp.type, response_view io)))
      = some ((none : Option Nat), [0], [(MCMC_RESP_GET, true, hit_bytes, 20, MCMC_OK)]) ∧
    desync_run.map (fun st => (st.s.req_stack_head, st.h.redispatched,
        st.h.ios.map fun io => (io.client_resp.resp.type, response_view io)))
      = some ((none : Option Nat), [0], [(MCMC_RESP_GET, true, hit_bytes, 20, MCMC_OK)]) ∧
    hit_resp.reslen + hit_resp.vlen + 5 = 25 ∧
    hit_bytes ++ ENDSTR = bytes "VALUE foo 0 3\r\nbar\r\nEND\r\n" := by
  exact ⟨rfl, rfl, rfl, rfl, by decide⟩

/-- C14: when the backend answers the head request with an `END` line (kind END, no
value, the line being the first `reslen` bytes of the buffer), the turn in state Read
moves straight to state Next, and the run pops the request with exactly `END\r\n` as its
response: `blen = reslen = 5`, `vlen = 0`, status OK, nothing appended. -/
theorem end_line_is_the_reply (s : mcp_server_t) (h : proxy_heap) (p : Nat)
    (io : io_pending_proxy_t) (q : io_queue_t) (resp : mcmc_resp_t) (buf : List Nat)
    (newbuf : Nat) (rest : List mcmc_answer)
    (hstate : s.state = .mcp_server_read) (hhead : s.req_stack_head = some p)
    (hio : h.ios[p]? = some io) (hq : h.queues[io.q]? = some q)
    (hwf : s.req_stack_tail = some p → io.server_next = none)
    (htype : resp.type = MCMC_RESP_END) (hvlen : resp.vlen = 0) (hread : resp.vlen_read = 0)
    (hlen : resp.reslen ≤ buf.length) (hline : buf.take resp.reslen = ENDSTR) :
    (∃ st1, drive_step ⟨s, h, none, {}, .read MCMC_OK resp buf ::
          .buffer_consume newbuf 0 :: rest⟩ = some (st1, false) ∧
        st1.s.state = .mcp_server_next) ∧
      ∃ st io1, proxy_server_drive_machine
          (.read MCMC_OK resp buf :: .buffer_consume newbuf 0 :: rest) s h = some st ∧
        st.s.req_stack_head = io.server_next ∧ st.script = rest ∧
        st.h.ios[p]? = some io1 ∧ io1.client_resp.buf = some ENDSTR ∧
        io1.client_resp.blen = 5 ∧ io1.client_resp.resp.vlen = 0 ∧
        io1.client_resp.status = MCMC_OK := by
  have h5 : resp.reslen = 5 := by
    have := congrArg List.length hline
    rw [List.length_take, Nat.min_eq_left hlen] at this
    exact this
  have step1 := drive_read_end_line s h p none {} io resp buf
    (.buffer_consume newbuf 0 :: rest) hstate hhead hio htype hvlen hread
  have hio1 := set_client_resp_get h p io { io.client_resp with
      status := MCMC_OK, resp := resp, blen := resp.reslen,
      buf := some (buf.take resp.reslen) } hio
  obtain ⟨rb, step2⟩ := drive_next_pop
    { s with rbuf := some buf, state := .mcp_server_next }
    (set_client_resp h p { io.client_resp with
      status := MCMC_OK, resp := resp, blen := resp.reslen,
      buf := some (buf.take resp.reslen) }) p {} _ q newbuf 0 rest rfl hio1
    (by rw [set_client_resp_queues]; exact hq) hwf
  rw [or_stop] at step2
  have hrun := (drive_loop_go (rest.length + 1 + 1) _ _ step1).trans
    (drive_loop_stop (rest.length + 1) _ _ step2)
  refine ⟨⟨_, step1, rfl⟩, ?_⟩
  refine ⟨_, { io with client_resp := { io.client_resp with
      status := MCMC_OK, resp := resp, blen := resp.reslen,
      buf := some (buf.take resp.reslen) } }, hrun, ?_, ?_, ?_, ?_, ?_, ?_, ?_⟩
  · rfl
  · rfl
  · exact hio1
  · show some (buf.take resp.reslen) = some ENDSTR
    rw [hline]
  · exact h5
  · exact hvlen
  · rfl

/-- Witness for C14: the backend answers the only in-flight request with `END\r\n`. -/
theorem end_line_is_the_reply_witness :
    (∃ st1, drive_step ⟨one_io_server, one_io_heap, none, {},
          .read MCMC_OK ⟨MCMC_RESP_END, 5, 0, 0⟩ ENDSTR :: .buffer_consume 5 0 :: []⟩
          = some (st1, false) ∧
        st1.s.state = .mcp_server_next) ∧
      ∃ st io1, proxy_server_drive_machine
          (.read MCMC_OK ⟨MCMC_RESP_END, 5, 0, 0⟩ ENDSTR :: .buffer_consume 5 0 :: [])
          one_io_server one_io_heap = some st ∧
        st.s.req_stack_head = (get_io 0).server_next ∧ st.script = [] ∧
        st.h.ios[0]? = some io1 ∧ io1.client_resp.buf = some ENDSTR ∧
        io1.client_resp.blen = 5 ∧ io1.client_resp.resp.vlen = 0 ∧
        io1.client_resp.status = MCMC_OK :=
  end_line_is_the_reply one_io_server one_io_heap 0 (get_io 0) { stack_ctx := [], count := 1 }
    ⟨MCMC_RESP_END, 5, 0, 0⟩ ENDSTR 5 [] rfl rfl rfl rfl (fun _ => rfl) rfl rfl rfl
    (by decide) (by decide)

/-- C15 (failing input): with the queue `[p1]` and only part of the header line arrived,
the run pops `p1` (the queue is empty afterwards) and leaves its response buffer
unset. -/
theorem split_header_loses_response :
    split_header_run.map (fun st => (st.s.req_stack_head, st.s.req_stack_tail,
        st.h.ios.map response_view))
      = some ((none : Option Nat), (none : Option Nat),
          [(false, ([] : List Nat), 0, MCMC_WANT_READ)]) := by
  rfl

/-- C16 (failing input): after `mcp_queue_io` for `get a` and then `get b` the batch is
`[b, a]`. For a writable backend `proxy_submit_cb` makes the backend queue `[b, a]`
(address 0 holds the IO of `get b`) and offers the bytes of `get b` before those of
`get a`. For a backend that is still connecting it queues `[b, a]` as well and offers
nothing; the `EV_WRITE` handler then offers `get b` before `get a`. -/
theorem submit_queue_is_b_then_a :
    queued_a_b.io_queue.stack_ctx.map iov_bytes = [bytes "get b\r\n", bytes "get a\r\n"] ∧
    submitted_a_b.map (fun r => (r.1.map (fun s => (s.req_stack_head, s.req_stack_tail)),
        backend_queue 2 r.2.1 (some 0),
        r.2.1.ios.map (fun io => io.iov.head?.bind fun v => v.iov_base), r.2.1.offered))
      = some ([(some 0, some 1)], [0, 1], [some (bytes "get b\r\n"), some (bytes "get a\r\n")],
          [bytes "get b\r\n", bytes "get a\r\n"]) ∧
    submitted_a_b_connecting.map (fun r =>
        (r.1.map (fun s => (s.req_stack_head, s.req_stack_tail)),
          backend_queue 2 r.2.1 (some 0), r.2.1.ios.map iov_bytes, r.2.1.offered))
      = some ([(some 0, some 1)], [0, 1], [bytes "get b\r\n", bytes "get a\r\n"], []) ∧
    flushed_a_b_connecting.map (fun r => (backend_queue 2 r.2.1 r.1.req_stack_head,
        r.2.1.offered))
      = some ([0, 1], [bytes "get b\r\n", bytes "get a\r\n"]) := by
  exact ⟨rfl, rfl, rfl, rfl⟩

/-- C17 (failing input): `proxy_server_handler` called with `EV_TIMEOUT` alone, for any
backend and memory, returns the memory as it was and the backend with its queue as it
was; on a queue of two pending IOs both stay queued, their statuses and the counts of
their IO queues are untouched, and no client is redispatched. -/
theorem timeout_drains_nothing :
    (∀ (script : List mcmc_answer) (s : mcp_server_t) (h : proxy_heap),
      ∃ s1, proxy_server_handler { timeout := true } script s h = some (s1, h, script) ∧
        s1.req_stack_head = s.req_stack_head ∧ s1.req_stack_tail = s.req_stack_tail) ∧
    (proxy_server_handler { timeout := true } [] two_io_server two_io_heap).map
        (fun r => (backend_queue 2 r.2.1 r.1.req_stack_head,
          r.2.1.ios.map (fun io => io.client_resp.status),
          r.2.1.queues.map (fun q => q.count), r.2.1.redispatched))
      = some ([0, 1], [0, 0], [1, 1], ([] : List Nat)) := by
  constructor
  · intro script s h
    unfold proxy_server_handler
    dsimp only
    simp only [Bool.false_eq_true, if_false]
    split_ifs
    · exact ⟨_, rfl, rfl, rfl⟩
    · exact ⟨_, rfl, rfl, rfl⟩
  · rfl

/-- C18 (failing input): when the line after a GET value is `STORED\r\n`, only the head
is popped: the second pending IO stays queued (head and tail point to it), and the popped
response has status `MCMC_OK`, so that `response:ok()` is true for it. -/
theorem desync_does_not_drain :
    desync_run_two.map (fun st => (st.s.req_stack_head, st.s.req_stack_tail,
        st.h.ios.map fun io => mcplib_response_ok io.client_resp,
        st.h.queues.map fun q => q.count))
      = some (some 1, some 1, [true, true], [0, 1]) := by
  decide

/-- C19 (failing input): when the header read in state Read, or the read of the `END`
line in state ReadEnd, answers `MCMC_WANT_READ`, the run pops the head (the second
pending IO becomes the head), decrements the count of its IO queue to 0, redispatches the
client, and returns an event set without `EV_READ`. A would-block of the value read stops
the run as claimed. -/
theorem header_would_block_pops_head :
    header_would_block_run.map (fun st => (st.s.req_stack_head,
        st.h.queues.map (fun q => q.count), st.h.redispatched, st.flags.read))
      = some (some 1, [0, 1], [0], false) ∧
    end_would_block_run.map (fun st => (st.s.req_stack_head,
        st.h.queues.map (fun q => q.count), st.h.redispatched, st.flags.read))
      = some (some 1, [0, 1], [0], false) ∧
    value_would_block_run.map (fun st => (st.s.req_stack_head,
        st.h.queues.map (fun q => q.count), st.h.redispatched, st.flags.read))
      = some (some 0, [1, 1], ([] : List Nat), true) := by
  refine ⟨?_, ?_, ?_⟩ <;> decide

/-- C20 (failing input): the request of `mn\r\n` has one token, so its key slot was never
written, and `mcplib_hash_selector_call` on it reads that slot: the model has no result
for it. The request of `get foo\r\n` has its key slot written and, with the byte-sum hash
and three servers, yields with the server at index `324 mod 3 = 0`. For every request
whose key slot is written the call yields the server at pool index `H(key) mod n`. -/
theorem keyless_request_reads_unset_token :
    key_token_set (mcp_new_request zero_request (bytes "mn\r\n") 4) = false ∧
    (tokenize zero_request (bytes "mn\r\n") 4).token = 1 ∧
    yielded_server (mcplib_hash_selector_call (mcplib_hash_selector sum_hash [7] [10, 11, 12]).1
        (mcplib_hash_selector sum_hash [7] [10, 11, 12]).2
        (mcp_new_request zero_request (bytes "mn\r\n") 4)) = none ∧
    (mcplib_hash_selector_call (mcplib_hash_selector sum_hash [7] [10, 11, 12]).1
        (mcplib_hash_selector sum_hash [7] [10, 11, 12]).2
        (mcp_new_request zero_request (bytes "mn\r\n") 4)).isNone = true ∧
    token_bytes (bytes "get foo\r\n")
        ((mcp_new_request zero_request (bytes "get foo\r\n") 9).tokens KEY_TOKEN)
      = bytes "foo" ∧
    yielded_server (mcplib_hash_selector_call (mcplib_hash_selector sum_hash [7] [10, 11, 12]).1
        (mcplib_hash_selector sum_hash [7] [10, 11, 12]).2
        (mcp_new_request zero_request (bytes "get foo\r\n") 9)) = some 10 ∧
    (∀ (hf : List Nat → Nat) (registry table : List Nat) (rq : mcp_request_t),
      table ≠ [] → (table.length : Int) ≤ INT_MAX → key_token_set rq = true →
      hf (token_bytes rq.request (rq.tokens KEY_TOKEN)) % 2 ^ 32 % table.length
        < table.length ∧
      ∃ srv,
        table[hf (token_bytes rq.request (rq.tokens KEY_TOKEN)) % 2 ^ 32 % table.length]?
          = some srv ∧
        yielded_server (mcplib_hash_selector_call (mcplib_hash_selector hf registry table).1
          (mcplib_hash_selector hf registry table).2 rq) = some srv ∧
        ∀ rq2 : mcp_request_t, key_token_set rq2 = true →
          token_bytes rq2.request (rq2.tokens KEY_TOKEN)
            = token_bytes rq.request (rq.tokens KEY_TOKEN) →
          yielded_server (mcplib_hash_selector_call
            (mcplib_hash_selector hf registry table).1
            (mcplib_hash_selector hf registry table).2 rq2) = some srv) := by
  refine ⟨by decide, by decide, by decide, by decide, by decide, by decide, ?_⟩
  intro hf registry table rq hne hsz hkey
  obtain ⟨-, hlt, -, srv, -, -, hsrv, hcall, hsame⟩ :=
    hash_selector_picks_by_hash hf registry table rq hne hsz hkey
  refine ⟨hlt, srv, hsrv, ?_, ?_⟩
  · rw [hcall]
    rfl
  · intro rq2 hk2 hk
    rw [hsame rq2 hk2 hk]
    rfl

/-- C21 (failing input): for the empty pool table `mcplib_hash_selector` builds a selector
with `pool_size = 0` and an empty pool, and `mcplib_hash_selector_call` on it, for any
request, is the division by zero of `hash % ss->pool_size`. -/
theorem empty_pool_divides_by_zero (hf : List Nat → Nat) (registry : List Nat) :
    (mcplib_hash_selector hf registry []).1.pool_size = 0 ∧
      (mcplib_hash_selector hf registry []).1.pool = [] ∧
      ∀ rq : mcp_request_t,
        mcplib_hash_selector_call (mcplib_hash_selector hf registry []).1
          (mcplib_hash_selector hf registry []).2 rq = none := by
  refine ⟨rfl, rfl, ?_⟩
  intro rq
  unfold mcplib_hash_selector_call
  cases key_token_set rq
  · rfl
  · rfl

/-- C22 (counterexample): with exactly 1024 buffered bytes `a`, none a newline and not
starting with `get ` or `gets `, `try_read_command_proxy` returns 0 and leaves the
connection, which is not closing, as it was. -/
theorem full_buffer_is_not_closed :
    (conn_with (List.replicate 1024 97)).rbytes = 1024 ∧
      memchr (conn_with (List.replicate 1024 97)).rcurr 10 1024 = none ∧
      (List.replicate 1024 97).take 4 ≠ bytes "get " ∧
      (List.replicate 1024 97).take 5 ≠ bytes "gets " ∧
      try_read_command_proxy hello_env (conn_with (List.replicate 1024 97))
        = (0, conn_with (List.replicate 1024 97)) ∧
      (conn_with (List.replicate 1024 97)).state = .conn_parse_cmd := by
  have hlen : (conn_with (List.replicate 1024 97)).rbytes = 1024 := List.length_replicate _ _
  have hnl : memchr (conn_with (List.replicate 1024 97)).rcurr 10 1024 = none :=
    memchr_replicate 1024 1024 97 10 (by decide)
  refine ⟨hlen, hnl, by decide, by decide, ?_, rfl⟩
  apply try_read_short_without_newline
  · rw [hlen]
    decide
  · rw [hlen]
    exact hnl
  · rw [hlen]

/-- C22 (amended): when the buffered bytes hold no newline and there are more than 1024 of
them, `try_read_command_proxy` moves the connection to closing unless the bytes, after at
most 100 leading spaces, start with `get ` or `gets `; in that case it closes only when
the read buffer is not yet malloc'ed and switching to a malloc'ed one fails. With at most
1024 bytes and no newline it returns 0 and leaves the connection as it is. -/
theorem long_line_without_newline (env : Env) (c : conn)
    (hnl : memchr c.rcurr 10 c.rbytes = none) :
    (1024 < c.rbytes →
      (100 < spanLen (fun b => b == 32) c.rcurr ∨
        (strncmp (c.rcurr.drop (spanLen (fun b => b == 32) c.rcurr)) (bytes "get ") 4 ≠ 0 ∧
          strncmp (c.rcurr.drop (spanLen (fun b => b == 32) c.rcurr)) (bytes "gets ") 5 ≠ 0)) →
      try_read_command_proxy env c = (1, { c with state := .conn_closing })) ∧
    (1024 < c.rbytes → spanLen (fun b => b == 32) c.rcurr ≤ 100 →
      (strncmp (c.rcurr.drop (spanLen (fun b => b == 32) c.rcurr)) (bytes "get ") 4 = 0 ∨
        strncmp (c.rcurr.drop (spanLen (fun b => b == 32) c.rcurr)) (bytes "gets ") 5 = 0) →
      (c.rbuf_malloced = true → try_read_command_proxy env c = (0, c)) ∧
      (c.rbuf_malloced = false → env.rbuf_switch_to_malloc = true →
        try_read_command_proxy env c = (0, { c with rbuf_malloced := true })) ∧
      (c.rbuf_malloced = false → env.rbuf_switch_to_malloc = false →
        try_read_command_proxy env c = (1, { c with state := .conn_closing }))) ∧
    (0 < c.rbytes → c.rbytes ≤ 1024 → try_read_command_proxy env c = (0, c)) := by
  refine ⟨?_, ?_, ?_⟩
  · intro hgt hbad
    unfold try_read_command_proxy
    rw [if_neg (by omega), hnl]
    dsimp only
    rw [if_pos hgt, if_pos hbad]
  · intro hgt hsp hget
    have hgood : ¬ (spanLen (fun b => b == 32) c.rcurr > 100 ∨
        (strncmp (c.rcurr.drop (spanLen (fun b => b == 32) c.rcurr)) (bytes "get ") 4 ≠ 0 ∧
          strncmp (c.rcurr.drop (spanLen (fun b => b == 32) c.rcurr)) (bytes "gets ") 5 ≠ 0))
        := by
      rintro (h | ⟨h1, h2⟩)
      · omega
      · rcases hget with h | h
        · exact h1 h
        · exact h2 h
    refine ⟨?_, ?_, ?_⟩
    · intro hm
      unfold try_read_command_proxy
      rw [if_neg (by omega), hnl]
      dsimp only
      rw [if_pos hgt, if_neg hgood]
      simp [hm]
    · intro hm hsw
      unfold try_read_command_proxy
      rw [if_neg (by omega), hnl]
      dsimp only
      rw [if_pos hgt, if_neg hgood]
      simp [hm, hsw, rbuf_switch_to_malloc]
    · intro hm hsw
      unfold try_read_command_proxy
      rw [if_neg (by omega), hnl]
      dsimp only
      rw [if_pos hgt, if_neg hgood]
      simp [hm, hsw, rbuf_switch_to_malloc]
  · intro h0 hle
    exact try_read_short_without_newline env c (by omega) hnl hle

/-- Witness for C22: 1025 buffered bytes `a` close the connection. -/
theorem long_line_without_newline_witness :
    try_read_command_proxy hello_env (conn_with (List.replicate 1025 97))
      = (1, { conn_with (List.replicate 1025 97) with state := .conn_closing }) :=
  (long_line_without_newline hello_env (conn_with (List.replicate 1025 97))
    (by
      rw [show (conn_with (List.replicate 1025 97)).rbytes = 1025 from
        List.length_replicate _ _]
      exact memchr_replicate 1025 1025 97 10 (by decide))).1
    (by
      rw [show (conn_with (List.replicate 1025 97)).rbytes = 1025 from
        List.length_replicate _ _]
      decide)
    (Or.inr (by decide))

/-- C23 (failing input): a backend created while its connect is in progress has
`connecting = true`, `can_write = false`; after a request has been queued for it and
`proxy_server_handler` has handled `EV_WRITE` with a successful connect check, it has
`can_write = true` and still `connecting = true` (and the request has been written). -/
theorem connecting_is_never_cleared :
    ((mcplib_server MCMC_CONNECTING).connecting, (mcplib_server MCMC_CONNECTING).can_write)
        = (true, false) ∧
      connecting_run.map (fun r => (r.1.connecting, r.1.can_write,
          r.2.1.ios.map fun io => io.flushed)) = some (true, true, [true]) := by
  constructor <;> rfl

/-- C24 (failing input): the pending IO holds the 9 bytes `get foo\r\n`; the first write
sends 4 of them and answers `MCMC_WANT_WRITE`, which leaves the lengths 5 and 0 and the
base pointers as they were; the next call offers `get f`, the first 5 bytes, not the 5
bytes `foo\r\n` from offset 4 on, and sets `flushed`. -/
theorem partial_write_resends_the_start :
    (_flush_pending_write [.request_writev MCMC_WANT_WRITE 4] one_io_server
          { unflushed_heap with ios := [{ get_io 0 with flushed := false }] } 0).map
        (fun r => r.2.2.1.ios.map fun io => (io.flushed, io.iov)) =
      some [(false, [⟨some (bytes "get foo\r\n"), 5⟩, ⟨none, 0⟩])] ∧
    partial_write_run.map (fun r => (r.2.2.1.offered, r.2.2.1.ios.map fun io => io.flushed))
      = some ([bytes "get foo\r\n", bytes "get f"], [true]) ∧
    (bytes "get foo\r\n").take 4 ++ bytes "get f" ≠ bytes "get foo\r\n" ∧
    (bytes "get foo\r\n").drop 4 = bytes "foo\r\n" := by
  refine ⟨rfl, rfl, by decide, by decide⟩

/-- C25 (failing input): on a queue of two unwritten pending IOs the `EV_WRITE` loop of
`proxy_server_handler` goes on to the second after the write of the first answered
`MCMC_WANT_WRITE` with 4 of 9 bytes sent, and `proxy_submit_cb` goes on to the second
after the write of the first failed: in both runs the second is passed to `writev` and
marked flushed while the first is not flushed. -/
theorem later_io_is_written_first :
    blocked_write_run.map (fun r => (backend_queue 2 r.2.1 r.1.req_stack_head,
        r.2.1.ios.map (fun io => io.flushed), r.2.1.offered.length))
      = some ([0, 1], [false, true], 2) ∧
    failed_write_run.map (fun r => (backend_queue 2 r.2.1 (some 0),
        r.2.1.ios.map (fun io => io.flushed), r.2.1.offered.length))
      = some ([0, 1], [false, true], 2) := by
  constructor <;> rfl

/-- C26 (failing input): in state WantRead, when the value read answers an error status,
the turn changes nothing and does not stop; after any number of such answers the run is
where it began, and with nothing but such answers it never returns. -/
theorem error_in_want_read_spins :
    (∀ (lp : Option Nat) (rest : List mcmc_answer),
      drive_step ⟨waiting_server, waiting_heap, lp, {}, .read_value MCMC_ERR [] 0 :: rest⟩
        = some (⟨waiting_server, waiting_heap, some 0, {}, rest⟩, false)) ∧
    (∀ (k : Nat) (rest : List mcmc_answer),
      proxy_server_drive_machine (List.replicate (k + 1) (.read_value MCMC_ERR [] 0) ++ rest)
          waiting_server waiting_heap
        = drive_loop (rest.length + 1) ⟨waiting_server, waiting_heap, some 0, {}, rest⟩) ∧
    (∀ k : Nat,
      proxy_server_drive_machine (List.replicate k (.read_value MCMC_ERR [] 0))
        waiting_server waiting_heap = none) := by
  refine ⟨drive_want_read_error, ?_, ?_⟩
  · intro k rest
    unfold proxy_server_drive_machine
    have h := drive_want_read_errors (k + 1) none (rest.length + 1) rest
    rw [if_neg (by omega)] at h
    rw [← h]
    congr 1
    simp
    omega
  · intro k
    unfold proxy_server_drive_machine
    have h := drive_want_read_errors k none 1 []
    rw [List.append_nil] at h
    rw [List.length_replicate, h]
    rfl

/-- C27: a turn in state Next, for the local `p` equal to the head of a well-formed queue,
makes the successor of `p` the head, clears head and tail when `p` was the tail, leaves
the pending IOs and hence the order of the rest of the queue as they were, decrements the
count of the IO queue owning `p` by one, and redispatches the client of `p` exactly when
that count becomes zero; the local `p` is the head after every turn in another state. -/
theorem next_removes_the_head (s : mcp_server_t) (h : proxy_heap) (p : Nat) (fl : ev_flags)
    (io : io_pending_proxy_t) (q : io_queue_t) (newbuf remain n : Nat)
    (rest : List mcmc_answer) (hstate : s.state = .mcp_server_next)
    (hhead : s.req_stack_head = some p) (hio : h.ios[p]? = some io)
    (hq : h.queues[io.q]? = some q)
    (hwf : s.req_stack_tail = some p → io.server_next = none) :
    (∃ st1 stop,
      drive_step ⟨s, h, some p, fl, .buffer_consume newbuf remain :: rest⟩ = some (st1, stop) ∧
      st1.s.req_stack_head = io.server_next ∧
      st1.s.req_stack_tail = (if s.req_stack_tail = some p then none else s.req_stack_tail) ∧
      (s.req_stack_tail = some p →
        st1.s.req_stack_head = none ∧ st1.s.req_stack_tail = none) ∧
      st1.h.ios = h.ios ∧
      backend_queue n st1.h st1.s.req_stack_head
        = (backend_queue (n + 1) h s.req_stack_head).tail ∧
      st1.h.queues = h.queues.set io.q { q with count := q.count - 1 } ∧
      st1.h.redispatched
        = (if q.count - 1 = 0 then h.redispatched ++ [io.c] else h.redispatched)) ∧
    (∀ (st st1 : drive_state) (stop : Bool), st.s.state ≠ .mcp_server_next →
      drive_step st = some (st1, stop) → st1.p = st1.s.req_stack_head ∧ st1.p ≠ none) := by
  obtain ⟨rb, hstep⟩ := drive_next_pop s h p fl io q newbuf remain rest hstate hio hq hwf
  refine ⟨⟨_, _, hstep, rfl, rfl, ?_, rfl, ?_, rfl, rfl⟩, drive_step_sets_p⟩
  · intro ht
    exact ⟨hwf ht, if_pos ht⟩
  · rw [hhead]
    show _ = (p :: _).tail
    rw [hio]
    exact backend_queue_ios n _ h io.server_next rfl

/-- Witness for C27: the first of two queued requests is popped. -/
theorem next_removes_the_head_witness :
    (∃ st1 stop,
      drive_step ⟨{ two_io_server with state := .mcp_server_next }, two_io_heap, some 0, {},
          .buffer_consume 5 0 :: []⟩ = some (st1, stop) ∧
      st1.s.req_stack_head = ({ get_io 0 with server_next := some 1 } : io_pending_proxy_t).server_next ∧
      st1.s.req_stack_tail = (if ({ two_io_server with state := .mcp_server_next } :
          mcp_server_t).req_stack_tail = some 0 then none
        else ({ two_io_server with state := .mcp_server_next } : mcp_server_t).req_stack_tail) ∧
      (({ two_io_server with state := .mcp_server_next } : mcp_server_t).req_stack_tail = some 0 →
        st1.s.req_stack_head = none ∧ st1.s.req_stack_tail = none) ∧
      st1.h.ios = two_io_heap.ios ∧
      backend_queue 1 st1.h st1.s.req_stack_head
        = (backend_queue (1 + 1) two_io_heap
            ({ two_io_server with state := .mcp_server_next } : mcp_server_t).req_stack_head).tail ∧
      st1.h.queues = two_io_heap.queues.set
          ({ get_io 0 with server_next := some 1 } : io_pending_proxy_t).q
          { ({ stack_ctx := [], count := 1 } : io_queue_t) with
            count := ({ stack_ctx := [], count := 1 } : io_queue_t).count - 1 } ∧
      st1.h.redispatched
        = (if ({ stack_ctx := [], count := 1 } : io_queue_t).count - 1 = 0 then
            two_io_heap.redispatched
              ++ [({ get_io 0 with server_next := some 1 } : io_pending_proxy_t).c]
          else two_io_heap.redispatched)) ∧
    (∀ (st st1 : drive_state) (stop : Bool), st.s.state ≠ .mcp_server_next →
      drive_step st = some (st1, stop) → st1.p = st1.s.req_stack_head ∧ st1.p ≠ none) :=
  next_removes_the_head { two_io_server with state := .mcp_server_next } two_io_heap 0 {}
    { get_io 0 with server_next := some 1 } { stack_ctx := [], count := 1 } 5 0 1 [] rfl rfl
    rfl rfl (fun h => absurd h (by decide))

/-- C28: the buffer invariant (every response has `blen` at most the size of its buffer;
the head of the queue is, in state ReadEnd, a GET hit with `blen = reslen + vlen` in a
buffer of `blen + 5` bytes) holds when no response has a buffer yet and is kept by every
turn and every run of `proxy_server_drive_machine`; a turn in state Read allocates
`reslen + vlen` bytes, plus 5 for kind GET; a turn in state ReadEnd ends in state Next
and either leaves the response as it is or, for kind GET only, appends once, after which
`blen = reslen + vlen + 5` is the size of the buffer. -/
theorem blen_fits_the_buffer :
    (∀ (s : mcp_server_t) (h : proxy_heap), s.state = .mcp_server_read →
      (∀ io ∈ h.ios, io.client_resp.buf = none) → buffers_fit s h = true) ∧
    (∀ (st st1 : drive_state) (stop : Bool), buffers_fit st.s st.h = true →
      answer_fits st = true → drive_step st = some (st1, stop) →
      buffers_fit st1.s st1.h = true ∧
        ∀ io ∈ st1.h.ios, ∀ b, io.client_resp.buf = some b → io.client_resp.blen ≤ b.length) ∧
    (∀ (script : List mcmc_answer) (s : mcp_server_t) (h : proxy_heap) (st1 : drive_state),
      buffers_fit s h = true → run_fits (script.length + 1) ⟨s, h, none, {}, script⟩ = true →
      proxy_server_drive_machine script s h = some st1 → buffers_fit st1.s st1.h = true) ∧
    (∀ (st st1 : drive_state) (stop : Bool) (p : Nat) (io : io_pending_proxy_t)
      (status : Int) (resp : mcmc_resp_t) (buf : List Nat) (rest : List mcmc_answer),
      st.s.state = .mcp_server_read → st.s.req_stack_head = some p →
      st.h.ios[p]? = some io → st.script = .read status resp buf :: rest →
      (resp.type = MCMC_RESP_GET ∨ resp.type = MCMC_RESP_END ∨
        resp.type = MCMC_RESP_META ∨ resp.type = MCMC_RESP_GENERIC) →
      answer_fits st = true → drive_step st = some (st1, stop) →
      ∃ io1 b, st1.h.ios[p]? = some io1 ∧ io1.client_resp.resp = resp ∧
        io1.client_resp.blen = resp.reslen + resp.vlen ∧ io1.client_resp.buf = some b ∧
        b.length = resp.reslen + resp.vlen + if resp.type = MCMC_RESP_GET then 5 else 0) ∧
    (∀ (st st1 : drive_state) (stop : Bool), st.s.state = .mcp_server_read_end →
      buffers_fit st.s st.h = true → drive_step st = some (st1, stop) →
      st1.s.state = .mcp_server_next ∧
      ∃ p io io1, st.s.req_stack_head = some p ∧ st.h.ios[p]? = some io ∧
        st1.h.ios[p]? = some io1 ∧
        (io1.client_resp = io.client_resp ∨
          (io.client_resp.resp.type = MCMC_RESP_GET ∧ io1.client_resp.resp = io.client_resp.resp ∧
            io1.client_resp.blen = io.client_resp.blen + 5 ∧
            io1.client_resp.blen = io.client_resp.resp.reslen + io.client_resp.resp.vlen + 5 ∧
            ∃ b, io1.client_resp.buf = some b ∧ b.length = io1.client_resp.blen))) := by
  refine ⟨?_, ?_, ?_, ?_, ?_⟩
  · intro s h hs hnone
    apply buffers_fit_idle _ _ _ (Or.inr hs)
    intro io hio
    rw [resp_fits_iff]
    intro b hb
    rw [hnone io hio] at hb
    cases hb
  · intro st st1 stop hinv hfit hstep
    have h1 := drive_step_keeps_fit st st1 stop hinv hfit hstep
    refine ⟨h1, ?_⟩
    intro io hio
    exact (resp_fits_iff _).mp (((buffers_fit_iff _ _).mp h1).1 io hio)
  · intro script s h st1 hinv hrun hm
    exact drive_loop_keeps_fit _ _ _ hinv hrun hm
  · intro st st1 stop p io status resp buf rest hst hh hio hscript hres hfit hstep
    unfold drive_step at hstep
    rw [hst] at hstep
    exact drive_read_allocates st st1 stop p io status resp buf rest hst hh hio hscript hres
      hfit hstep
  · intro st st1 stop hst hinv hstep
    unfold drive_step at hstep
    rw [hst] at hstep
    exact (drive_read_end_keeps_fit st st1 stop hst hinv hstep).2

/-- Witness for C28: the run on `VALUE foo 0 3\r\nbar\r\nEND\r\n` for the only request in
flight returns, and ends with the invariant. -/
theorem blen_fits_the_buffer_witness :
    (proxy_server_drive_machine
        [.read MCMC_OK hit_resp (hit_bytes ++ ENDSTR), .buffer_consume 20 5,
          .read MCMC_OK ⟨MCMC_RESP_END, 5, 0, 0⟩ ENDSTR, .buffer_consume 5 0]
        one_io_server one_io_heap).map (fun st => buffers_fit st.s st.h) = some true := by
  have hs : (proxy_server_drive_machine
      [.read MCMC_OK hit_resp (hit_bytes ++ ENDSTR), .buffer_consume 20 5,
        .read MCMC_OK ⟨MCMC_RESP_END, 5, 0, 0⟩ ENDSTR, .buffer_consume 5 0]
      one_io_server one_io_heap).isSome = true := rfl
  obtain ⟨st1, hrun⟩ := Option.isSome_iff_exists.mp hs
  rw [hrun]
  exact congrArg some (blen_fits_the_buffer.2.2.1
    [.read MCMC_OK hit_resp (hit_bytes ++ ENDSTR), .buffer_consume 20 5,
      .read MCMC_OK ⟨MCMC_RESP_END, 5, 0, 0⟩ ENDSTR, .buffer_consume 5 0]
    one_io_server one_io_heap st1 rfl rfl hrun)

/-- C29 (failing input): with two requests in flight and only the response to the first
arrived, the run pops the first and returns with the second still queued and an event set
without `EV_READ`; `proxy_server_handler` then arms the event for the timeout alone. -/
theorem stops_without_read_event :
    first_answer_run.map (fun st => (backend_queue 2 st.h st.s.req_stack_head, st.flags.read))
      = some ([1], false) ∧
    first_answer_handler.map (fun r => (r.1.req_stack_head, r.1.event))
      = some (some 1, some { timeout := true, read := false, write := false }) := by
  constructor <;> rfl

/-- C30 (failing input): for the buffer `\na b c\r\n` the line handed on is the one byte
`\n` (`reqlen = 1`), the scan counter starts at `cmdlen - 2 = SIZE_MAX`, and the scan
reads five bytes, four of them after the line: the tokens are bytes 0..1 and byte 3. For
every line of two bytes or more the scan reads at most `cmdlen - 2` bytes. -/
theorem one_byte_line_scans_past_the_line :
    (tokenize zero_request (bytes "\na b c\r\n") 1).cur = 5 ∧
      (try_read_command_proxy hello_env (conn_with (bytes "\na b c\r\n"))).2.resumed.map
          (fun rq => (rq.reqlen, rq.tokens COMMAND_TOKEN, rq.tokens KEY_TOKEN))
        = [(1, ⟨0, 2⟩, ⟨3, 1⟩)] ∧
      ∀ (rq : mcp_request_t) (command : List Nat) (cmdlen : Nat),
        2 ≤ cmdlen → cmdlen < SIZE_MOD → (tokenize rq command cmdlen).cur ≤ cmdlen - 2 := by
  refine ⟨by decide, by decide, ?_⟩
  intro rq command cmdlen h2 hlt
  obtain ⟨n, rfl⟩ : ∃ n, cmdlen = n + 2 := ⟨cmdlen - 2, by omega⟩
  have h := tokenize_cur_le rq command n hlt
  omega

end Proxy
